import Mathlib

/-!
Verification of the interface-wizard message pipeline
(`src/actual-code/main_with_fastapi.py` and `main_ui_compatible.py`).

Python strings are modelled as `List Char`; bytes as `List Nat`
(each < 256).  Each definition carries a note naming the source
function and lines it embeds.
-/

set_option maxRecDepth 10000

abbrev Str := List Char

/-- Python `\s` (ASCII whitespace; the inputs handled here are ASCII). -/
def isPySpace (c : Char) : Bool :=
  c = ' ' || c = '\t' || c = '\n' || c = '\x0d' || c = '\x0b' || c = '\x0c'

/-- Python `str.strip()` (no argument): drop whitespace from both ends. -/
def pyStripWs (s : Str) : Str :=
  ((s.dropWhile isPySpace).reverse.dropWhile isPySpace).reverse

/-- Python `str.strip(chars)`: drop any of `chars` from both ends. -/
def pyStripChars (chars : Str) (s : Str) : Str :=
  ((s.dropWhile (chars.contains ·)).reverse.dropWhile (chars.contains ·)).reverse

/-- Python `needle in hay` for strings: substring containment. -/
def pyContains (needle hay : Str) : Bool :=
  match hay with
  | [] => needle.isPrefixOf hay
  | _ :: t => needle.isPrefixOf hay || pyContains needle t

/-- Helper for `splitOnChar`: first piece and the remaining pieces. -/
def splitAux (sep : Char) : Str → Str × List Str
  | [] => ([], [])
  | c :: t =>
    if c = sep then ([], (splitAux sep t).1 :: (splitAux sep t).2)
    else (c :: (splitAux sep t).1, (splitAux sep t).2)

/-- Python `str.split(sep)` for a one-character separator. -/
def splitOnChar (sep : Char) (s : Str) : List Str :=
  (splitAux sep s).1 :: (splitAux sep s).2

/-- Python `sep.join(pieces)` for a one-character separator. -/
def joinWithChar (sep : Char) : List Str → Str
  | [] => []
  | [p] => p
  | p :: ps => p ++ sep :: joinWithChar sep ps

/-- `str.replace("\n", "\r")`: a one-character replace is a map. -/
def replaceNlCr (s : Str) : Str :=
  s.map (fun c => if c = '\n' then '\x0d' else c)

/-! ### UTF-8 (Python `str.encode("utf-8")`) -/

/-- UTF-8 encoding of one scalar value (Char codepoints are valid scalars). -/
def utf8Char (c : Char) : List Nat :=
  let n := c.toNat
  if n < 0x80 then [n]
  else if n < 0x800 then [0xC0 + n / 64, 0x80 + n % 64]
  else if n < 0x10000 then
    [0xE0 + n / 4096, 0x80 + (n / 64) % 64, 0x80 + n % 64]
  else
    [0xF0 + n / 262144, 0x80 + (n / 4096) % 64, 0x80 + (n / 64) % 64,
     0x80 + n % 64]

/-- `s.encode("utf-8")`. -/
def utf8Encode (s : Str) : List Nat := s.flatMap utf8Char

/-! ### C1: MLLP framing (`send_to_mirth`, main_with_fastapi.py lines 959-977)

```
START_BLOCK = b"\x0b"
END_BLOCK = b"\x1c\x0d"
hl7_bytes = hl7_message.replace("\n", "\r").encode("utf-8")
mllp_message = START_BLOCK + hl7_bytes + END_BLOCK
...
sock.sendall(mllp_message)
```
-/

/-- The exact byte sequence `send_to_mirth` writes to the socket. -/
def mllpWireBytes (hl7_message : Str) : List Nat :=
  0x0b :: utf8Encode (replaceNlCr hl7_message) ++ [0x1c, 0x0d]

lemma char_toNat_inj {a b : Char} (h : a.toNat = b.toNat) : a = b := by
  have ha := Char.ofNat_toNat a
  have hb := Char.ofNat_toNat b
  rw [← ha, ← hb, h]

lemma utf8Char_ascii (c : Char) (h : c.toNat < 0x80) : utf8Char c = [c.toNat] := by
  simp [utf8Char, h]

lemma utf8Char_big (c : Char) (hge : 0x80 ≤ c.toNat) :
    ∀ b ∈ utf8Char c, 0x80 ≤ b := by
  intro b hb
  have hlt : ¬ c.toNat < 0x80 := Nat.not_lt.mpr hge
  by_cases h2 : c.toNat < 0x800
  · simp only [utf8Char, hlt, if_false, h2, if_true, List.mem_cons,
      List.not_mem_nil, or_false] at hb
    rcases hb with rfl | rfl <;> omega
  · by_cases h3 : c.toNat < 0x10000
    · simp only [utf8Char, hlt, if_false, h2, h3, if_true, List.mem_cons,
        List.not_mem_nil, or_false] at hb
      rcases hb with rfl | rfl | rfl <;> omega
    · simp only [utf8Char, hlt, h2, h3, if_false, List.mem_cons,
        List.not_mem_nil, or_false] at hb
      rcases hb with rfl | rfl | rfl | rfl <;> omega

lemma utf8Char_no_ctrl (c : Char) (h11 : c ≠ '\x0b') (h1c : c ≠ '\x1c') :
    ∀ b ∈ utf8Char c, b ≠ 0x0b ∧ b ≠ 0x1c := by
  intro b hb
  by_cases hlt : c.toNat < 0x80
  · rw [utf8Char_ascii c hlt, List.mem_singleton] at hb
    subst hb
    refine ⟨fun hc => h11 (char_toNat_inj hc), fun hc => h1c (char_toNat_inj hc)⟩
  · have hbig := utf8Char_big c (Nat.le_of_not_lt hlt) b hb
    omega

/-- C1: the MLLP send operation puts on the wire exactly
`0x0B ++ utf8(message with "\n"→"\r") ++ 0x1C 0x0D`; the frame begins with
`0x0B`, ends with `0x1C 0x0D`, and when the message has no `\x0b`/`\x1c`
control characters, the payload contains no stray `0x0B` or `0x1C`. -/
theorem C1_mllp_framing (m : Str)
    (hctrl : ∀ c ∈ m, c ≠ '\x0b' ∧ c ≠ '\x1c') :
    mllpWireBytes m = 0x0b :: (utf8Encode (replaceNlCr m) ++ [0x1c, 0x0d]) ∧
    (mllpWireBytes m).head? = some 0x0b ∧
    (mllpWireBytes m).drop (1 + (utf8Encode (replaceNlCr m)).length)
      = [0x1c, 0x0d] ∧
    (∀ b ∈ utf8Encode (replaceNlCr m), b ≠ 0x0b ∧ b ≠ 0x1c) := by
  refine ⟨rfl, rfl, ?_, ?_⟩
  · show (0x0b :: (utf8Encode (replaceNlCr m) ++ [0x1c, 0x0d])).drop _ = _
    rw [Nat.add_comm, List.drop_succ_cons, List.drop_left]
  · intro b hb
    rw [utf8Encode, List.mem_flatMap] at hb
    obtain ⟨c, hc, hbc⟩ := hb
    rw [replaceNlCr, List.mem_map] at hc
    obtain ⟨c0, hc0, hcc⟩ := hc
    subst hcc
    by_cases hnl : c0 = '\n'
    · simp only [hnl, if_true] at hbc
      exact utf8Char_no_ctrl '\x0d' (by decide) (by decide) b hbc
    · simp only [if_neg hnl] at hbc
      exact utf8Char_no_ctrl c0 (hctrl c0 hc0).1 (hctrl c0 hc0).2 b hbc

theorem C1_mllp_framing_witness :
    (∀ c ∈ ("MSH|^~\\&|APP".data ++ '\n' :: "PID|1|X".data),
        c ≠ '\x0b' ∧ c ≠ '\x1c') ∧
    (mllpWireBytes ("MSH|^~\\&|APP".data ++ '\n' :: "PID|1|X".data)).head?
      = some 0x0b :=
  ⟨by decide, (C1_mllp_framing _ (by decide)).2.1⟩

/-! ### C2: ACK classification (`send_to_mirth`, main_with_fastapi.py lines 981-1001)

```
response = sock.recv(4096)
ack_message = ""
if response:
    ack_message = response.decode("utf-8", errors="ignore").strip("\x0b\x1c\x0d")
    if "AA" in ack_message or "CA" in ack_message:
        return True, ack_message
    else:
        return False, ack_message
else:
    return True, "Message sent successfully (no ACK received)"
```
`bytes.decode("utf-8", errors="ignore")` is Python-stdlib code, so it is kept
as a parameter `decodeIgnore` of the embedding.
-/

def ackNoResponseMsg : Str := "Message sent successfully (no ACK received)".data

def mllpControlChars : Str := ['\x0b', '\x1c', '\x0d']

/-- The classification `send_to_mirth` applies to the bytes `recv` returned. -/
def classifyAck (decodeIgnore : List Nat → Str) (response : List Nat) :
    Bool × Str :=
  match response with
  | [] => (true, ackNoResponseMsg)
  | _ :: _ =>
    let ack := pyStripChars mllpControlChars (decodeIgnore response)
    if pyContains "AA".data ack || pyContains "CA".data ack then (true, ack)
    else (false, ack)

/-- C2 counterexample: when the socket yields no response bytes after the
send, the code classifies the result as ACCEPTED (`True`) with a fixed
success message — not as a rejection as the claim states. -/
theorem C2_counterexample :
    classifyAck (fun _ => []) [] = (true, ackNoResponseMsg) := rfl

/-- C2 (amended): for a NONEMPTY response the send is classified accepted iff
the decoded text, stripped of the three MLLP control bytes, contains `AA` or
`CA`, and that stripped text is returned verbatim; an empty response is
classified accepted with the fixed message
"Message sent successfully (no ACK received)". -/
theorem C2_ack_classification (decodeIgnore : List Nat → Str)
    (response : List Nat) (hne : response ≠ []) :
    ((classifyAck decodeIgnore response).1 = true ↔
      (pyContains "AA".data
          (pyStripChars mllpControlChars (decodeIgnore response)) = true ∨
       pyContains "CA".data
          (pyStripChars mllpControlChars (decodeIgnore response)) = true)) ∧
    (classifyAck decodeIgnore response).2 =
      pyStripChars mllpControlChars (decodeIgnore response) ∧
    classifyAck decodeIgnore [] = (true, ackNoResponseMsg) := by
  match response with
  | [] => exact absurd rfl hne
  | b :: bs =>
    refine ⟨?_, ?_, rfl⟩ <;> simp only [classifyAck] <;> split <;>
      simp_all [Bool.or_eq_true]

theorem C2_ack_classification_witness :
    ([65] : List Nat) ≠ [] ∧
    (classifyAck (fun _ => "MSA|AA|1".data) [65]).1 = true :=
  ⟨by decide,
   ((C2_ack_classification (fun _ => "MSA|AA|1".data) [65]
      (by decide)).1).2 (Or.inl (by decide))⟩

/-! ### C4: PatientRecord validation
(`validate_patient_record`, main_with_fastapi.py lines 595-623)

The Python loop over the literal list
`["firstName", "lastName", "dateOfBirth", "gender", "mrn"]` is embedded
unrolled, one `reqCheck` per field, in the same order.  A missing key and an
empty string are both falsy in `if not patient.get(field)`, so field values
are `Str` with `[]` meaning missing/empty.
-/

structure PatientDict where
  firstName : Str
  lastName : Str
  dateOfBirth : Str
  gender : Str
  mrn : Str

def pyLowerChar (c : Char) : Char :=
  if 'A' ≤ c ∧ c ≤ 'Z' then Char.ofNat (c.toNat + 32) else c

/-- Python `str.lower()` (ASCII). -/
def pyLower (s : Str) : Str := s.map pyLowerChar

/-- `re.match(r"^\d{4}-\d{2}-\d{2}$", s)`: Python `$` also matches just
before one trailing newline. -/
def dobShape : Str → Bool
  | [y1, y2, y3, y4, '-', m1, m2, '-', d1, d2] =>
    y1.isDigit && y2.isDigit && y3.isDigit && y4.isDigit &&
    m1.isDigit && m2.isDigit && d1.isDigit && d2.isDigit
  | [y1, y2, y3, y4, '-', m1, m2, '-', d1, d2, '\n'] =>
    y1.isDigit && y2.isDigit && y3.isDigit && y4.isDigit &&
    m1.isDigit && m2.isDigit && d1.isDigit && d2.isDigit
  | _ => false

def genderAllowed : List Str :=
  ["m".data, "f".data, "male".data, "female".data, "other".data,
   "u".data, "unknown".data]

/-- One iteration of the required-field loop (lines 606-609). -/
def reqCheck (label : Str) (value : Str) (acc : List Str × Str) :
    List Str × Str :=
  if value.isEmpty then
    (acc.1 ++ ["Missing required field: ".data ++ label], "invalid".data)
  else acc

/-- The loop over `["firstName","lastName","dateOfBirth","gender","mrn"]`
(lines 605-609), unrolled in order. -/
def reqPhase (p : PatientDict) : List Str × Str :=
  reqCheck "mrn".data p.mrn
    (reqCheck "gender".data p.gender
      (reqCheck "dateOfBirth".data p.dateOfBirth
        (reqCheck "lastName".data p.lastName
          (reqCheck "firstName".data p.firstName ([], "valid".data)))))

/-- `status = "warning" if status == "valid" else status` (lines 615, 621). -/
def warnMerge (st : Str) : Str :=
  if st = "valid".data then "warning".data else st

/-- Lines 612-615: the date-of-birth format check. -/
def dobPhase (dob : Str) (acc : List Str × Str) : List Str × Str :=
  if !dob.isEmpty && !dobShape dob then
    (acc.1 ++ ["Invalid date format for DOB: ".data ++ dob], warnMerge acc.2)
  else acc

/-- Lines 617-621: the gender check. -/
def genderPhase (gender : Str) (acc : List Str × Str) : List Str × Str :=
  if !(pyLower gender).isEmpty && !genderAllowed.contains (pyLower gender) then
    (acc.1 ++ ["Invalid gender value: ".data ++ pyLower gender],
     warnMerge acc.2)
  else acc

/-- `validate_patient_record(patient) -> (status, messages)` (lines 595-623). -/
def validate_patient_record (p : PatientDict) : Str × List Str :=
  let acc := genderPhase p.gender (dobPhase p.dateOfBirth (reqPhase p))
  (acc.2, acc.1)

lemma reqCheck_status_inv (label v : Str) (acc : List Str × Str)
    (h : acc.2 = "invalid".data) :
    (reqCheck label v acc).2 = "invalid".data := by
  unfold reqCheck; split <;> simp [h]

lemma reqCheck_nonempty (label v : Str) (acc : List Str × Str) (h : v ≠ []) :
    reqCheck label v acc = acc := by
  unfold reqCheck
  rw [if_neg]
  simp [List.isEmpty_iff, h]

lemma reqCheck_empty_status (label : Str) (acc : List Str × Str) :
    (reqCheck label [] acc).2 = "invalid".data := by
  simp [reqCheck]

lemma reqPhase_all_present (p : PatientDict) (hf : p.firstName ≠ [])
    (hl : p.lastName ≠ []) (hd : p.dateOfBirth ≠ []) (hg : p.gender ≠ [])
    (hm : p.mrn ≠ []) : reqPhase p = ([], "valid".data) := by
  unfold reqPhase
  rw [reqCheck_nonempty _ _ _ hf, reqCheck_nonempty _ _ _ hl,
    reqCheck_nonempty _ _ _ hd, reqCheck_nonempty _ _ _ hg,
    reqCheck_nonempty _ _ _ hm]

lemma reqPhase_some_empty (p : PatientDict)
    (h : p.firstName = [] ∨ p.lastName = [] ∨ p.dateOfBirth = [] ∨
         p.gender = [] ∨ p.mrn = []) :
    (reqPhase p).2 = "invalid".data := by
  unfold reqPhase
  rcases h with h | h | h | h | h
  · rw [h]
    exact reqCheck_status_inv _ _ _ (reqCheck_status_inv _ _ _
      (reqCheck_status_inv _ _ _ (reqCheck_status_inv _ _ _
        (reqCheck_empty_status _ _))))
  · rw [h]
    exact reqCheck_status_inv _ _ _ (reqCheck_status_inv _ _ _
      (reqCheck_status_inv _ _ _ (reqCheck_empty_status _ _)))
  · rw [h]
    exact reqCheck_status_inv _ _ _ (reqCheck_status_inv _ _ _
      (reqCheck_empty_status _ _))
  · rw [h]
    exact reqCheck_status_inv _ _ _ (reqCheck_empty_status _ _)
  · rw [h]
    exact reqCheck_empty_status _ _

lemma dobPhase_status_inv (dob : Str) (acc : List Str × Str)
    (h : acc.2 = "invalid".data) : (dobPhase dob acc).2 = "invalid".data := by
  unfold dobPhase; split
  · dsimp only; rw [h]; decide
  · exact h

lemma genderPhase_status_inv (g : Str) (acc : List Str × Str)
    (h : acc.2 = "invalid".data) :
    (genderPhase g acc).2 = "invalid".data := by
  unfold genderPhase; split
  · dsimp only; rw [h]; decide
  · exact h

lemma genderPhase_status_warning (g : Str) (acc : List Str × Str)
    (h : acc.2 = "warning".data) :
    (genderPhase g acc).2 = "warning".data := by
  unfold genderPhase; split
  · dsimp only; rw [h]; decide
  · exact h

lemma dobPhase_status_vw (d : Str) (msgs : List Str) :
    (dobPhase d (msgs, "valid".data)).2 = "valid".data ∨
    (dobPhase d (msgs, "valid".data)).2 = "warning".data := by
  unfold dobPhase; split
  · right; dsimp only; decide
  · left; rfl

lemma genderPhase_bad (g : Str) (hne : pyLower g ≠ [])
    (hb : genderAllowed.contains (pyLower g) = false) (acc : List Str × Str) :
    (genderPhase g acc).2 = warnMerge acc.2 := by
  unfold genderPhase
  have hc : (!(pyLower g).isEmpty && !genderAllowed.contains (pyLower g))
      = true := by
    rw [hb]
    cases hE : (pyLower g).isEmpty
    · rfl
    · exact absurd (List.isEmpty_iff.mp hE) hne
  rw [if_pos hc]

/-- C4: (a) the status is `invalid` iff some required field is empty;
(b) with all required fields present, a date of birth failing the
`^\d{4}-\d{2}-\d{2}$` check yields `warning`; (c) likewise a gender whose
lowercase form is outside the allowed list yields `warning` (never
`invalid`); (d) a record passing every check is `valid` with no messages. -/
theorem C4_patient_validation (p : PatientDict) :
    ((validate_patient_record p).1 = "invalid".data ↔
      (p.firstName = [] ∨ p.lastName = [] ∨ p.dateOfBirth = [] ∨
       p.gender = [] ∨ p.mrn = [])) ∧
    (p.firstName ≠ [] → p.lastName ≠ [] → p.dateOfBirth ≠ [] →
     p.gender ≠ [] → p.mrn ≠ [] →
      ((dobShape p.dateOfBirth = false →
          (validate_patient_record p).1 = "warning".data) ∧
       (genderAllowed.contains (pyLower p.gender) = false →
          (validate_patient_record p).1 = "warning".data) ∧
       (dobShape p.dateOfBirth = true →
        genderAllowed.contains (pyLower p.gender) = true →
          validate_patient_record p = ("valid".data, [])))) := by
  have hgl : pyLower p.gender = [] ↔ p.gender = [] := by
    simp [pyLower]
  have hval : ∀ q : PatientDict, (validate_patient_record q).1 =
      (genderPhase q.gender (dobPhase q.dateOfBirth (reqPhase q))).2 :=
    fun _ => rfl
  constructor
  · constructor
    · intro hst
      by_contra hnone
      push_neg at hnone
      obtain ⟨hf, hl, hd, hg, hm⟩ := hnone
      rw [hval, reqPhase_all_present p hf hl hd hg hm] at hst
      rcases dobPhase_status_vw p.dateOfBirth [] with hvw | hvw
      · -- status after the dob phase is "valid"
        revert hst
        unfold genderPhase
        split
        · dsimp only; rw [hvw]; decide
        · rw [hvw]; decide
      · have := genderPhase_status_warning p.gender _ hvw
        rw [this] at hst
        exact absurd hst (by decide)
    · intro h
      have h5 := reqPhase_some_empty p h
      rw [hval]
      exact genderPhase_status_inv _ _ (dobPhase_status_inv _ _ h5)
  · intro hf hl hd hg hm
    have hbase := reqPhase_all_present p hf hl hd hg hm
    have hgne : pyLower p.gender ≠ [] := fun hh => hg (hgl.mp hh)
    refine ⟨?_, ?_, ?_⟩
    · intro hdob
      rw [hval, hbase]
      have hw : (dobPhase p.dateOfBirth ([], "valid".data)).2
          = "warning".data := by
        unfold dobPhase
        rw [if_pos (by simp [List.isEmpty_iff, hd, hdob])]
        dsimp only
        decide
      exact genderPhase_status_warning _ _ hw
    · intro hgen
      rw [hval, hbase]
      rw [genderPhase_bad _ hgne hgen]
      rcases dobPhase_status_vw p.dateOfBirth [] with hvw | hvw <;>
        rw [hvw] <;> decide
    · intro hdob hgen
      have hnodob : dobPhase p.dateOfBirth ([], "valid".data)
          = ([], "valid".data) := by
        unfold dobPhase
        rw [if_neg (by simp [hdob])]
      have hnogen : genderPhase p.gender ([], "valid".data)
          = ([], "valid".data) := by
        unfold genderPhase
        rw [if_neg (by rw [hgen]; simp)]
      show (_, _) = _
      rw [hbase, hnodob, hnogen]

theorem C4_patient_validation_witness :
    (("J".data : Str) ≠ [] ∧ ("D".data : Str) ≠ [] ∧
      ("1990-01-01".data : Str) ≠ [] ∧ ("Male".data : Str) ≠ [] ∧
      ("MRN1".data : Str) ≠ [] ∧
      dobShape "1990-01-01".data = true ∧
      genderAllowed.contains (pyLower "Male".data) = true) ∧
    validate_patient_record
      ⟨"J".data, "D".data, "1990-01-01".data, "Male".data, "MRN1".data⟩
      = ("valid".data, []) :=
  ⟨by decide,
   ((C4_patient_validation
      ⟨"J".data, "D".data, "1990-01-01".data, "Male".data, "MRN1".data⟩).2
      (by decide) (by decide) (by decide) (by decide) (by decide)).2.2
      (by decide) (by decide)⟩

/-! ### C5: field-tier validation
(`validate_required_fields_api` + `validate_hl7_structure` + `FIELD_TIERS`,
main_with_fastapi.py lines 64-74 and 892-933)

`validate_hl7_structure` replaces `\n` by `\r` and calls `hl7.parse`, an
external library; the parser is therefore a parameter `parse` of the
embedding, returning either a parse-error string (the `except` branch of
lines 894-899) or the list of segments, each a list of field strings
(`str(segment[i])`).
-/

structure HL7ValidationResponse where
  is_valid : Bool
  missing_fields : List Str
  message : Str
deriving DecidableEq

/-- `FIELD_TIERS["CRITICAL_FIELDS"]` (lines 67-73). -/
def CRITICAL_FIELDS : List (Str × List Nat) :=
  [("MSH".data, [9]), ("PID".data, [3, 5, 7, 8]), ("ORC".data, [2, 3]),
   ("OBR".data, [1, 2, 3, 4, 7]), ("OBX".data, [2, 3, 5])]

/-- `segment_name in critical_fields` plus `critical_fields[segment_name]`. -/
def lookupCritical (name : Str) : Option (List Nat) :=
  (CRITICAL_FIELDS.find? (fun e => e.1 == name)).map (·.2)

def natToStr (n : Nat) : Str := (Nat.repr n).data

/-- The reported string `f"{segment_name}-{field_index}"` (lines 923, 926). -/
def fmtPair (name : Str) (i : Nat) : Str := name ++ '-' :: natToStr i

/-- Lines 920-927: `str(segment[i]).strip()` is empty, or `IndexError`. -/
def fieldMissingAt (seg : List Str) (i : Nat) : Bool :=
  match seg.get? i with
  | some f => (pyStripWs f).isEmpty
  | none => true

/-- The (segment-name, index) pairs one segment reports missing. -/
def segMissingPairs (seg : List Str) : List (Str × Nat) :=
  match lookupCritical (seg.headD []) with
  | none => []
  | some idxs =>
    idxs.filterMap fun i =>
      if fieldMissingAt seg i then some (seg.headD [], i) else none

/-- All pairs reported missing, in segment order then index order. -/
def missingPairs (segs : List (List Str)) : List (Str × Nat) :=
  segs.flatMap segMissingPairs

/-- The loop of lines 911-933 applied to a successful parse result. -/
def validateSegments (segs : List (List Str)) : HL7ValidationResponse :=
  let miss := (missingPairs segs).map fun p => fmtPair p.1 p.2
  ⟨miss.isEmpty, miss,
   if miss.isEmpty then "Validation passed".data
   else "Missing critical fields".data⟩

/-- `validate_required_fields_api` (lines 901-933). -/
def validate_required_fields_api
    (parse : Str → Except Str (List (List Str))) (text : Str) :
    HL7ValidationResponse :=
  match parse (replaceNlCr text) with
  | .error e => ⟨false, [], "Invalid HL7 structure: ".data ++ e⟩
  | .ok segs => validateSegments segs

/-- Two parse results agree on everything the critical tier looks at:
same number of segments, same segment names, and the same
missing/present verdict at every critical index of that name. -/
def critProfileEquiv (segs segs' : List (List Str)) : Prop :=
  segs.length = segs'.length ∧
  ∀ k, k < segs.length →
    (segs.getD k []).headD [] = (segs'.getD k []).headD [] ∧
    ∀ i idxs, lookupCritical ((segs.getD k []).headD []) = some idxs →
      i ∈ idxs →
      fieldMissingAt (segs.getD k []) i = fieldMissingAt (segs'.getD k []) i

lemma fieldMissingAt_iff (seg : List Str) (i : Nat) :
    fieldMissingAt seg i = true ↔
    (seg.length ≤ i ∨ pyStripWs (seg.getD i []) = []) := by
  unfold fieldMissingAt
  rcases h : seg.get? i with _ | f
  · have hlen : seg.length ≤ i := List.get?_eq_none.mp h
    simp [hlen]
  · obtain ⟨hlt, -⟩ := List.get?_eq_some.mp h
    have hgd : seg.getD i [] = f := by
      rw [List.getD_eq_getElem?_getD, ← List.get?_eq_getElem?, h]; rfl
    rw [hgd]
    simp only [List.isEmpty_iff]
    constructor
    · exact fun hh => Or.inr hh
    · rintro (hh | hh)
      · omega
      · exact hh

lemma segMissingPairs_mem (seg : List Str) (name : Str) (i : Nat) :
    (name, i) ∈ segMissingPairs seg ↔
    (seg.headD [] = name ∧
     (∃ idxs, lookupCritical name = some idxs ∧ i ∈ idxs) ∧
     fieldMissingAt seg i = true) := by
  unfold segMissingPairs
  rcases h : lookupCritical (seg.headD []) with _ | idxs
  · simp only [List.not_mem_nil, false_iff]
    rintro ⟨rfl, ⟨idxs, hidxs, _⟩, _⟩
    rw [h] at hidxs; cases hidxs
  · rw [List.mem_filterMap]
    constructor
    · rintro ⟨j, hj, hij⟩
      split at hij
      · rcases Option.some.inj hij with h2
        obtain ⟨rfl, rfl⟩ := Prod.mk.injEq .. ▸ (by
          exact ⟨congrArg Prod.fst h2, congrArg Prod.snd h2⟩ :
            (seg.headD [] = name ∧ j = i))
        exact ⟨rfl, ⟨idxs, h, hj⟩, by assumption⟩
      · cases hij
    · rintro ⟨rfl, ⟨idxs', hidxs', hi⟩, hmiss⟩
      rw [h] at hidxs'
      cases Option.some.inj hidxs'
      exact ⟨i, hi, by rw [if_pos hmiss]⟩

lemma missingPairs_mem (segs : List (List Str)) (name : Str) (i : Nat) :
    (name, i) ∈ missingPairs segs ↔
    ∃ seg ∈ segs, seg.headD [] = name ∧
      (∃ idxs, lookupCritical name = some idxs ∧ i ∈ idxs) ∧
      fieldMissingAt seg i = true := by
  unfold missingPairs
  rw [List.mem_flatMap]
  constructor
  · rintro ⟨seg, hseg, hmem⟩
    exact ⟨seg, hseg, (segMissingPairs_mem seg name i).mp hmem⟩
  · rintro ⟨seg, hseg, hrest⟩
    exact ⟨seg, hseg, (segMissingPairs_mem seg name i).mpr hrest⟩

lemma segMissingPairs_congr (a b : List Str)
    (hname : a.headD [] = b.headD [])
    (hmiss : ∀ i idxs, lookupCritical (a.headD []) = some idxs → i ∈ idxs →
      fieldMissingAt a i = fieldMissingAt b i) :
    segMissingPairs a = segMissingPairs b := by
  unfold segMissingPairs
  rw [← hname]
  rcases h : lookupCritical (a.headD []) with _ | idxs
  · rfl
  · apply List.filterMap_congr
    intro i hi
    rw [hmiss i idxs h hi, hname]

lemma missingPairs_congr (segs segs' : List (List Str))
    (h : critProfileEquiv segs segs') :
    missingPairs segs = missingPairs segs' := by
  obtain ⟨hlen, hk⟩ := h
  induction segs generalizing segs' with
  | nil =>
    have : segs' = [] := List.length_eq_zero.mp (hlen ▸ rfl)
    rw [this]
  | cons a as ih =>
    rcases segs' with _ | ⟨b, bs⟩
    · exact absurd hlen (by simp)
    · have h0 := hk 0 (by simp)
      simp only [List.getD_cons_zero] at h0
      unfold missingPairs
      simp only [List.flatMap_cons]
      rw [segMissingPairs_congr a b h0.1 h0.2]
      have htail : missingPairs as = missingPairs bs :=
        ih bs (by simpa using hlen) (fun k hkk => by
          have := hk (k + 1) (by simpa using Nat.succ_lt_succ hkk)
          simpa using this)
      exact congrArg (fun t => segMissingPairs b ++ t) htail

/-- C5: (a) a structural parse failure yields `isValid = false` with the
parse error in the message and no per-field checks; (b) on a successful
parse a (segment, index) pair is reported missing exactly when the segment's
name is in the critical table, the index is listed for it, and the index is
out of range or the stripped value is empty; `isValid` is true iff no pair
is missing; and the outcome depends only on the critical-tier profile of
the parse result (no system- or contextual-tier field is inspected). -/
theorem C5_field_tier_validation
    (parse : Str → Except Str (List (List Str))) (text : Str) :
    (∀ e, parse (replaceNlCr text) = .error e →
      validate_required_fields_api parse text
        = ⟨false, [], "Invalid HL7 structure: ".data ++ e⟩) ∧
    (∀ segs, parse (replaceNlCr text) = .ok segs →
      (validate_required_fields_api parse text = validateSegments segs ∧
       (∀ name i, (name, i) ∈ missingPairs segs ↔
          ∃ seg ∈ segs, seg.headD [] = name ∧
            (∃ idxs, lookupCritical name = some idxs ∧ i ∈ idxs) ∧
            (seg.length ≤ i ∨ pyStripWs (seg.getD i []) = [])) ∧
       (validateSegments segs).missing_fields
          = (missingPairs segs).map (fun p => fmtPair p.1 p.2) ∧
       ((validateSegments segs).is_valid = true ↔ missingPairs segs = []) ∧
       (∀ segs', critProfileEquiv segs segs' →
          validateSegments segs = validateSegments segs'))) := by
  constructor
  · intro e he
    unfold validate_required_fields_api
    rw [he]
  · intro segs hs
    refine ⟨?_, ?_, rfl, ?_, ?_⟩
    · unfold validate_required_fields_api
      rw [hs]
    · intro name i
      rw [missingPairs_mem]
      constructor
      · rintro ⟨seg, hseg, h1, h2, h3⟩
        exact ⟨seg, hseg, h1, h2, (fieldMissingAt_iff seg i).mp h3⟩
      · rintro ⟨seg, hseg, h1, h2, h3⟩
        exact ⟨seg, hseg, h1, h2, (fieldMissingAt_iff seg i).mpr h3⟩
    · unfold validateSegments
      dsimp only
      rw [List.isEmpty_iff, List.map_eq_nil_iff]
    · intro segs' hequiv
      unfold validateSegments
      rw [missingPairs_congr segs segs' hequiv]

theorem C5_field_tier_validation_witness :
    ((fun _ : Str => (.error "seg".data : Except Str (List (List Str))))
        (replaceNlCr "MSH".data) = .error "seg".data ∧
     validate_required_fields_api
        (fun _ => .error "seg".data) "MSH".data
        = ⟨false, [], "Invalid HL7 structure: ".data ++ "seg".data⟩) ∧
    ((fun _ : Str => (.ok [["PID".data, "1".data]] :
        Except Str (List (List Str)))) (replaceNlCr "t".data)
        = .ok [["PID".data, "1".data]] ∧
     ((validateSegments [["PID".data, "1".data]]).is_valid = true ↔
        missingPairs [["PID".data, "1".data]] = [])) :=
  ⟨⟨rfl, (C5_field_tier_validation (fun _ => .error "seg".data)
      "MSH".data).1 "seg".data rfl⟩,
   ⟨rfl, ((C5_field_tier_validation (fun _ => .ok [["PID".data, "1".data]])
      "t".data).2 [["PID".data, "1".data]] rfl).2.2.2.1⟩⟩

/-! ### C7: uuid correlation segment round trip
(`add_zpi_segment_with_uuid`, main_with_fastapi.py lines 1325-1344)

```
lines = hl7_message.split("\n")
result_lines = []
for line in lines:
    result_lines.append(line)
    if line.startswith("PID|"):
        result_lines.append(f"ZPI|{patient_uuid}")
return "\n".join(result_lines)
```
-/

def pidMarker : Str := "PID|".data

def zpiLine (uuid : Str) : Str := "ZPI|".data ++ uuid

/-- The loop of lines 1337-1342 over the split lines. -/
def zpiInsertLines (uuid : Str) : List Str → List Str
  | [] => []
  | line :: rest =>
    if pidMarker.isPrefixOf line then
      line :: zpiLine uuid :: zpiInsertLines uuid rest
    else
      line :: zpiInsertLines uuid rest

def add_zpi_segment_with_uuid (hl7_message patient_uuid : Str) : Str :=
  joinWithChar '\n'
    (zpiInsertLines patient_uuid (splitOnChar '\n' hl7_message))

lemma splitOnChar_ne_nil (sep : Char) (s : Str) : splitOnChar sep s ≠ [] := by
  simp [splitOnChar]

lemma splitAux_no_sep (sep : Char) (s : Str) :
    (sep ∉ (splitAux sep s).1) ∧ ∀ l ∈ (splitAux sep s).2, sep ∉ l := by
  induction s with
  | nil => simp [splitAux]
  | cons c t ih =>
    unfold splitAux
    by_cases hc : c = sep
    · rw [if_pos hc]
      refine ⟨by simp, ?_⟩
      intro l hl
      rcases List.mem_cons.mp hl with rfl | hl2
      · exact ih.1
      · exact ih.2 l hl2
    · rw [if_neg hc]
      refine ⟨?_, ih.2⟩
      intro hm
      rcases List.mem_cons.mp hm with heq | hm2
      · exact hc heq.symm
      · exact ih.1 hm2

lemma splitOnChar_no_sep (sep : Char) (s : Str) :
    ∀ l ∈ splitOnChar sep s, sep ∉ l := by
  intro l hl
  rcases List.mem_cons.mp hl with rfl | hl2
  · exact (splitAux_no_sep sep s).1
  · exact (splitAux_no_sep sep s).2 l hl2

lemma splitAux_single (sep : Char) (s : Str) (h : sep ∉ s) :
    splitAux sep s = (s, []) := by
  induction s with
  | nil => rfl
  | cons c t ih =>
    have hc : c ≠ sep := fun hh => h (hh ▸ List.mem_cons_self c t)
    unfold splitAux
    rw [if_neg hc, ih (fun hm => h (List.mem_cons_of_mem c hm))]

lemma splitAux_append (sep : Char) (x r : Str) (hx : sep ∉ x) :
    splitAux sep (x ++ sep :: r) = (x, splitOnChar sep r) := by
  induction x with
  | nil =>
    show splitAux sep (sep :: r) = _
    unfold splitAux
    rw [if_pos rfl]
    rfl
  | cons c x' ih =>
    have hc : c ≠ sep := fun hh => hx (hh ▸ List.mem_cons_self c x')
    show splitAux sep (c :: (x' ++ sep :: r)) = _
    unfold splitAux
    rw [if_neg hc, ih (fun hm => hx (List.mem_cons_of_mem c hm))]

lemma split_join (sep : Char) (ls : List Str) (hne : ls ≠ [])
    (hno : ∀ l ∈ ls, sep ∉ l) :
    splitOnChar sep (joinWithChar sep ls) = ls := by
  induction ls with
  | nil => exact absurd rfl hne
  | cons x rest ih =>
    rcases rest with _ | ⟨y, ys⟩
    · show splitOnChar sep x = [x]
      unfold splitOnChar
      rw [splitAux_single sep x (hno x (List.mem_cons_self x []))]
    · show splitOnChar sep (x ++ sep :: joinWithChar sep (y :: ys)) = _
      unfold splitOnChar
      rw [splitAux_append sep x _ (hno x (List.mem_cons_self x _))]
      dsimp only
      rw [ih (by simp) (fun l hl => hno l (List.mem_cons_of_mem x hl))]

lemma zpi_not_pid (uuid : Str) :
    pidMarker.isPrefixOf (zpiLine uuid) = false := rfl

lemma zpiInsertLines_sublist (uuid : Str) (ls : List Str) :
    ls.Sublist (zpiInsertLines uuid ls) := by
  induction ls with
  | nil => exact List.Sublist.refl []
  | cons line rest ih =>
    unfold zpiInsertLines
    split
    · exact List.Sublist.cons₂ line (List.Sublist.cons (zpiLine uuid) ih)
    · exact List.Sublist.cons₂ line ih

lemma zpiInsertLines_mem (uuid : Str) (ls : List Str)
    (h : ∃ l ∈ ls, pidMarker.isPrefixOf l = true) :
    zpiLine uuid ∈ zpiInsertLines uuid ls := by
  induction ls with
  | nil => obtain ⟨l, hl, _⟩ := h; cases hl
  | cons line rest ih =>
    obtain ⟨l, hl, hp⟩ := h
    unfold zpiInsertLines
    rcases List.mem_cons.mp hl with rfl | hl2
    · rw [if_pos hp]
      exact List.mem_cons_of_mem _ (List.mem_cons_self _ _)
    · split
      · exact List.mem_cons_of_mem _
          (List.mem_cons_of_mem _ (ih ⟨l, hl2, hp⟩))
      · exact List.mem_cons_of_mem _ (ih ⟨l, hl2, hp⟩)

lemma zpiInsertLines_follows (uuid : Str) (ls : List Str) :
    ∀ k, k < (zpiInsertLines uuid ls).length →
      pidMarker.isPrefixOf ((zpiInsertLines uuid ls).getD k []) = true →
      k + 1 < (zpiInsertLines uuid ls).length ∧
      (zpiInsertLines uuid ls).getD (k + 1) [] = zpiLine uuid := by
  induction ls with
  | nil => intro k hk; simp [zpiInsertLines] at hk
  | cons line rest ih =>
    intro k hk hp
    unfold zpiInsertLines at hk hp ⊢
    by_cases hline : pidMarker.isPrefixOf line = true
    · rw [if_pos hline] at hk hp ⊢
      match k with
      | 0 => exact ⟨by simp, rfl⟩
      | 1 =>
        rw [List.getD_cons_succ, List.getD_cons_zero] at hp
        rw [zpi_not_pid] at hp
        cases hp
      | Nat.succ (Nat.succ k') =>
        simp only [List.getD_cons_succ] at hp ⊢
        simp only [List.length_cons] at hk ⊢
        have := ih k' (by omega) hp
        exact ⟨by omega, this.2⟩
    · rw [if_neg hline] at hk hp ⊢
      match k with
      | 0 =>
        rw [List.getD_cons_zero] at hp
        exact absurd hp hline
      | Nat.succ k' =>
        simp only [List.getD_cons_succ] at hp ⊢
        simp only [List.length_cons] at hk ⊢
        have := ih k' (by omega) hp
        exact ⟨by omega, this.2⟩

lemma zpiInsertLines_no_nl (uuid : Str) (ls : List Str)
    (hu : '\n' ∉ uuid) (hls : ∀ l ∈ ls, '\n' ∉ l) :
    ∀ l ∈ zpiInsertLines uuid ls, '\n' ∉ l := by
  induction ls with
  | nil => intro l hl; cases hl
  | cons line rest ih =>
    intro l hl
    unfold zpiInsertLines at hl
    have hline := hls line (List.mem_cons_self _ _)
    have hrest := fun x hx => hls x (List.mem_cons_of_mem line hx)
    split at hl
    · rcases List.mem_cons.mp hl with rfl | hl2
      · exact hline
      · rcases List.mem_cons.mp hl2 with rfl | hl3
        · intro hm
          rcases List.mem_append.mp hm with hm | hm
          · exact absurd hm (by decide)
          · exact hu hm
        · exact ih hrest l hl3
    · rcases List.mem_cons.mp hl with rfl | hl2
      · exact hline
      · exact ih hrest l hl2

lemma zpiInsertLines_ne_nil (uuid : Str) (ls : List Str) (h : ls ≠ []) :
    zpiInsertLines uuid ls ≠ [] := by
  rcases ls with _ | ⟨x, xs⟩
  · exact absurd rfl h
  · unfold zpiInsertLines; split <;> simp

/-- C7: embedding a uuid (containing no line break) via the ZPI segment and
re-splitting the result on `\n` (i) preserves every original line unchanged
and in order, (ii) makes the line immediately after each line starting with
`PID|` exactly `ZPI|<uuid>`, and (iii) when the message has a PID line, the
uuid is recoverable verbatim from a `ZPI|<uuid>` line of the output. -/
theorem C7_zpi_uuid_roundtrip (msg uuid : Str) (hu : '\n' ∉ uuid)
    (hpid : ∃ l ∈ splitOnChar '\n' msg, pidMarker.isPrefixOf l = true) :
    splitOnChar '\n' (add_zpi_segment_with_uuid msg uuid)
      = zpiInsertLines uuid (splitOnChar '\n' msg) ∧
    (splitOnChar '\n' msg).Sublist
      (splitOnChar '\n' (add_zpi_segment_with_uuid msg uuid)) ∧
    (∀ k, k < (splitOnChar '\n' (add_zpi_segment_with_uuid msg uuid)).length →
      pidMarker.isPrefixOf
        ((splitOnChar '\n' (add_zpi_segment_with_uuid msg uuid)).getD k [])
        = true →
      (splitOnChar '\n' (add_zpi_segment_with_uuid msg uuid)).getD (k + 1) []
        = zpiLine uuid) ∧
    zpiLine uuid ∈ splitOnChar '\n' (add_zpi_segment_with_uuid msg uuid) := by
  have hsplit : splitOnChar '\n' (add_zpi_segment_with_uuid msg uuid)
      = zpiInsertLines uuid (splitOnChar '\n' msg) := by
    unfold add_zpi_segment_with_uuid
    exact split_join '\n' _
      (zpiInsertLines_ne_nil uuid _ (splitOnChar_ne_nil '\n' msg))
      (zpiInsertLines_no_nl uuid _ hu (splitOnChar_no_sep '\n' msg))
  refine ⟨hsplit, ?_, ?_, ?_⟩
  · rw [hsplit]; exact zpiInsertLines_sublist uuid _
  · rw [hsplit]
    intro k hk hp
    exact (zpiInsertLines_follows uuid _ k hk hp).2
  · rw [hsplit]; exact zpiInsertLines_mem uuid _ hpid

theorem C7_zpi_uuid_roundtrip_witness :
    ('\n' ∉ "u-123".data ∧
     (∃ l ∈ splitOnChar '\n'
        ("MSH|1".data ++ '\n' :: "PID|1|X".data),
        pidMarker.isPrefixOf l = true)) ∧
    zpiLine "u-123".data ∈ splitOnChar '\n'
      (add_zpi_segment_with_uuid
        ("MSH|1".data ++ '\n' :: "PID|1|X".data) "u-123".data) :=
  ⟨⟨by decide, ⟨"PID|1|X".data, by decide, by decide⟩⟩,
   (C7_zpi_uuid_roundtrip ("MSH|1".data ++ '\n' :: "PID|1|X".data)
      "u-123".data (by decide)
      ⟨"PID|1|X".data, by decide, by decide⟩).2.2.2⟩

/-! ### C8: session expiry on confirm
(`confirm_and_process_upload`, main_with_fastapi.py lines 2035-2095)

The in-memory `upload_sessions` dict is modelled as an association list with
unique keys; `datetime` values are modelled as integers ordered like the
datetimes they stand for.  The processing entry the handler inserts and the
`asyncio.create_task` it spawns are returned in `spawnedJob`.
-/

structure StoredRecord where
  index : Nat
deriving DecidableEq

structure UploadSessionData where
  expires_at : Int
  trigger_event : Str
  parsed_records : List StoredRecord
deriving DecidableEq

structure ProcessingJobInit where
  session_id : Str
  status : Str
  current_step : Nat
  total_patients : Nat
  send_to_mirth : Bool
  selected_records : List StoredRecord
deriving DecidableEq

inductive ConfirmResult where
  | httpError (code : Nat) (detail : Str)
  | ok (upload_id : Str) (status : Str) (total_selected : Nat)
deriving DecidableEq

structure ConfirmEffect where
  result : ConfirmResult
  store : List (Str × UploadSessionData)
  spawnedJob : Option (Str × ProcessingJobInit)
deriving DecidableEq

def storeLookup (store : List (Str × UploadSessionData)) (sid : Str) :
    Option UploadSessionData :=
  (store.find? (fun e => e.1 == sid)).map (·.2)

/-- `del upload_sessions[sid]`. -/
def storeErase (store : List (Str × UploadSessionData)) (sid : Str) :
    List (Str × UploadSessionData) :=
  store.filter (fun e => !(e.1 == sid))

/-- `confirm_and_process_upload` (lines 2035-2095): look the session up
(404 when absent), expire it (delete + 410) when `now > expires_at`, filter
the selection (400 when empty), else create the processing entry and spawn
the background task. -/
def confirm_and_process_upload (store : List (Str × UploadSessionData))
    (now : Int) (session_id : Str) (selected_indices : List Nat)
    (send_flag : Bool) (new_upload_id : Str) : ConfirmEffect :=
  match storeLookup store session_id with
  | none =>
    ⟨.httpError 404
      "Session not found or expired. Please upload the file again.".data,
     store, none⟩
  | some sess =>
    if sess.expires_at < now then
      ⟨.httpError 410 "Session has expired. Please upload the file again.".data,
       storeErase store session_id, none⟩
    else
      let selected :=
        if selected_indices.isEmpty then sess.parsed_records
        else sess.parsed_records.filter
          (fun r => selected_indices.contains r.index)
      if selected.isEmpty then
        ⟨.httpError 400 "No patients selected for processing.".data,
         store, none⟩
      else
        ⟨.ok new_upload_id "processing".data selected.length,
         store,
         some (new_upload_id,
           ⟨session_id, "processing".data, 0, selected.length, send_flag,
            selected⟩)⟩

/-- C8: a confirm call on a stored session whose `expiresAt` lies strictly
before the current time is rejected with the 410 "expired" error, the
session is deleted from the store in handling that call, and no processing
job is spawned. -/
theorem C8_confirm_expired (store : List (Str × UploadSessionData))
    (now : Int) (sid : Str) (idxs : List Nat) (flag : Bool) (nid : Str)
    (sess : UploadSessionData) (hfound : storeLookup store sid = some sess)
    (hexp : sess.expires_at < now) :
    confirm_and_process_upload store now sid idxs flag nid =
      ⟨.httpError 410 "Session has expired. Please upload the file again.".data,
       storeErase store sid, none⟩ := by
  unfold confirm_and_process_upload
  rw [hfound]
  dsimp only
  rw [if_pos hexp]

theorem C8_confirm_expired_witness :
    (storeLookup [("s1".data, ⟨5, "ADT-A01".data, [⟨0⟩]⟩)] "s1".data
        = some ⟨5, "ADT-A01".data, [⟨0⟩]⟩ ∧ (5 : Int) < 7) ∧
    confirm_and_process_upload [("s1".data, ⟨5, "ADT-A01".data, [⟨0⟩]⟩)]
        7 "s1".data [] true "j1".data =
      ⟨.httpError 410 "Session has expired. Please upload the file again.".data,
       storeErase [("s1".data, ⟨5, "ADT-A01".data, [⟨0⟩]⟩)] "s1".data,
       none⟩ :=
  ⟨⟨by decide, by decide⟩,
   C8_confirm_expired [("s1".data, ⟨5, "ADT-A01".data, [⟨0⟩]⟩)] 7 "s1".data
     [] true "j1".data ⟨5, "ADT-A01".data, [⟨0⟩]⟩ (by decide) (by decide)⟩

/-! ### C3 and C9: the confirmed-processing background job
(`process_confirmed_patients`, main_with_fastapi.py lines 1132-1323)

The per-record `generate_hl7_message` call goes to an external model, so
generation outcomes are an oracle `gens : Nat → Except Str Str` (exception
text or generated message text); the structural parser stays the `parse`
parameter as in C5.  Records are reduced to their uuids, the only record
field the pipeline logic depends on.

Inside this function the parameter `send_to_mirth : bool` SHADOWS the
module-level function `send_to_mirth`, so the call
`success, ack = send_to_mirth(message["hl7_message"])` at line 1254 raises
`TypeError: 'bool' object is not callable` on every attempt; the
`except Exception` at line 1275 catches it, records the failure on the
message and increments `mirth_failed`, and the loop continues.

`fault` models an exception raised inside the outer `try` but outside the
per-record handlers (e.g. at the first `await asyncio.sleep` of line 1167);
the handler at lines 1314-1317 sets `status = "error"` and preserves the
exception text.
-/

structure GeneratedMessage where
  status : Str
  mirth_sent : Option Bool
  mirth_error : Option Str
deriving DecidableEq

structure JobState where
  status : Str
  current_step : Nat
  step_status : Str
  generated_messages : List GeneratedMessage
  mirth_successful : Nat
  mirth_failed : Nat
  error : Option Str
deriving DecidableEq

def successStr : Str := "success".data

/-- `str(TypeError("'bool' object is not callable"))`. -/
def mirthAttemptError : Str := "'bool' object is not callable".data

/-- Lines 1196-1235: one iteration of the generation loop. -/
def genMessage (parse : Str → Except Str (List (List Str)))
    (uuid : Str) (gen : Except Str Str) : GeneratedMessage :=
  match gen with
  | .error _ => ⟨"error".data, none, none⟩
  | .ok txt =>
    let msg := add_zpi_segment_with_uuid txt uuid
    let v := validate_required_fields_api parse msg
    ⟨if v.is_valid then successStr else "validation_failed".data,
     none, none⟩

/-- The generation loop over the selected records (step 2). -/
def genPhase (parse : Str → Except Str (List (List Str)))
    (gens : Nat → Except Str Str) : List Str → Nat → List GeneratedMessage
  | [], _ => []
  | uuid :: rest, i =>
    genMessage parse uuid (gens i) :: genPhase parse gens rest (i + 1)

/-- Lines 1248-1280: the Mirth send loop.  Because of the parameter
shadowing, every send attempt on a `"success"` message takes the
`except Exception` path.  Returns the updated messages and the
(`mirth_successful`, `mirth_failed`) counters. -/
def mirthPhase : List GeneratedMessage → List GeneratedMessage × Nat × Nat
  | [] => ([], 0, 0)
  | m :: rest =>
    if m.status = successStr then
      ({ m with mirth_sent := some false,
                mirth_error := some mirthAttemptError } :: (mirthPhase rest).1,
       (mirthPhase rest).2.1, (mirthPhase rest).2.2 + 1)
    else
      (m :: (mirthPhase rest).1, (mirthPhase rest).2.1, (mirthPhase rest).2.2)

/-- `process_confirmed_patients` (lines 1132-1323). -/
def process_confirmed_patients (parse : Str → Except Str (List (List Str)))
    (records : List Str) (gens : Nat → Except Str Str)
    (send_flag : Bool) (fault : Option Str) : JobState :=
  match fault with
  | some e =>
    -- lines 1314-1317: the outer exception handler
    ⟨"error".data, 1, "Error: ".data ++ e, [], 0, 0, some e⟩
  | none =>
    let msgs := genPhase parse gens records 0
    if send_flag then
      ⟨"completed".data, 4, "Processing complete!".data, (mirthPhase msgs).1,
       (mirthPhase msgs).2.1, (mirthPhase msgs).2.2, none⟩
    else
      ⟨"completed".data, 4, "Processing complete!".data, msgs, 0, 0, none⟩

lemma mirthPhase_counts (msgs : List GeneratedMessage) :
    (mirthPhase msgs).2.1 = 0 ∧
    (mirthPhase msgs).2.2 = msgs.countP (fun m => m.status == successStr) ∧
    (mirthPhase msgs).1.length = msgs.length ∧
    (∀ m ∈ (mirthPhase msgs).1, m.status = successStr →
      m.mirth_sent = some false ∧ m.mirth_error = some mirthAttemptError) := by
  induction msgs with
  | nil => exact ⟨rfl, rfl, rfl, by intro m hm; cases hm⟩
  | cons m rest ih =>
    obtain ⟨ihs, ihf, ihl, ihm⟩ := ih
    have hcount : (m :: rest).countP (fun m => m.status == successStr)
        = rest.countP (fun m => m.status == successStr)
          + (if m.status = successStr then 1 else 0) := by
      rw [List.countP_cons]
      by_cases hm : m.status = successStr
      · rw [if_pos hm, if_pos (by simp [hm])]
      · rw [if_neg hm, if_neg (by simp [hm])]
    by_cases hm : m.status = successStr
    · have hunf : mirthPhase (m :: rest) =
          ({ m with mirth_sent := some false,
                    mirth_error := some mirthAttemptError }
              :: (mirthPhase rest).1,
           (mirthPhase rest).2.1, (mirthPhase rest).2.2 + 1) := by
        conv_lhs => rw [mirthPhase]
        rw [if_pos hm]
      rw [hunf, hcount, if_pos hm]
      dsimp only
      refine ⟨ihs, by omega, by simp [ihl], ?_⟩
      intro x hx hxs
      rcases List.mem_cons.mp hx with rfl | hx2
      · exact ⟨rfl, rfl⟩
      · exact ihm x hx2 hxs
    · have hunf : mirthPhase (m :: rest) =
          (m :: (mirthPhase rest).1,
           (mirthPhase rest).2.1, (mirthPhase rest).2.2) := by
        conv_lhs => rw [mirthPhase]
        rw [if_neg hm]
      rw [hunf, hcount, if_neg hm]
      dsimp only
      refine ⟨ihs, by omega, by simp [ihl], ?_⟩
      intro x hx hxs
      rcases List.mem_cons.mp hx with rfl | hx2
      · exact absurd hxs hm
      · exact ihm x hx2 hxs

lemma genPhase_length (parse : Str → Except Str (List (List Str)))
    (gens : Nat → Except Str Str) (records : List Str) (i : Nat) :
    (genPhase parse gens records i).length = records.length := by
  induction records generalizing i with
  | nil => rfl
  | cons r rest ih => simpa [genPhase] using ih (i + 1)

/-- C3: with send-to-downstream enabled, per-message transport failures
(here: the exception raised during each individual send) never abort the
job: every attempted send is recorded as failed on its message, processing
continues through the whole generated list, the job reaches status
`completed`, and — the downstream never having accepted anything —
`mirth_successful = 0` and `mirth_failed` equals the number of attempted
sends (the generated messages with status `success`). -/
theorem C3_transport_failures_nonfatal
    (parse : Str → Except Str (List (List Str)))
    (records : List Str) (gens : Nat → Except Str Str) :
    (process_confirmed_patients parse records gens true none).status
      = "completed".data ∧
    (process_confirmed_patients parse records gens true none).mirth_successful
      = 0 ∧
    (process_confirmed_patients parse records gens true none).mirth_failed
      = (genPhase parse gens records 0).countP
          (fun m => m.status == successStr) ∧
    (process_confirmed_patients parse records gens
        true none).generated_messages.length = records.length ∧
    (∀ m ∈ (process_confirmed_patients parse records gens
        true none).generated_messages,
      m.status = successStr →
      m.mirth_sent = some false ∧ m.mirth_error = some mirthAttemptError) := by
  have hc := mirthPhase_counts (genPhase parse gens records 0)
  exact ⟨rfl, hc.1, hc.2.1,
    by
      show (mirthPhase (genPhase parse gens records 0)).1.length = _
      rw [hc.2.2.1]; exact genPhase_length parse gens records 0,
    hc.2.2.2⟩

/-- C9 counterexample: an unhandled exception inside a processing job sets
its status to `"error"` — a value outside the claimed status set
`{pending, processing, completed, failed, expired}` (and not `"failed"`). -/
theorem C9_counterexample :
    (process_confirmed_patients (fun _ => .error []) [] (fun _ => .error [])
        true (some "boom".data)).status = "error".data ∧
    (process_confirmed_patients (fun _ => .error []) [] (fun _ => .error [])
        true (some "boom".data)).status ∉
      ["pending".data, "processing".data, "completed".data, "failed".data,
       "expired".data] :=
  ⟨rfl, by decide⟩

/-- C9 (amended): every modelled status value lies in
`{pending, processing, completed, error, expired}`: a processing job ends
`completed` or `error`; an unhandled exception inside a job transitions it
to `error` with the exception text preserved (in `error` and in the step
status); and a confirm call spawns its job with status `processing`. -/
theorem C9_status_invariant (parse : Str → Except Str (List (List Str)))
    (records : List Str) (gens : Nat → Except Str Str)
    (send_flag : Bool) (fault : Option Str) :
    (process_confirmed_patients parse records gens send_flag fault).status ∈
      ["pending".data, "processing".data, "completed".data, "error".data,
       "expired".data] ∧
    (∀ e, fault = some e →
      (process_confirmed_patients parse records gens send_flag fault).status
        = "error".data ∧
      (process_confirmed_patients parse records gens send_flag fault).error
        = some e ∧
      (process_confirmed_patients parse records gens send_flag fault
        ).step_status = "Error: ".data ++ e) ∧
    (∀ store now sid idxs nid jid job,
      (confirm_and_process_upload store now sid idxs send_flag nid
        ).spawnedJob = some (jid, job) → job.status = "processing".data) := by
  refine ⟨?_, ?_, ?_⟩
  · rcases fault with _ | e
    · have hstat : (process_confirmed_patients parse records gens send_flag
          none).status = "completed".data := by
        cases send_flag <;> rfl
      rw [hstat]; decide
    · have hstat : (process_confirmed_patients parse records gens send_flag
          (some e)).status = "error".data := rfl
      rw [hstat]; decide
  · rintro e rfl
    exact ⟨rfl, rfl, rfl⟩
  · intro store now sid idxs nid jid job hspawn
    unfold confirm_and_process_upload at hspawn
    rcases hl : storeLookup store sid with _ | sess
    · rw [hl] at hspawn; cases hspawn
    · rw [hl] at hspawn
      dsimp only at hspawn
      by_cases hexp : sess.expires_at < now
      · rw [if_pos hexp] at hspawn; cases hspawn
      · rw [if_neg hexp] at hspawn
        generalize (if idxs.isEmpty then sess.parsed_records
          else sess.parsed_records.filter
            (fun r => idxs.contains r.index)) = selected at hspawn
        by_cases hempty : selected.isEmpty
        · rw [if_pos hempty] at hspawn; cases hspawn
        · rw [if_neg hempty] at hspawn
          dsimp only at hspawn
          have h := Option.some.inj hspawn
          have h2 := congrArg Prod.snd h
          dsimp only at h2
          rw [← h2]

theorem C9_status_invariant_witness :
    ((some "boom".data : Option Str) = some "boom".data ∧
     (process_confirmed_patients (fun _ => .error []) []
        (fun _ => .error []) true (some "boom".data)).error
        = some "boom".data) ∧
    (confirm_and_process_upload [("s1".data, ⟨5, "ADT-A01".data, [⟨0⟩]⟩)]
        3 "s1".data [] true "j1".data).spawnedJob
      = some ("j1".data,
          ⟨"s1".data, "processing".data, 0, 1, true, [⟨0⟩]⟩) ∧
    (⟨"s1".data, "processing".data, 0, 1, true,
        [⟨0⟩]⟩ : ProcessingJobInit).status = "processing".data :=
  ⟨⟨rfl, ((C9_status_invariant (fun _ => .error []) [] (fun _ => .error [])
      true (some "boom".data)).2.1 "boom".data rfl).2.1⟩,
   by decide,
   (C9_status_invariant (fun _ => .error []) [] (fun _ => .error [])
      true (some "boom".data)).2.2
      [("s1".data, ⟨5, "ADT-A01".data, [⟨0⟩]⟩)] 3 "s1".data [] "j1".data
      "j1".data ⟨"s1".data, "processing".data, 0, 1, true, [⟨0⟩]⟩
      (by decide)⟩

/-! ### C10: the UI-compatible backend's import of undefined names
(`main_ui_compatible.py` lines 51-61 and 646-689)

`main_ui_compatible.py` executes
`from main_with_fastapi import parse_csv_file, parse_excel_file,
build_hl7_message_programmatically, send_to_mirth, map_columns_with_llm,
normalize_column_name, PatientRecord, MIRTH_HOST, MIRTH_PORT` at module load.
Python resolves each requested name against the module's top-level bindings
and raises `ImportError` at the first one that is absent, aborting the load;
a module that fails to load exposes none of its functions, so
`process_patients_async` (which calls `build_hl7_message_programmatically`
at line 659) can never run.

`mainWithFastapiNames` lists every top-level `def`, `class` and module-level
assignment of `main_with_fastapi.py`; `allSourceTopLevelNames` additionally
lists those of every other source file of the repository.
-/

def mainWithFastapiNames : List Str :=
  ["OPENAI_API_KEY", "MIRTH_HOST", "MIRTH_PORT", "logger", "FIELD_TIERS",
   "TRIGGER_EVENT_MAPPING", "HL7GenerationRequest", "HL7ValidationResponse",
   "HL7GenerationResponse", "MirthSendResponse", "BatchProcessingResponse",
   "PatientRecord", "ValidationError", "UploadSession", "UploadResponse",
   "ConfirmUploadRequest", "ConfirmUploadResponse", "app", "upload_sessions",
   "client_wrapper", "dashboard_stats", "_normalize_colname", "_find_column",
   "COLUMN_MAPPINGS", "normalize_column_name", "map_columns_with_llm",
   "parse_date_flexible", "validate_patient_record", "parse_csv_with_preview",
   "ClientWrapper", "fallback_hl7_generator", "generate_hl7_message",
   "validate_hl7_structure", "validate_required_fields_api", "send_to_mirth",
   "process_excel_batch", "process_confirmed_patients",
   "add_zpi_segment_with_uuid", "process_csv_with_progress",
   "cleanup_expired_sessions", "startup_event", "root", "health_check",
   "generate_hl7_from_command", "validate_hl7_message", "send_hl7_to_mirth",
   "upload_and_process_excel", "get_supported_trigger_events",
   "get_dashboard_stats", "get_system_status", "upload_csv_file",
   "confirm_and_process_upload", "upload_csv_with_realtime_progress",
   "stream_upload_progress", "get_upload_status", "get_upload_results",
   "upload_excel_file", "validate_required_fields", "display_hl7_details",
   "console_main", "main"].map String.data

/-- Top-level names of the other source files (backend/app/**, docs,
tests, main_ui_compatible.py). -/
def otherSourceTopLevelNames : List Str :=
  ["CommandRequest", "OperationResponse", "HealthResponse",
   "SessionResponse", "PatientResponse", "ErrorResponse",
   "CSVUploadResponse", "PatientPreview", "ConfirmationPreviewResponse",
   "ConfirmationRequest", "HealthCheckDetailResponse",
   "SystemHealthResponse", "router", "process_command", "get_session",
   "get_operation", "_nlp_service", "_hl7_service", "_fhir_service",
   "_data_generator", "_csv_service", "_message_repo", "_operation_repo",
   "_context_repo", "_health_service", "get_nlp_service", "get_hl7_service",
   "get_fhir_service", "get_data_generator", "get_csv_service",
   "get_message_repository", "get_operation_repository",
   "get_context_repository", "get_health_service",
   "get_process_command_use_case", "log_dir", "log_requests",
   "shutdown_event", "InMemoryMessageRepository",
   "InMemoryOperationRepository", "InMemoryContextRepository",
   "HL7v2Service", "FakerDataGenerator", "OpenAINLPService",
   "HealthCheckResult", "HealthCheckService", "CSVProcessingService",
   "ErrorContext", "ErrorTranslationService", "FHIRAPIService",
   "ValidationResult", "HL7ValidationService", "DataSanitizationService",
   "Settings", "settings", "ProcessCommandUseCase", "INLPService",
   "IHL7Service", "IFHIRService", "IDataGeneratorService",
   "IMessageRepository", "IOperationRepository", "IContextRepository",
   "CommandType", "MessageType", "OperationStatus", "Protocol", "Patient",
   "LabResult", "UserCommand", "HL7Message", "OperationResult",
   "ConversationContext", "response1", "BASE_URL", "EXCEL_FILE",
   "print_section", "test_health_check", "test_upload_and_mapping",
   "test_confirm_and_process", "test_stream_progress", "test_get_results",
   "create_pdf", "HL7Service", "MLLPClient", "SECRET_KEY", "ALGORITHM",
   "ACCESS_TOKEN_EXPIRE_MINUTES", "UserRegister", "UserLogin",
   "AuthResponse", "Message", "Session", "SessionInfo", "HealthStatus",
   "verify_password", "get_user", "create_access_token",
   "get_current_user", "transform_patient_to_preview",
   "transform_upload_to_preview", "transform_confirm_to_operation",
   "login", "register", "preview_operation", "confirm_operation",
   "process_patients_async", "get_sessions", "create_session",
   "get_session_messages", "delete_session", "send_message",
   "get_session_info", "detailed_health_check"].map String.data

def allSourceTopLevelNames : List Str :=
  mainWithFastapiNames ++ otherSourceTopLevelNames

/-- The names `main_ui_compatible.py` lines 51-61 request from
`main_with_fastapi`, in source order. -/
def uiCompatibleImportedNames : List Str :=
  ["parse_csv_file", "parse_excel_file",
   "build_hl7_message_programmatically", "send_to_mirth",
   "map_columns_with_llm", "normalize_column_name", "PatientRecord",
   "MIRTH_HOST", "MIRTH_PORT"].map String.data

/-- Python `from M import a, b, ...`: resolve the names in order, failing
with `ImportError` at the first absent one. -/
def fromImportResolve (moduleNames : List Str) : List Str → Except Str Unit
  | [] => .ok ()
  | n :: rest =>
    if moduleNames.contains n then fromImportResolve moduleNames rest
    else .error n

/-- `main_ui_compatible` loads only if every requested name resolves. -/
def mainUiCompatibleLoads : Bool :=
  uiCompatibleImportedNames.all (mainWithFastapiNames.contains ·)

/-- `process_patients_async` is a function of `main_ui_compatible`; it can
run only when its module loaded. -/
def processPatientsAsyncRunnable : Bool := mainUiCompatibleLoads

/-- C10: the import list of the UI-compatible module requests
`parse_csv_file`, `parse_excel_file` and
`build_hl7_message_programmatically` from the core module; none of the
three is bound there — nor anywhere else in the source — so the
`from`-import raises `ImportError` at `parse_csv_file`, the module never
loads, and `process_patients_async` can never execute. -/
theorem C10_ui_module_import_failure :
    "parse_csv_file".data ∈ uiCompatibleImportedNames ∧
    "parse_excel_file".data ∈ uiCompatibleImportedNames ∧
    "build_hl7_message_programmatically".data ∈ uiCompatibleImportedNames ∧
    "parse_csv_file".data ∉ allSourceTopLevelNames ∧
    "parse_excel_file".data ∉ allSourceTopLevelNames ∧
    "build_hl7_message_programmatically".data ∉ allSourceTopLevelNames ∧
    fromImportResolve mainWithFastapiNames uiCompatibleImportedNames
      = .error "parse_csv_file".data ∧
    mainUiCompatibleLoads = false ∧
    processPatientsAsyncRunnable = false := by
  refine ⟨by decide, by decide, by decide, by decide, by decide, by decide,
    rfl, by decide, by decide⟩

/-! ### C6: the local deterministic generator path
(`fallback_hl7_generator` lines 821-872, the command built by
`process_confirmed_patients` lines 1179-1193, the prompt built by
`generate_hl7_message` lines 875-889, then `add_zpi_segment_with_uuid` and
`validate_required_fields_api` as in the confirm pipeline, lines 1196-1202)

With no OpenAI key, `ClientWrapper.generate` routes the prompt to
`fallback_hl7_generator` (lines 784-793), whose behaviour is a handful of
`re.search(..., re.IGNORECASE)` calls.  Each regex of the source is embedded
as a dedicated matcher below; `reSearch` is `re.search`'s leftmost-match
loop (try the pattern at every position, left to right).  The regexes'
character classes are mutually disjoint where a greedy star meets the next
token, so the matchers are deterministic; the one quantifier that can
backtrack (an optional hyphen-or-slash before further digits, and `[:\s]*` before
`[^\n]+`) is embedded with its backtracking semantics.

`datetime.now()` and `uuid.uuid4()` are nondeterministic inputs and appear
as parameters `now`, `ctrlid`, `current_time`.
-/

def isDigitC (c : Char) : Bool := 48 ≤ c.toNat && c.toNat ≤ 57

def isAlphaC (c : Char) : Bool :=
  (65 ≤ c.toNat && c.toNat ≤ 90) || (97 ≤ c.toNat && c.toNat ≤ 122)

/-- `[A-Za-z0-9\-_]`. -/
def isIdChar (c : Char) : Bool := isAlphaC c || isDigitC c || c = '-' || c = '_'

/-- `[A-Za-z\-]`. -/
def isNameChar (c : Char) : Bool := isAlphaC c || c = '-'

/-- `[:\s]`. -/
def isSepSp (c : Char) : Bool := c = ':' || isPySpace c

/-- Strip a case-insensitive literal, returning the matched original
characters and the rest. -/
def takeCaseless : Str → Str → Option (Str × Str)
  | [], s => some ([], s)
  | _ :: _, [] => none
  | k :: ks, c :: cs =>
    if pyLowerChar c = pyLowerChar k then
      (takeCaseless ks cs).map (fun p => (c :: p.1, p.2))
    else none

/-- Exactly `n` characters of class `[0-9]`. -/
def matchNDigits : Nat → Str → Option (Str × Str)
  | 0, s => some ([], s)
  | _ + 1, [] => none
  | n + 1, c :: cs =>
    if isDigitC c then
      (matchNDigits n cs).map (fun p => (c :: p.1, p.2))
    else none

/-- `[xy]?` followed by `next`, greedy with backtracking: prefer consuming
one of `chars`, fall back to the empty match. -/
def optCharThen (chars : List Char) (next : Str → Option (Str × Str))
    (s : Str) : Option (Str × Str) :=
  match s with
  | c :: r =>
    if chars.contains c then
      match next r with
      | some (m, r') => some (c :: m, r')
      | none => next s
    else next s
  | [] => next s

/-- `A\d{2}` (IGNORECASE). -/
def matchA2 (s : Str) : Option (Str × Str) :=
  match takeCaseless "a".data s with
  | none => none
  | some p =>
    match matchNDigits 2 p.2 with
    | none => none
    | some q => some (p.1 ++ q.1, q.2)

/-- The group `(ADT[- ]?A\d{2}|A\d{2})`, alternatives in source order. -/
def triggerGroup (s : Str) : Option (Str × Str) :=
  match takeCaseless "adt".data s with
  | none => matchA2 s
  | some p =>
    match optCharThen ['-', ' '] matchA2 p.2 with
    | none => matchA2 s
    | some q => some (p.1 ++ q.1, q.2)

/-- `re.search(r"Trigger Event[:\s]*(ADT[- ]?A\d{2}|A\d{2})", ..., I)`:
the matcher applied at one position; returns group(1). -/
def matchTrigger (s : Str) : Option Str :=
  match takeCaseless "trigger event".data s with
  | none => none
  | some p =>
    match triggerGroup (p.2.dropWhile isSepSp) with
    | none => none
    | some q => some q.1

/-- `re.search(r"Patient ID[:\s]*([A-Za-z0-9\-_]+)", ..., I)`. -/
def matchPatientId (s : Str) : Option Str :=
  match takeCaseless "patient id".data s with
  | none => none
  | some p =>
    if ((p.2.dropWhile isSepSp).takeWhile isIdChar).isEmpty then none
    else some ((p.2.dropWhile isSepSp).takeWhile isIdChar)

/-- `re.search(r"Patient Name[:\s]*([A-Za-z\-]+)\s+([A-Za-z\-]+)", ..., I)`. -/
def matchName (s : Str) : Option (Str × Str) :=
  match takeCaseless "patient name".data s with
  | none => none
  | some p =>
    if ((p.2.dropWhile isSepSp).takeWhile isNameChar).isEmpty then none
    else if (((p.2.dropWhile isSepSp).dropWhile isNameChar).takeWhile
        isPySpace).isEmpty then none
    else if ((((p.2.dropWhile isSepSp).dropWhile isNameChar).dropWhile
        isPySpace).takeWhile isNameChar).isEmpty then none
    else some ((p.2.dropWhile isSepSp).takeWhile isNameChar,
      (((p.2.dropWhile isSepSp).dropWhile isNameChar).dropWhile
        isPySpace).takeWhile isNameChar)

/-- The dob group: 4 digits, optional hyphen-or-slash, 2 digits, optional
hyphen-or-slash, 2 digits; alternatively 8 digits. -/
def dobGroup (s : Str) : Option (Str × Str) :=
  match matchNDigits 4 s with
  | none => matchNDigits 8 s
  | some p =>
    match optCharThen ['-', '/'] (matchNDigits 2) p.2 with
    | none => matchNDigits 8 s
    | some q =>
      match optCharThen ['-', '/'] (matchNDigits 2) q.2 with
      | none => matchNDigits 8 s
      | some w => some (p.1 ++ q.1 ++ w.1, w.2)

/-- The date-of-birth search of lines 841-843: the key (`Date of Birth` or
`DOB`), then `[:\s]*`, then `dobGroup`, IGNORECASE. -/
def matchDob (key : Str) (s : Str) : Option Str :=
  match takeCaseless key s with
  | none => none
  | some p =>
    match dobGroup (p.2.dropWhile isSepSp) with
    | none => none
    | some q => some q.1

/-- `re.search(r"Gender[:\s]*(M|F|Male|Female|U|Unknown)", ..., I)`:
alternatives tried in source order, matched text returned. -/
def matchGender (s : Str) : Option Str :=
  match takeCaseless "gender".data s with
  | none => none
  | some p =>
    match takeCaseless "m".data (p.2.dropWhile isSepSp) with
    | some q => some q.1
    | none =>
    match takeCaseless "f".data (p.2.dropWhile isSepSp) with
    | some q => some q.1
    | none =>
    match takeCaseless "male".data (p.2.dropWhile isSepSp) with
    | some q => some q.1
    | none =>
    match takeCaseless "female".data (p.2.dropWhile isSepSp) with
    | some q => some q.1
    | none =>
    match takeCaseless "u".data (p.2.dropWhile isSepSp) with
    | some q => some q.1
    | none =>
    match takeCaseless "unknown".data (p.2.dropWhile isSepSp) with
    | some q => some q.1
    | none => none

/-- `re.search(r"Address[:\s]*([^\n]+)", ..., I)`: the star `[:\s]*` can
swallow the line terminator; when nothing outside the class follows, the
star backs off just enough for `[^\n]+` to take the last non-newline
separator character (Python greedy backtracking). -/
def matchAddress (s : Str) : Option Str :=
  match takeCaseless "address".data s with
  | none => none
  | some p =>
    match p.2.dropWhile isSepSp with
    | c :: cs => some ((c :: cs).takeWhile (· != '\n'))
    | [] =>
      match (p.2.takeWhile isSepSp).reverse.dropWhile (· = '\n') with
      | c :: _ => some [c]
      | [] => none

/-- `re.search`: try the matcher at every position, leftmost match wins. -/
def reSearch (m : Str → Option α) : Str → Option α
  | [] => m []
  | c :: t =>
    match m (c :: t) with
    | some r => some r
    | none => reSearch m t

def pyUpperChar (c : Char) : Char :=
  if 'a' ≤ c ∧ c ≤ 'z' then Char.ofNat (c.toNat - 32) else c

def pyUpper (s : Str) : Str := s.map pyUpperChar

/-- Assembling the four segments from the extracted pieces
(lines 829-872 after the regex extractions). -/
def fallbackAssemble (now ctrlid trigger pid3 pid5 pid7 pid8 pid11 : Str) :
    Str :=
  let msh := joinWithChar '|'
    ["MSH".data, "^~\\&".data, "SMART_APP".data, "SMART_FAC".data,
     "REC_APP".data, "REC_FAC".data, now, [],
     trigger.map (fun c => if c = '-' then '^' else c), ctrlid,
     "P".data, "2.5".data]
  let evn := "EVN|".data ++ (splitOnChar '-' trigger).getLastD [] ++
    '|' :: now
  let pid_line := joinWithChar '|'
    ["PID".data, "1".data, [], pid3, [], pid5, [], pid7, pid8, [], [],
     pid11]
  let pv1_class :=
    if pyContains "A01".data trigger || pyContains "A02".data trigger ||
       pyContains "A03".data trigger then "I".data else "O".data
  let pv1 := "PV1|1|".data ++ pv1_class
  joinWithChar '\n' [msh, evn, pid_line, pv1]

/-- `fallback_hl7_generator` (lines 821-872).  `now` is
`datetime.now().strftime("%Y%m%d%H%M%S")`, `ctrlid` is
`str(uuid.uuid4())[:20]`. -/
def fallback_hl7_generator (now ctrlid command_text : Str) : Str :=
  let trigger :=
    match reSearch matchTrigger command_text with
    | some g => pyUpper (g.map fun c => if c = ' ' then '-' else c)
    | none => "ADT-A01".data
  let pid3 :=
    match reSearch matchPatientId command_text with
    | some g => pyStripWs g
    | none => []
  let pid5 :=
    match reSearch matchName command_text with
    | some (g1, g2) => g1 ++ '^' :: g2
    | none => []
  let pid7 :=
    match
      (match reSearch (matchDob "date of birth".data) command_text with
       | some g => some g
       | none => reSearch (matchDob "dob".data) command_text) with
    | some g => g.filter fun c => !(c = '-' || c = '/')
    | none => []
  let pid8 :=
    match reSearch matchGender command_text with
    | some g =>
      if "M".data.isPrefixOf (pyUpper g) then "M".data
      else if "F".data.isPrefixOf (pyUpper g) then "F".data
      else "U".data
    | none => []
  let pid11 :=
    match reSearch matchAddress command_text with
    | some g => pyStripWs g
    | none => []
  fallbackAssemble now ctrlid trigger pid3 pid5 pid7 pid8 pid11

/-- The command string `process_confirmed_patients` builds per patient
(lines 1179-1193). -/
def buildPatientCommand (te mrn uuid ln fn dob gender addr city st zipc
    ph em : Str) : Str :=
  '\n' :: ("Trigger Event: ".data ++ (te ++
  '\n' :: ("Patient ID: ".data ++ (mrn ++
  '\n' :: ("Patient UUID: ".data ++ (uuid ++
  '\n' :: ("Patient Name: ".data ++ (ln ++ ' ' :: (fn ++
  '\n' :: ("Date of Birth: ".data ++ (dob ++
  '\n' :: ("Gender: ".data ++ (gender ++
  '\n' :: ("Address: ".data ++ (addr ++
  '\n' :: ("City: ".data ++ (city ++
  '\n' :: ("State: ".data ++ (st ++
  '\n' :: ("Zip: ".data ++ (zipc ++
  '\n' :: ("Phone: ".data ++ (ph ++
  '\n' :: ("Email: ".data ++ (em ++
  '\n' :: ("Create an ".data ++ (te ++ (" message for patient ".data ++
  (fn ++ (' ' :: (ln ++ (", ID ".data ++ (mrn ++ (", UUID ".data ++
  (uuid ++ (", DOB ".data ++ (dob ++ (", Gender ".data ++ (gender ++
  ['\n'])))))))))))))))))))))))))))))))))))))))

/-- The prompt `generate_hl7_message` wraps the command in
(lines 878-888). -/
def buildPrompt (current_time command : Str) : Str :=
  "You are an HL7 v2.x message generator. Generate a valid HL7 message based on the following command:\n\n".data ++
  (command ++
  ("\n\nCRITICAL REQUIREMENTS:\n- Use HL7 v2.x pipe-delimited format.\n- Auto-populate MSH-11=".data ++
  ('\x27' :: ('P' :: ('\x27' :: (", MSH-12=".data ++
  ('\x27' :: ('2' :: ('.' :: ('5' :: ('\x27' :: (", EVN-2=".data ++
  ('\x27' :: (current_time ++ ('\x27' ::
  "\n- Only include segments explicitly required or implied.\n- For ADTs include MSH, EVN, PID, PV1 minimum.\n- Output ONLY the HL7 message text (no explanation).\n".data)))))))))))))))

/-- One segment as the python-hl7 library parses it: the MSH segment gets
the field separator as MSH-1 and the encoding characters as MSH-2, other
segments split on the field separator. -/
def pyhl7ParseSegment (seg : Str) : List Str :=
  match seg with
  | 'M' :: 'S' :: 'H' :: sep0 :: rest =>
    let encChars := rest.takeWhile (· ≠ sep0)
    (match rest.dropWhile (· ≠ sep0) with
     | [] => ["MSH".data, [sep0], encChars]
     | _ :: r => ["MSH".data, [sep0], encChars] ++ splitOnChar sep0 r)
  | _ => splitOnChar '|' seg

/-- Model of the external `hl7.parse`: strip the text, fail on an empty
message, split segments on `\r`, fields per `pyhl7ParseSegment`. -/
def pyhl7Parse (s : Str) : Except Str (List (List Str)) :=
  let t := pyStripWs s
  if t.isEmpty then .error "empty message".data
  else .ok ((splitOnChar '\x0d' t).map pyhl7ParseSegment)

/-- The confirm pipeline's local-generator path for one patient
(lines 1196-1202 with `generate_hl7_message` falling back to the local
generator): build the command, wrap it in the prompt, run the fallback
generator, attach the ZPI segment, validate. -/
def localGeneratorPipeline (te mrn uuid ln fn dob gender addr city st zipc
    ph em now ctrlid current_time : Str) : HL7ValidationResponse :=
  validate_required_fields_api pyhl7Parse
    (add_zpi_segment_with_uuid
      (fallback_hl7_generator now ctrlid
        (buildPrompt current_time
          (buildPatientCommand te mrn uuid ln fn dob gender addr city st
            zipc ph em)))
      uuid)

/-! #### Character-class facts (via code points) -/

lemma char_le_iff (a c : Char) : (a ≤ c) ↔ a.toNat ≤ c.toNat := by
  simp [Char.le_def, Char.toNat, UInt32.le_def, BitVec.le_def, UInt32.toNat]

lemma toNat_ofNat_valid (n : Nat) (h : n < 0xd800) :
    (Char.ofNat n).toNat = n := by
  simp [Char.ofNat, Nat.isValidChar, h, Char.ofNatAux, Char.toNat,
    UInt32.toNat]

lemma char_eq_iff_toNat (c b : Char) : c = b ↔ c.toNat = b.toNat :=
  ⟨fun h => h ▸ rfl, char_toNat_inj⟩

lemma toNat_pyLowerChar (c : Char) :
    (pyLowerChar c).toNat =
      if 65 ≤ c.toNat ∧ c.toNat ≤ 90 then c.toNat + 32 else c.toNat := by
  unfold pyLowerChar
  by_cases h : 'A' ≤ c ∧ c ≤ 'Z'
  · have h' : 65 ≤ c.toNat ∧ c.toNat ≤ 90 :=
      ⟨(char_le_iff 'A' c).mp h.1, (char_le_iff c 'Z').mp h.2⟩
    rw [if_pos h, if_pos h']
    exact toNat_ofNat_valid _ (by omega)
  · have h' : ¬(65 ≤ c.toNat ∧ c.toNat ≤ 90) := fun hc =>
      h ⟨(char_le_iff 'A' c).mpr hc.1, (char_le_iff c 'Z').mpr hc.2⟩
    rw [if_neg h, if_neg h']

lemma toNat_pyUpperChar (c : Char) :
    (pyUpperChar c).toNat =
      if 97 ≤ c.toNat ∧ c.toNat ≤ 122 then c.toNat - 32 else c.toNat := by
  unfold pyUpperChar
  by_cases h : 'a' ≤ c ∧ c ≤ 'z'
  · have h' : 97 ≤ c.toNat ∧ c.toNat ≤ 122 :=
      ⟨(char_le_iff 'a' c).mp h.1, (char_le_iff c 'z').mp h.2⟩
    rw [if_pos h, if_pos h']
    exact toNat_ofNat_valid _ (by omega)
  · have h' : ¬(97 ≤ c.toNat ∧ c.toNat ≤ 122) := fun hc =>
      h ⟨(char_le_iff 'a' c).mpr hc.1, (char_le_iff c 'z').mpr hc.2⟩
    rw [if_neg h, if_neg h']

lemma pySpace_true_cases (c : Char) (hs : isPySpace c = true) :
    c = ' ' ∨ c = '\t' ∨ c = '\n' ∨ c = '\x0d' ∨ c = '\x0b' ∨ c = '\x0c' := by
  unfold isPySpace at hs
  simp only [Bool.or_eq_true, decide_eq_true_eq] at hs
  tauto

lemma sepSp_true_cases (c : Char) (hs : isSepSp c = true) :
    c = ':' ∨ c = ' ' ∨ c = '\t' ∨ c = '\n' ∨ c = '\x0d' ∨ c = '\x0b' ∨
    c = '\x0c' := by
  unfold isSepSp at hs
  rcases Bool.or_eq_true .. ▸ hs with h | h
  · exact Or.inl (by simpa using h)
  · exact Or.inr (pySpace_true_cases c h)

lemma digitC_iff (c : Char) :
    isDigitC c = true ↔ (48 ≤ c.toNat ∧ c.toNat ≤ 57) := by
  simp [isDigitC]

lemma alphaC_iff (c : Char) :
    isAlphaC c = true ↔
      ((65 ≤ c.toNat ∧ c.toNat ≤ 90) ∨ (97 ≤ c.toNat ∧ c.toNat ≤ 122)) := by
  simp [isAlphaC]

lemma idChar_true_cases (c : Char) (h : isIdChar c = true) :
    isAlphaC c = true ∨ isDigitC c = true ∨ c = '-' ∨ c = '_' := by
  unfold isIdChar at h
  simp only [Bool.or_eq_true, decide_eq_true_eq] at h
  tauto

lemma nameChar_true_cases (c : Char) (h : isNameChar c = true) :
    isAlphaC c = true ∨ c = '-' := by
  unfold isNameChar at h
  simp only [Bool.or_eq_true, decide_eq_true_eq] at h
  tauto

lemma pySpace_false_of_toNat (c : Char)
    (h : c.toNat ≠ 32 ∧ c.toNat ≠ 9 ∧ c.toNat ≠ 10 ∧ c.toNat ≠ 13 ∧
         c.toNat ≠ 11 ∧ c.toNat ≠ 12) : isPySpace c = false := by
  cases hs : isPySpace c
  · rfl
  · exfalso
    rcases pySpace_true_cases c hs with rfl | rfl | rfl | rfl | rfl | rfl <;>
      revert h <;> decide

lemma sepSp_false_of_toNat (c : Char)
    (h : c.toNat ≠ 58 ∧ c.toNat ≠ 32 ∧ c.toNat ≠ 9 ∧ c.toNat ≠ 10 ∧
         c.toNat ≠ 13 ∧ c.toNat ≠ 11 ∧ c.toNat ≠ 12) : isSepSp c = false := by
  cases hs : isSepSp c
  · rfl
  · exfalso
    rcases sepSp_true_cases c hs with
      rfl | rfl | rfl | rfl | rfl | rfl | rfl <;> revert h <;> decide

lemma char_ne_of_toNat {c : Char} {n : Nat} (b : Char) (hb : b.toNat = n)
    (h : c.toNat ≠ n) : c ≠ b := fun he => h (he ▸ hb)

/-- The facts needed about characters that may land in a critical PID/MSH
field: not a field separator, not a segment or line terminator, and not
whitespace. -/
def safeFieldChar (c : Char) : Prop :=
  c ≠ '|' ∧ c ≠ '\x0d' ∧ c ≠ '\n' ∧ isPySpace c = false

lemma safeFieldChar_of_toNat (c : Char)
    (h : c.toNat ≠ 124 ∧ c.toNat ≠ 13 ∧ c.toNat ≠ 10 ∧ c.toNat ≠ 32 ∧
         c.toNat ≠ 9 ∧ c.toNat ≠ 11 ∧ c.toNat ≠ 12) : safeFieldChar c :=
  ⟨char_ne_of_toNat '|' rfl h.1, char_ne_of_toNat '\x0d' rfl h.2.1,
   char_ne_of_toNat '\n' rfl h.2.2.1,
   pySpace_false_of_toNat c (by omega)⟩

lemma safe_of_alphaC (c : Char) (h : isAlphaC c = true) : safeFieldChar c := by
  rcases (alphaC_iff c).mp h with h' | h' <;>
    exact safeFieldChar_of_toNat c (by omega)

lemma safe_of_digitC (c : Char) (h : isDigitC c = true) : safeFieldChar c := by
  have h' := (digitC_iff c).mp h
  exact safeFieldChar_of_toNat c (by omega)

lemma safe_of_idChar (c : Char) (h : isIdChar c = true) : safeFieldChar c := by
  rcases idChar_true_cases c h with h' | h' | rfl | rfl
  · exact safe_of_alphaC c h'
  · exact safe_of_digitC c h'
  · exact ⟨by decide, by decide, by decide, by decide⟩
  · exact ⟨by decide, by decide, by decide, by decide⟩

lemma safe_of_nameChar (c : Char) (h : isNameChar c = true) :
    safeFieldChar c := by
  rcases nameChar_true_cases c h with h' | rfl
  · exact safe_of_alphaC c h'
  · exact ⟨by decide, by decide, by decide, by decide⟩

lemma sep_false_of_alphaC (c : Char) (h : isAlphaC c = true) :
    isSepSp c = false := by
  rcases (alphaC_iff c).mp h with h' | h' <;>
    exact sepSp_false_of_toNat c (by omega)

lemma sep_false_of_digitC (c : Char) (h : isDigitC c = true) :
    isSepSp c = false := by
  have h' := (digitC_iff c).mp h
  exact sepSp_false_of_toNat c (by omega)

lemma sep_false_of_idChar (c : Char) (h : isIdChar c = true) :
    isSepSp c = false := by
  rcases idChar_true_cases c h with h' | h' | rfl | rfl
  · exact sep_false_of_alphaC c h'
  · exact sep_false_of_digitC c h'
  · decide
  · decide

lemma pySpace_false_of_alphaC (c : Char) (h : isAlphaC c = true) :
    isPySpace c = false := by
  rcases (alphaC_iff c).mp h with h' | h' <;>
    exact pySpace_false_of_toNat c (by omega)

lemma idChar_of_alphaC (c : Char) (h : isAlphaC c = true) :
    isIdChar c = true := by
  unfold isIdChar
  rw [h]
  rfl

lemma nameChar_of_alphaC (c : Char) (h : isAlphaC c = true) :
    isNameChar c = true := by
  unfold isNameChar
  rw [h]
  rfl

/-! #### List and matcher infrastructure -/

lemma forall_mem_append {p : Char → Prop} {a b : Str}
    (ha : ∀ c ∈ a, p c) (hb : ∀ c ∈ b, p c) : ∀ c ∈ a ++ b, p c := by
  intro c hc
  rcases List.mem_append.mp hc with h | h
  · exact ha c h
  · exact hb c h

lemma takeWhile_append_stop (p : Char → Bool) (xs : Str) (c : Char) (r : Str)
    (hall : ∀ a ∈ xs, p a = true) (hc : p c = false) :
    (xs ++ c :: r).takeWhile p = xs := by
  induction xs with
  | nil => simp [List.takeWhile_cons, hc]
  | cons x t ih =>
    have hx := hall x (List.mem_cons_self x t)
    simp only [List.cons_append, List.takeWhile_cons, hx, if_true]
    rw [ih (fun a ha => hall a (List.mem_cons_of_mem x ha))]

lemma dropWhile_append_stop (p : Char → Bool) (xs : Str) (c : Char) (r : Str)
    (hall : ∀ a ∈ xs, p a = true) (hc : p c = false) :
    (xs ++ c :: r).dropWhile p = c :: r := by
  induction xs with
  | nil => simp [List.dropWhile_cons, hc]
  | cons x t ih =>
    have hx := hall x (List.mem_cons_self x t)
    simp only [List.cons_append, List.dropWhile_cons, hx, if_true]
    exact ih (fun a ha => hall a (List.mem_cons_of_mem x ha))

lemma takeWhile_all (p : Char → Bool) (xs : Str)
    (hall : ∀ a ∈ xs, p a = true) : xs.takeWhile p = xs :=
  List.takeWhile_eq_self_iff.mpr hall

lemma takeCaseless_append (k x r : Str)
    (h : x.map pyLowerChar = k.map pyLowerChar) :
    takeCaseless k (x ++ r) = some (x, r) := by
  induction k generalizing x with
  | nil =>
    cases x with
    | nil => rfl
    | cons a b => simp at h
  | cons kc ks ih =>
    cases x with
    | nil => simp at h
    | cons xc xt =>
      simp only [List.map_cons, List.cons.injEq] at h
      show takeCaseless (kc :: ks) (xc :: (xt ++ r)) = _
      unfold takeCaseless
      rw [if_pos h.1, ih xt h.2]
      rfl

lemma takeCaseless_spec (k : Str) : ∀ (s m r : Str),
    takeCaseless k s = some (m, r) →
    s = m ++ r ∧ m.map pyLowerChar = k.map pyLowerChar := by
  induction k with
  | nil =>
    intro s m r h
    unfold takeCaseless at h
    rcases Prod.mk.injEq .. ▸ Option.some.inj h with ⟨h1, h2⟩
    subst h1; subst h2
    exact ⟨rfl, rfl⟩
  | cons kc ks ih =>
    intro s m r h
    cases s with
    | nil => cases h
    | cons c cs =>
      unfold takeCaseless at h
      split at h
      · rcases hk : takeCaseless ks cs with _ | p
        · rw [hk] at h; cases h
        · rw [hk] at h
          simp only [Option.map_some'] at h
          rcases Prod.mk.injEq .. ▸ Option.some.inj h with ⟨h1, h2⟩
          subst h1; subst h2
          obtain ⟨hs, hm⟩ := ih cs p.1 p.2 hk
          refine ⟨by rw [hs]; rfl, ?_⟩
          simp only [List.map_cons, hm, List.cons.injEq]
          exact ⟨by assumption, trivial⟩
      · cases h

lemma matchNDigits_append : ∀ (n : Nat) (xs r : Str),
    xs.length = n → (∀ c ∈ xs, isDigitC c = true) →
    matchNDigits n (xs ++ r) = some (xs, r) := by
  intro n
  induction n with
  | zero =>
    intro xs r hlen _
    rw [List.length_eq_zero.mp hlen]
    rfl
  | succ n ih =>
    intro xs r hlen hd
    cases xs with
    | nil => cases hlen
    | cons x xt =>
      have hx := hd x (List.mem_cons_self x xt)
      show matchNDigits (n + 1) (x :: (xt ++ r)) = _
      unfold matchNDigits
      rw [if_pos hx,
        ih xt r (by simpa using hlen)
          (fun c hc => hd c (List.mem_cons_of_mem x hc))]
      rfl

lemma matchNDigits_spec : ∀ (n : Nat) (s m r : Str),
    matchNDigits n s = some (m, r) →
    s = m ++ r ∧ m.length = n ∧ ∀ c ∈ m, isDigitC c = true := by
  intro n
  induction n with
  | zero =>
    intro s m r h
    unfold matchNDigits at h
    rcases Prod.mk.injEq .. ▸ Option.some.inj h with ⟨h1, h2⟩
    subst h1; subst h2
    exact ⟨rfl, rfl, by intro c hc; cases hc⟩
  | succ n ih =>
    intro s m r h
    cases s with
    | nil => cases h
    | cons c cs =>
      unfold matchNDigits at h
      split at h
      · rcases hk : matchNDigits n cs with _ | p
        · rw [hk] at h; cases h
        · rw [hk] at h
          simp only [Option.map_some'] at h
          rcases Prod.mk.injEq .. ▸ Option.some.inj h with ⟨h1, h2⟩
          subst h1; subst h2
          obtain ⟨hs, hlen, hd⟩ := ih cs p.1 p.2 hk
          refine ⟨by rw [hs]; rfl, by simpa using hlen, ?_⟩
          intro a ha
          rcases List.mem_cons.mp ha with rfl | ha2
          · assumption
          · exact hd a ha2
      · cases h

lemma optCharThen_digits (chars : List Char) (k : Nat) (s m r : Str)
    (h : optCharThen chars (matchNDigits k) s = some (m, r)) :
    ∀ c ∈ m, isDigitC c = true ∨ c ∈ chars := by
  have base : ∀ (s' : Str), matchNDigits k s' = some (m, r) →
      ∀ c ∈ m, isDigitC c = true ∨ c ∈ chars := by
    intro s' hk c hc
    exact Or.inl ((matchNDigits_spec k s' m r hk).2.2 c hc)
  cases s with
  | nil =>
    unfold optCharThen at h
    exact base [] h
  | cons c0 cs =>
    unfold optCharThen at h
    dsimp only at h
    by_cases hmem : chars.contains c0 = true
    · rw [if_pos hmem] at h
      rcases hk : matchNDigits k cs with _ | p
      · rw [hk] at h
        exact base (c0 :: cs) h
      · rw [hk] at h
        rcases Prod.mk.injEq .. ▸ Option.some.inj h with ⟨h1, h2⟩
        subst h1; subst h2
        intro c hc
        rcases List.mem_cons.mp hc with rfl | hc2
        · exact Or.inr (by simpa using hmem)
        · exact Or.inl ((matchNDigits_spec k cs p.1 p.2 hk).2.2 c hc2)
    · rw [if_neg hmem] at h
      exact base (c0 :: cs) h

lemma reSearch_spec {α : Type} (m : Str → Option α) :
    ∀ (s : Str) (g : α), reSearch m s = some g →
    ∃ s', s' <:+ s ∧ m s' = some g := by
  intro s
  induction s with
  | nil => exact fun g h => ⟨[], List.nil_suffix, h⟩
  | cons c t ih =>
    intro g h
    unfold reSearch at h
    rcases hm : m (c :: t) with _ | r
    · rw [hm] at h
      obtain ⟨s', hs', hms'⟩ := ih g h
      exact ⟨s', hs'.trans (List.suffix_cons c t), hms'⟩
    · rw [hm] at h
      cases Option.some.inj h
      exact ⟨c :: t, List.suffix_rfl, hm⟩

lemma reSearch_isSome_of_suffix {α : Type} (m : Str → Option α)
    (s s' : Str) (g : α) (hs : s' <:+ s) (hm : m s' = some g) :
    ∃ g', reSearch m s = some g' := by
  induction s with
  | nil =>
    rw [List.suffix_nil.mp hs] at hm
    exact ⟨g, hm⟩
  | cons c t ih =>
    rcases List.suffix_cons_iff.mp hs with rfl | hs2
    · unfold reSearch
      rw [hm]
      exact ⟨g, rfl⟩
    · unfold reSearch
      rcases hm2 : m (c :: t) with _ | r
      · exact ih hs2
      · exact ⟨r, rfl⟩

lemma splitAux_chars (sep : Char) (s : Str) :
    (∀ c ∈ (splitAux sep s).1, c ∈ s) ∧
    (∀ l ∈ (splitAux sep s).2, ∀ c ∈ l, c ∈ s) := by
  induction s with
  | nil =>
    constructor
    · intro c hc; cases hc
    · intro l hl; cases hl
  | cons c0 t ih =>
    unfold splitAux
    by_cases hc0 : c0 = sep
    · rw [if_pos hc0]
      constructor
      · intro c hc; cases hc
      · intro l hl c hc
        rcases List.mem_cons.mp hl with rfl | hl2
        · exact List.mem_cons_of_mem c0 (ih.1 c hc)
        · exact List.mem_cons_of_mem c0 (ih.2 l hl2 c hc)
    · rw [if_neg hc0]
      constructor
      · intro c hc
        rcases List.mem_cons.mp hc with rfl | hc2
        · exact List.mem_cons_self _ _
        · exact List.mem_cons_of_mem c0 (ih.1 c hc2)
      · intro l hl c hc
        exact List.mem_cons_of_mem c0 (ih.2 l hl c hc)

lemma splitOnChar_chars (sep : Char) (s : Str) :
    ∀ l ∈ splitOnChar sep s, ∀ c ∈ l, c ∈ s := by
  intro l hl
  rcases List.mem_cons.mp hl with rfl | hl2
  · exact (splitAux_chars sep s).1
  · exact (splitAux_chars sep s).2 l hl2

lemma getLastD_mem {α : Type} (l : List α) (d : α) (h : l ≠ []) :
    l.getLastD d ∈ l := by
  induction l with
  | nil => exact absurd rfl h
  | cons x t ih =>
    cases t with
    | nil => exact List.mem_cons_self x []
    | cons y ys => exact List.mem_cons_of_mem x (ih (by simp))

/-! #### What each matcher can return -/

lemma mem_of_mem_takeWhile {p : Char → Bool} {l : Str} {c : Char}
    (h : c ∈ l.takeWhile p) : c ∈ l := by
  induction l with
  | nil => cases h
  | cons x t ih =>
    rw [List.takeWhile_cons] at h
    by_cases hx : p x = true
    · rw [if_pos hx] at h
      rcases List.mem_cons.mp h with rfl | h2
      · exact List.mem_cons_self _ _
      · exact List.mem_cons_of_mem x (ih h2)
    · rw [if_neg hx] at h; cases h

lemma mem_of_mem_dropWhile {p : Char → Bool} {l : Str} {c : Char}
    (h : c ∈ l.dropWhile p) : c ∈ l := by
  induction l with
  | nil => cases h
  | cons x t ih =>
    rw [List.dropWhile_cons] at h
    by_cases hx : p x = true
    · rw [if_pos hx] at h
      exact List.mem_cons_of_mem x (ih h)
    · rw [if_neg hx] at h
      exact h

lemma dropWhile_head_false {p : Char → Bool} {l : Str} {c : Char} {t : Str}
    (h : l.dropWhile p = c :: t) : p c = false := by
  induction l with
  | nil => cases h
  | cons x xs ih =>
    rw [List.dropWhile_cons] at h
    by_cases hx : p x = true
    · rw [if_pos hx] at h
      exact ih h
    · rw [if_neg hx] at h
      cases List.cons.injEq .. ▸ h |>.1
      simpa using hx

lemma lower_mem_of_caseless {k m : Str}
    (hm : m.map pyLowerChar = k.map pyLowerChar) {c : Char} (hc : c ∈ m) :
    pyLowerChar c ∈ k.map pyLowerChar := hm ▸ List.mem_map_of_mem _ hc

lemma optCharThen_out {next : Str → Option (Str × Str)} {P : Char → Prop}
    (chars : List Char)
    (hnext : ∀ s m r, next s = some (m, r) → ∀ c ∈ m, P c)
    (hchars : ∀ c ∈ chars, P c) :
    ∀ s m r, optCharThen chars next s = some (m, r) → ∀ c ∈ m, P c := by
  intro s m r h
  cases s with
  | nil =>
    unfold optCharThen at h
    exact hnext [] m r h
  | cons c0 cs =>
    unfold optCharThen at h
    dsimp only at h
    by_cases hmem : chars.contains c0 = true
    · rw [if_pos hmem] at h
      rcases hk : next cs with _ | p
      · rw [hk] at h
        exact hnext (c0 :: cs) m r h
      · rw [hk] at h
        rcases Prod.mk.injEq .. ▸ Option.some.inj h with ⟨h1, h2⟩
        subst h1; subst h2
        intro c hc
        rcases List.mem_cons.mp hc with rfl | hc2
        · exact hchars c (by simpa using hmem)
        · exact hnext cs p.1 p.2 hk c hc2
    · rw [if_neg hmem] at h
      exact hnext (c0 :: cs) m r h


lemma alphaC_of_lower (c : Char) (h : isAlphaC (pyLowerChar c) = true) :
    isAlphaC c = true := by
  rw [alphaC_iff] at h ⊢
  rw [toNat_pyLowerChar] at h
  by_cases hc : 65 ≤ c.toNat ∧ c.toNat ≤ 90
  · exact Or.inl hc
  · rw [if_neg hc] at h
    exact h

lemma caseless_alpha (k : Str)
    (hk : ∀ c ∈ k.map pyLowerChar, isAlphaC c = true) :
    ∀ s m r, takeCaseless k s = some (m, r) →
    ∀ c ∈ m, isAlphaC c = true := by
  intro s m r h c hc
  exact alphaC_of_lower c
    (hk _ (lower_mem_of_caseless (takeCaseless_spec k s m r h).2 hc))

/-- A character the trigger group can contain. -/
def trigChar (c : Char) : Prop :=
  isAlphaC c = true ∨ isDigitC c = true ∨ c = '-' ∨ c = ' '

lemma matchA2_out : ∀ s m r, matchA2 s = some (m, r) →
    m ≠ [] ∧ ∀ c ∈ m, isAlphaC c = true ∨ isDigitC c = true := by
  intro s m r h
  unfold matchA2 at h
  rcases h1 : takeCaseless "a".data s with _ | p
  · rw [h1] at h; cases h
  · rw [h1] at h
    dsimp only at h
    rcases h2 : matchNDigits 2 p.2 with _ | q
    · rw [h2] at h; cases h
    · rw [h2] at h
      dsimp only at h
      rcases Prod.mk.injEq .. ▸ Option.some.inj h with ⟨hm, hr⟩
      subst hm
      obtain ⟨-, hlen, hdig⟩ := matchNDigits_spec 2 p.2 q.1 q.2 h2
      constructor
      · intro hemp
        rcases List.append_eq_nil.mp hemp with ⟨-, hq⟩
        rw [hq] at hlen
        cases hlen
      · refine forall_mem_append ?_ (fun c hc => Or.inr (hdig c hc))
        intro c hc
        exact Or.inl (caseless_alpha "a".data (by decide) s p.1 p.2
          (by rw [h1]) c hc)

lemma triggerGroup_out : ∀ s m r, triggerGroup s = some (m, r) →
    m ≠ [] ∧ ∀ c ∈ m, trigChar c := by
  have hA2 : ∀ s m r, matchA2 s = some (m, r) →
      m ≠ [] ∧ ∀ c ∈ m, trigChar c := by
    intro s m r h'
    obtain ⟨hne, hcl⟩ := matchA2_out s m r h'
    refine ⟨hne, fun c hc => ?_⟩
    rcases hcl c hc with h | h
    · exact Or.inl h
    · exact Or.inr (Or.inl h)
  intro s m r h
  unfold triggerGroup at h
  rcases h1 : takeCaseless "adt".data s with _ | p
  · rw [h1] at h
    exact hA2 s m r h
  · rw [h1] at h
    dsimp only at h
    rcases h2 : optCharThen ['-', ' '] matchA2 p.2 with _ | q
    · rw [h2] at h
      exact hA2 s m r h
    · rw [h2] at h
      dsimp only at h
      rcases Prod.mk.injEq .. ▸ Option.some.inj h with ⟨hm, hr⟩
      subst hm
      have hq : ∀ c ∈ q.1, trigChar c := by
        refine optCharThen_out ['-', ' '] ?_ ?_ p.2 q.1 q.2 (by rw [h2])
        · intro s' m' r' h' c hc
          exact (hA2 s' m' r' h').2 c hc
        · intro c hc
          rcases List.mem_cons.mp hc with rfl | hc2
          · exact Or.inr (Or.inr (Or.inl rfl))
          · rcases List.mem_cons.mp hc2 with rfl | hc3
            · exact Or.inr (Or.inr (Or.inr rfl))
            · cases hc3
      have hp : ∀ c ∈ p.1, trigChar c := fun c hc =>
        Or.inl (caseless_alpha "adt".data (by decide) s p.1 p.2
          (by rw [h1]) c hc)
      refine ⟨?_, forall_mem_append hp hq⟩
      intro hemp
      rcases List.append_eq_nil.mp hemp with ⟨hp1, -⟩
      have hsp := (takeCaseless_spec "adt".data s p.1 p.2 (by rw [h1])).2
      rw [hp1] at hsp
      exact absurd hsp (by decide)

lemma matchTrigger_out : ∀ s g, matchTrigger s = some g →
    g ≠ [] ∧ ∀ c ∈ g, trigChar c := by
  intro s g h
  unfold matchTrigger at h
  rcases h1 : takeCaseless "trigger event".data s with _ | p
  · rw [h1] at h; cases h
  · rw [h1] at h
    dsimp only at h
    rcases h2 : triggerGroup (p.2.dropWhile isSepSp) with _ | q
    · rw [h2] at h; cases h
    · rw [h2] at h
      dsimp only at h
      cases Option.some.inj h
      exact triggerGroup_out _ q.1 q.2 (by rw [h2])

lemma matchPatientId_out : ∀ s g, matchPatientId s = some g →
    g ≠ [] ∧ ∀ c ∈ g, isIdChar c = true := by
  intro s g h
  unfold matchPatientId at h
  rcases h1 : takeCaseless "patient id".data s with _ | p
  · rw [h1] at h; cases h
  · rw [h1] at h
    dsimp only at h
    by_cases hE : ((p.2.dropWhile isSepSp).takeWhile isIdChar).isEmpty = true
    · rw [if_pos hE] at h; cases h
    · rw [if_neg hE] at h
      cases Option.some.inj h
      refine ⟨fun hg => hE (by rw [hg]; rfl), ?_⟩
      intro c hc
      exact List.mem_takeWhile_imp hc

lemma matchName_out : ∀ s g1 g2, matchName s = some (g1, g2) →
    (g1 ≠ [] ∧ ∀ c ∈ g1, isNameChar c = true) ∧
    (g2 ≠ [] ∧ ∀ c ∈ g2, isNameChar c = true) := by
  intro s g1 g2 h
  unfold matchName at h
  rcases h1 : takeCaseless "patient name".data s with _ | p
  · rw [h1] at h; cases h
  · rw [h1] at h
    dsimp only at h
    by_cases hE1 : ((p.2.dropWhile isSepSp).takeWhile isNameChar).isEmpty
        = true
    · rw [if_pos hE1] at h; cases h
    · rw [if_neg hE1] at h
      by_cases hE2 : (((p.2.dropWhile isSepSp).dropWhile
          isNameChar).takeWhile isPySpace).isEmpty = true
      · rw [if_pos hE2] at h; cases h
      · rw [if_neg hE2] at h
        by_cases hE3 : ((((p.2.dropWhile isSepSp).dropWhile
            isNameChar).dropWhile isPySpace).takeWhile isNameChar).isEmpty
            = true
        · rw [if_pos hE3] at h; cases h
        · rw [if_neg hE3] at h
          rcases Prod.mk.injEq .. ▸ Option.some.inj h with ⟨hg1, hg2⟩
          constructor
          · refine ⟨fun hg => hE1 (by rw [hg1, hg]; rfl), ?_⟩
            intro c hc
            rw [← hg1] at hc
            exact List.mem_takeWhile_imp hc
          · refine ⟨fun hg => hE3 (by rw [hg2, hg]; rfl), ?_⟩
            intro c hc
            rw [← hg2] at hc
            exact List.mem_takeWhile_imp hc

lemma dobGroup_out : ∀ s m r, dobGroup s = some (m, r) →
    (∃ c ∈ m, isDigitC c = true) ∧
    ∀ c ∈ m, isDigitC c = true ∨ c = '-' ∨ c = '/' := by
  have h8 : ∀ s m r, matchNDigits 8 s = some (m, r) →
      (∃ c ∈ m, isDigitC c = true) ∧
      ∀ c ∈ m, isDigitC c = true ∨ c = '-' ∨ c = '/' := by
    intro s m r h'
    obtain ⟨-, hlen, hdig⟩ := matchNDigits_spec 8 s m r h'
    have hne : m ≠ [] := by
      intro hemp
      rw [hemp] at hlen
      cases hlen
    obtain ⟨c0, hc0⟩ := List.exists_mem_of_ne_nil m hne
    exact ⟨⟨c0, hc0, hdig c0 hc0⟩, fun c hc => Or.inl (hdig c hc)⟩
  have hopt : ∀ s m r,
      optCharThen ['-', '/'] (matchNDigits 2) s = some (m, r) →
      ∀ c ∈ m, isDigitC c = true ∨ c = '-' ∨ c = '/' := by
    intro s m r h' c hc
    rcases optCharThen_digits ['-', '/'] 2 s m r h' c hc with hd | hm
    · exact Or.inl hd
    · rcases List.mem_cons.mp hm with rfl | hm2
      · exact Or.inr (Or.inl rfl)
      · rcases List.mem_cons.mp hm2 with rfl | hm3
        · exact Or.inr (Or.inr rfl)
        · cases hm3
  intro s m r h
  unfold dobGroup at h
  rcases h1 : matchNDigits 4 s with _ | p
  · rw [h1] at h
    exact h8 s m r h
  · rw [h1] at h
    dsimp only at h
    rcases h2 : optCharThen ['-', '/'] (matchNDigits 2) p.2 with _ | q
    · rw [h2] at h
      exact h8 s m r h
    · rw [h2] at h
      dsimp only at h
      rcases h3 : optCharThen ['-', '/'] (matchNDigits 2) q.2 with _ | w
      · rw [h3] at h
        exact h8 s m r h
      · rw [h3] at h
        dsimp only at h
        rcases Prod.mk.injEq .. ▸ Option.some.inj h with ⟨hm, hr⟩
        subst hm
        obtain ⟨-, hlen4, hdig4⟩ := matchNDigits_spec 4 s p.1 p.2 h1
        have hp1ne : p.1 ≠ [] := by
          intro hemp
          rw [hemp] at hlen4
          cases hlen4
        obtain ⟨c0, hc0⟩ := List.exists_mem_of_ne_nil p.1 hp1ne
        refine ⟨⟨c0, List.mem_append_left _ (List.mem_append_left _ hc0),
          hdig4 c0 hc0⟩, ?_⟩
        refine forall_mem_append
          (forall_mem_append (fun c hc => Or.inl (hdig4 c hc))
            (hopt p.2 q.1 q.2 (by rw [h2]))) ?_
        exact hopt q.2 w.1 w.2 (by rw [h3])

lemma matchDob_out : ∀ key s g, matchDob key s = some g →
    (∃ c ∈ g, isDigitC c = true) ∧
    ∀ c ∈ g, isDigitC c = true ∨ c = '-' ∨ c = '/' := by
  intro key s g h
  unfold matchDob at h
  rcases h1 : takeCaseless key s with _ | p
  · rw [h1] at h; cases h
  · rw [h1] at h
    dsimp only at h
    rcases h2 : dobGroup (p.2.dropWhile isSepSp) with _ | q
    · rw [h2] at h; cases h
    · rw [h2] at h
      dsimp only at h
      cases Option.some.inj h
      exact dobGroup_out _ q.1 q.2 (by rw [h2])

lemma matchAddress_out : ∀ s g, matchAddress s = some g →
    '\n' ∉ g ∧ ∀ c ∈ g, c ∈ s := by
  intro s g h
  unfold matchAddress at h
  rcases h1 : takeCaseless "address".data s with _ | p
  · rw [h1] at h; cases h
  · rw [h1] at h
    dsimp only at h
    have hsub : ∀ c ∈ p.2, c ∈ s := by
      intro c hc
      rw [(takeCaseless_spec "address".data s p.1 p.2 (by rw [h1])).1]
      exact List.mem_append_right _ hc
    rcases h2 : p.2.dropWhile isSepSp with _ | ⟨c0, cs⟩
    · rw [h2] at h
      dsimp only at h
      rcases h3 : (p.2.takeWhile isSepSp).reverse.dropWhile (· = '\n')
        with _ | ⟨d0, ds⟩
      · rw [h3] at h; cases h
      · rw [h3] at h
        dsimp only at h
        cases Option.some.inj h
        have hd0 : d0 ∈ (p.2.takeWhile isSepSp).reverse.dropWhile
            (· = '\n') := by
          rw [h3]
          exact List.mem_cons_self d0 ds
        have hd0mem : d0 ∈ p.2 := by
          have := mem_of_mem_dropWhile hd0
          rw [List.mem_reverse] at this
          exact mem_of_mem_takeWhile this
        have hd0ne := dropWhile_head_false h3
        constructor
        · intro hmem
          rcases List.mem_cons.mp hmem with heq | hmem2
          · rw [← heq] at hd0ne
            simp at hd0ne
          · cases hmem2
        · intro c hc
          rcases List.mem_cons.mp hc with rfl | hc2
          · exact hsub c hd0mem
          · cases hc2
    · rw [h2] at h
      dsimp only at h
      cases Option.some.inj h
      constructor
      · intro hmem
        have := List.mem_takeWhile_imp hmem
        simp at this
      · intro c hc
        have hc' : c ∈ c0 :: cs := mem_of_mem_takeWhile hc
        rw [← h2] at hc'
        exact hsub c (mem_of_mem_dropWhile hc')

/-! #### Helper facts for the assembly proof -/

lemma takeCaseless_fail (k : Char) (ks : Str) (c : Char) (cs : Str)
    (h : pyLowerChar c ≠ pyLowerChar k) :
    takeCaseless (k :: ks) (c :: cs) = none := by
  unfold takeCaseless
  rw [if_neg h]

lemma optCharThen_cons_mem (chars : List Char)
    (next : Str → Option (Str × Str)) (c0 : Char) (cs m r : Str)
    (hm : chars.contains c0 = true) (hn : next cs = some (m, r)) :
    optCharThen chars next (c0 :: cs) = some (c0 :: m, r) := by
  unfold optCharThen
  dsimp only
  rw [if_pos hm, hn]

lemma sep_false_of_nameChar (c : Char) (h : isNameChar c = true) :
    isSepSp c = false := by
  rcases nameChar_true_cases c h with h' | rfl
  · exact sep_false_of_alphaC c h'
  · decide

lemma pySpace_false_of_nameChar (c : Char) (h : isNameChar c = true) :
    isPySpace c = false := by
  rcases nameChar_true_cases c h with h' | rfl
  · exact pySpace_false_of_alphaC c h'
  · decide

lemma notMem_of_all {p : Char → Bool} {s : Str} {x : Char}
    (h : ∀ c ∈ s, p c = true) (hx : p x = false) : x ∉ s := by
  intro hm
  rw [h x hm] at hx
  cases hx

lemma not_mem_append_ch {x : Char} {a b : Str}
    (ha : x ∉ a) (hb : x ∉ b) : x ∉ a ++ b := by
  intro hm
  rcases List.mem_append.mp hm with h | h
  · exact ha h
  · exact hb h

lemma not_mem_cons_ch {x c : Char} {s : Str}
    (hc : x ≠ c) (hs : x ∉ s) : x ∉ c :: s := by
  intro hm
  rcases List.mem_cons.mp hm with rfl | h
  · exact hc rfl
  · exact hs h

lemma dropWhile_eq_self_of_all (p : Char → Bool) (l : Str)
    (h : ∀ c ∈ l, p c = false) : l.dropWhile p = l := by
  cases l with
  | nil => rfl
  | cons c t =>
    rw [List.dropWhile_cons, h c (List.mem_cons_self c t)]
    rfl

lemma pyStripWs_eq_self_of_all (m : Str)
    (h : ∀ c ∈ m, isPySpace c = false) : pyStripWs m = m := by
  unfold pyStripWs
  rw [dropWhile_eq_self_of_all _ _ h,
    dropWhile_eq_self_of_all _ _
      (fun c hc => h c (List.mem_reverse.mp hc)),
    List.reverse_reverse]

lemma pyStripWs_isEmpty_false (m : Str) (hne : m ≠ [])
    (h : ∀ c ∈ m, isPySpace c = false) : (pyStripWs m).isEmpty = false := by
  rw [pyStripWs_eq_self_of_all m h]
  cases m with
  | nil => exact absurd rfl hne
  | cons c t => rfl

lemma mem_of_mem_pyStripWs {c : Char} {s : Str}
    (h : c ∈ pyStripWs s) : c ∈ s := by
  unfold pyStripWs at h
  rw [List.mem_reverse] at h
  have h2 := mem_of_mem_dropWhile h
  rw [List.mem_reverse] at h2
  exact mem_of_mem_dropWhile h2

lemma not_mem_join (sep c : Char) (ls : List Str) (hc : c ≠ sep)
    (h : ∀ l ∈ ls, c ∉ l) : c ∉ joinWithChar sep ls := by
  induction ls with
  | nil => exact List.not_mem_nil c
  | cons x rest ih =>
    cases rest with
    | nil =>
      show c ∉ x
      exact h x (List.mem_cons_self x [])
    | cons y ys =>
      show c ∉ x ++ sep :: joinWithChar sep (y :: ys)
      refine not_mem_append_ch (h x (List.mem_cons_self _ _)) ?_
      refine not_mem_cons_ch hc ?_
      exact ih (fun l hl => h l (List.mem_cons_of_mem x hl))

lemma joinWithChar_cons (sep : Char) (x : Str) (rest : List Str)
    (h : rest ≠ []) :
    joinWithChar sep (x :: rest) = x ++ sep :: joinWithChar sep rest := by
  cases rest with
  | nil => exact absurd rfl h
  | cons y ys => rfl

lemma splitOnChar_append (sep : Char) (x r : Str) (hx : sep ∉ x) :
    splitOnChar sep (x ++ sep :: r) = x :: splitOnChar sep r := by
  unfold splitOnChar
  rw [splitAux_append sep x r hx]
  rfl

lemma split_join_front (sep : Char) (ls : List Str) (z : Str)
    (h : ∀ l ∈ ls, sep ∉ l) :
    splitOnChar sep (joinWithChar sep (ls ++ [z])) =
      ls ++ splitOnChar sep z := by
  induction ls with
  | nil => rfl
  | cons x xs ih =>
    rw [List.cons_append,
      joinWithChar_cons sep x (xs ++ [z]) (by simp),
      splitOnChar_append sep x _ (h x (List.mem_cons_self _ _)),
      ih (fun l hl => h l (List.mem_cons_of_mem x hl))]
    rfl

lemma replaceNlCr_eq_self (l : Str) (h : '\n' ∉ l) :
    replaceNlCr l = l := by
  unfold replaceNlCr
  induction l with
  | nil => rfl
  | cons c t ih =>
    rw [List.map_cons,
      if_neg (fun he : c = '\n' => h (he ▸ List.mem_cons_self c t)),
      ih (fun hm => h (List.mem_cons_of_mem c hm))]

lemma replaceNlCr_join (ls : List Str) (h : ∀ l ∈ ls, '\n' ∉ l) :
    replaceNlCr (joinWithChar '\n' ls) = joinWithChar '\x0d' ls := by
  induction ls with
  | nil => rfl
  | cons x rest ih =>
    cases rest with
    | nil =>
      show replaceNlCr x = x
      exact replaceNlCr_eq_self x (h x (List.mem_cons_self x []))
    | cons y ys =>
      show replaceNlCr (x ++ '\n' :: joinWithChar '\n' (y :: ys)) = _
      unfold replaceNlCr
      rw [List.map_append, List.map_cons]
      have hx : x.map (fun c => if c = '\n' then '\x0d' else c) = x :=
        replaceNlCr_eq_self x (h x (List.mem_cons_self _ _))
      have hrest := ih (fun l hl => h l (List.mem_cons_of_mem x hl))
      unfold replaceNlCr at hrest
      rw [hx, if_pos rfl, hrest]
      rfl

lemma alphaC_pyUpperChar (c : Char) (h : isAlphaC c = true) :
    isAlphaC (pyUpperChar c) = true := by
  rw [alphaC_iff] at h ⊢
  rw [toNat_pyUpperChar]
  rcases h with h | h
  · rw [if_neg (by omega)]
    exact Or.inl h
  · rw [if_pos (by omega)]
    left
    omega

lemma digitC_pyUpperChar (c : Char) (h : isDigitC c = true) :
    isDigitC (pyUpperChar c) = true := by
  rw [digitC_iff] at h ⊢
  rw [toNat_pyUpperChar, if_neg (by omega)]
  exact h

/-- A character the normalized trigger (after space-to-dash and upper)
can contain. -/
def trigNorm (c : Char) : Prop :=
  isAlphaC c = true ∨ isDigitC c = true ∨ c = '-'

lemma trigMap_char (c : Char) (h : trigChar c) :
    trigNorm (pyUpperChar (if c = ' ' then '-' else c)) := by
  rcases h with h | h | rfl | rfl
  · rw [if_neg (char_ne_of_toNat ' ' rfl
      (show c.toNat ≠ 32 by rcases (alphaC_iff c).mp h with h' | h' <;> omega))]
    exact Or.inl (alphaC_pyUpperChar c h)
  · rw [if_neg (char_ne_of_toNat ' ' rfl
      (show c.toNat ≠ 32 by have := (digitC_iff c).mp h; omega))]
    exact Or.inr (Or.inl (digitC_pyUpperChar c h))
  · rw [if_neg (by decide)]
    exact Or.inr (Or.inr (by decide))
  · rw [if_pos rfl]
    exact Or.inr (Or.inr (by decide))

lemma safe_of_trigNorm (c : Char) (h : trigNorm c) : safeFieldChar c := by
  rcases h with h | h | rfl
  · exact safe_of_alphaC c h
  · exact safe_of_digitC c h
  · exact ⟨by decide, by decide, by decide, by decide⟩

lemma safe_caret_of_trigNorm (c : Char) (h : trigNorm c) :
    safeFieldChar (if c = '-' then '^' else c) := by
  by_cases hc : c = '-'
  · rw [if_pos hc]
    exact ⟨by decide, by decide, by decide, by decide⟩
  · rw [if_neg hc]
    rcases h with h | h | rfl
    · exact safe_of_alphaC c h
    · exact safe_of_digitC c h
    · exact absurd rfl hc

lemma digit_ne_dash (c : Char) (h : isDigitC c = true) : c ≠ '-' :=
  char_ne_of_toNat '-' rfl
    (show c.toNat ≠ 45 by have := (digitC_iff c).mp h; omega)

lemma digit_ne_slash (c : Char) (h : isDigitC c = true) : c ≠ '/' :=
  char_ne_of_toNat '/' rfl
    (show c.toNat ≠ 47 by have := (digitC_iff c).mp h; omega)

/-! #### The matchers succeed at the command's own key-value lines -/

lemma matchPatientId_at (mrn rest : Str) (hne : mrn ≠ [])
    (hid : ∀ c ∈ mrn, isIdChar c = true) :
    matchPatientId ("Patient ID: ".data ++ (mrn ++ '\n' :: rest)) =
      some mrn := by
  cases mrn with
  | nil => exact absurd rfl hne
  | cons m0 mt =>
    have hm0 := hid m0 (List.mem_cons_self m0 mt)
    unfold matchPatientId
    rw [show ("Patient ID: ".data ++ ((m0 :: mt) ++ '\n' :: rest)) =
      "Patient ID".data ++ (':' :: ' ' :: (m0 :: (mt ++ '\n' :: rest)))
      from rfl,
      takeCaseless_append "patient id".data "Patient ID".data
        (':' :: ' ' :: (m0 :: (mt ++ '\n' :: rest))) (by decide)]
    dsimp only
    rw [show (':' :: ' ' :: (m0 :: (mt ++ '\n' :: rest))) =
      [':', ' '] ++ m0 :: (mt ++ '\n' :: rest) from rfl,
      dropWhile_append_stop isSepSp [':', ' '] m0 (mt ++ '\n' :: rest)
        (by decide) (sep_false_of_idChar m0 hm0)]
    rw [show (m0 :: (mt ++ '\n' :: rest)) = (m0 :: mt) ++ '\n' :: rest
        from rfl,
      takeWhile_append_stop isIdChar (m0 :: mt) '\n' rest hid (by decide)]
    rw [if_neg (by simp)]

lemma matchName_at (ln fn rest : Str) (hlnne : ln ≠ []) (hfnne : fn ≠ [])
    (hln : ∀ c ∈ ln, isNameChar c = true)
    (hfn : ∀ c ∈ fn, isNameChar c = true) :
    matchName
      ("Patient Name: ".data ++ (ln ++ ' ' :: (fn ++ '\n' :: rest))) =
      some (ln, fn) := by
  cases ln with
  | nil => exact absurd rfl hlnne
  | cons l0 lt =>
  cases fn with
  | nil => exact absurd rfl hfnne
  | cons f0 ft =>
    have hl0 := hln l0 (List.mem_cons_self l0 lt)
    have hf0 := hfn f0 (List.mem_cons_self f0 ft)
    unfold matchName
    rw [show ("Patient Name: ".data ++
        ((l0 :: lt) ++ ' ' :: ((f0 :: ft) ++ '\n' :: rest))) =
      "Patient Name".data ++ (':' :: ' ' ::
        (l0 :: (lt ++ ' ' :: ((f0 :: ft) ++ '\n' :: rest)))) from rfl,
      takeCaseless_append "patient name".data "Patient Name".data
        (':' :: ' ' :: (l0 :: (lt ++ ' ' :: ((f0 :: ft) ++ '\n' :: rest))))
        (by decide)]
    dsimp only
    rw [show (':' :: ' ' ::
        (l0 :: (lt ++ ' ' :: ((f0 :: ft) ++ '\n' :: rest)))) =
      [':', ' '] ++ l0 :: (lt ++ ' ' :: ((f0 :: ft) ++ '\n' :: rest))
        from rfl,
      dropWhile_append_stop isSepSp [':', ' '] l0 _ (by decide)
        (sep_false_of_nameChar l0 hl0)]
    rw [show (l0 :: (lt ++ ' ' :: ((f0 :: ft) ++ '\n' :: rest))) =
      (l0 :: lt) ++ ' ' :: ((f0 :: ft) ++ '\n' :: rest) from rfl,
      takeWhile_append_stop isNameChar (l0 :: lt) ' ' _ hln (by decide),
      dropWhile_append_stop isNameChar (l0 :: lt) ' ' _ hln (by decide)]
    rw [show (' ' :: ((f0 :: ft) ++ '\n' :: rest)) =
      [' '] ++ f0 :: (ft ++ '\n' :: rest) from rfl,
      takeWhile_append_stop isPySpace [' '] f0 _ (by decide)
        (pySpace_false_of_nameChar f0 hf0),
      dropWhile_append_stop isPySpace [' '] f0 _ (by decide)
        (pySpace_false_of_nameChar f0 hf0)]
    rw [show (f0 :: (ft ++ '\n' :: rest)) = (f0 :: ft) ++ '\n' :: rest
        from rfl,
      takeWhile_append_stop isNameChar (f0 :: ft) '\n' rest hfn
        (by decide)]
    rw [if_neg (by simp), if_neg (by simp), if_neg (by simp)]

lemma matchDob_at (y1 y2 y3 y4 m1 m2 d1 d2 : Char) (rest : Str)
    (hd : ∀ c ∈ [y1, y2, y3, y4, m1, m2, d1, d2], isDigitC c = true) :
    matchDob "date of birth".data
      ("Date of Birth: ".data ++
        ([y1, y2, y3, y4, '-', m1, m2, '-', d1, d2] ++ '\n' :: rest)) =
      some [y1, y2, y3, y4, '-', m1, m2, '-', d1, d2] := by
  have h4 : matchNDigits 4
      (y1 :: y2 :: y3 :: y4 :: '-' :: m1 :: m2 :: '-' :: d1 :: d2 ::
        '\n' :: rest) =
      some ([y1, y2, y3, y4],
        '-' :: m1 :: m2 :: '-' :: d1 :: d2 :: '\n' :: rest) :=
    matchNDigits_append 4 [y1, y2, y3, y4] _ rfl
      (fun c hc => hd c (by simp only [List.mem_cons] at hc ⊢; tauto))
  have hm2 : matchNDigits 2 (m1 :: m2 :: '-' :: d1 :: d2 :: '\n' :: rest) =
      some ([m1, m2], '-' :: d1 :: d2 :: '\n' :: rest) :=
    matchNDigits_append 2 [m1, m2] _ rfl
      (fun c hc => hd c (by simp only [List.mem_cons] at hc ⊢; tauto))
  have hd2 : matchNDigits 2 (d1 :: d2 :: '\n' :: rest) =
      some ([d1, d2], '\n' :: rest) :=
    matchNDigits_append 2 [d1, d2] _ rfl
      (fun c hc => hd c (by simp only [List.mem_cons] at hc ⊢; tauto))
  have hopt2 : optCharThen ['-', '/'] (matchNDigits 2)
      ('-' :: d1 :: d2 :: '\n' :: rest) =
      some (['-', d1, d2], '\n' :: rest) :=
    optCharThen_cons_mem ['-', '/'] (matchNDigits 2) '-' _ _ _
      (by decide) hd2
  have hopt1 : optCharThen ['-', '/'] (matchNDigits 2)
      ('-' :: m1 :: m2 :: '-' :: d1 :: d2 :: '\n' :: rest) =
      some (['-', m1, m2], '-' :: d1 :: d2 :: '\n' :: rest) :=
    optCharThen_cons_mem ['-', '/'] (matchNDigits 2) '-' _ _ _
      (by decide) hm2
  have hdg : dobGroup
      (y1 :: y2 :: y3 :: y4 :: '-' :: m1 :: m2 :: '-' :: d1 :: d2 ::
        '\n' :: rest) =
      some ([y1, y2, y3, y4, '-', m1, m2, '-', d1, d2], '\n' :: rest) := by
    unfold dobGroup
    rw [h4]
    dsimp only
    rw [hopt1]
    dsimp only
    rw [hopt2]
    rfl
  unfold matchDob
  rw [show ("Date of Birth: ".data ++
      ([y1, y2, y3, y4, '-', m1, m2, '-', d1, d2] ++ '\n' :: rest)) =
    "Date of Birth".data ++ (':' :: ' ' ::
      (y1 :: y2 :: y3 :: y4 :: '-' :: m1 :: m2 :: '-' :: d1 :: d2 ::
        '\n' :: rest)) from rfl,
    takeCaseless_append "date of birth".data "Date of Birth".data
      (':' :: ' ' :: (y1 :: y2 :: y3 :: y4 :: '-' :: m1 :: m2 :: '-' ::
        d1 :: d2 :: '\n' :: rest)) (by decide)]
  dsimp only
  rw [show (':' :: ' ' :: (y1 :: y2 :: y3 :: y4 :: '-' :: m1 :: m2 ::
      '-' :: d1 :: d2 :: '\n' :: rest)) =
    [':', ' '] ++ y1 :: (y2 :: y3 :: y4 :: '-' :: m1 :: m2 :: '-' ::
      d1 :: d2 :: '\n' :: rest) from rfl,
    dropWhile_append_stop isSepSp [':', ' '] y1 _ (by decide)
      (sep_false_of_digitC y1 (hd y1 (by simp)))]
  rw [hdg]

lemma matchGender_at_male (rest : Str) :
    matchGender ("Gender: ".data ++ ("Male".data ++ '\n' :: rest)) =
      some ['M'] := by
  unfold matchGender
  rw [show ("Gender: ".data ++ ("Male".data ++ '\n' :: rest)) =
    "Gender".data ++
      (':' :: ' ' :: ('M' :: 'a' :: 'l' :: 'e' :: '\n' :: rest)) from rfl,
    takeCaseless_append "gender".data "Gender".data
      (':' :: ' ' :: ('M' :: 'a' :: 'l' :: 'e' :: '\n' :: rest))
      (by decide)]
  dsimp only
  rw [show (':' :: ' ' :: ('M' :: 'a' :: 'l' :: 'e' :: '\n' :: rest)) =
    [':', ' '] ++ 'M' :: ('a' :: 'l' :: 'e' :: '\n' :: rest) from rfl,
    dropWhile_append_stop isSepSp [':', ' '] 'M' _ (by decide) (by decide)]
  rw [show ('M' :: ('a' :: 'l' :: 'e' :: '\n' :: rest)) =
    ['M'] ++ ('a' :: 'l' :: 'e' :: '\n' :: rest) from rfl,
    takeCaseless_append "m".data ['M'] ('a' :: 'l' :: 'e' :: '\n' :: rest)
      (by decide)]

lemma matchGender_at_female (rest : Str) :
    matchGender ("Gender: ".data ++ ("Female".data ++ '\n' :: rest)) =
      some ['F'] := by
  unfold matchGender
  rw [show ("Gender: ".data ++ ("Female".data ++ '\n' :: rest)) =
    "Gender".data ++ (':' :: ' ' ::
      ('F' :: 'e' :: 'm' :: 'a' :: 'l' :: 'e' :: '\n' :: rest)) from rfl,
    takeCaseless_append "gender".data "Gender".data
      (':' :: ' ' :: ('F' :: 'e' :: 'm' :: 'a' :: 'l' :: 'e' :: '\n' ::
        rest)) (by decide)]
  dsimp only
  rw [show (':' :: ' ' ::
      ('F' :: 'e' :: 'm' :: 'a' :: 'l' :: 'e' :: '\n' :: rest)) =
    [':', ' '] ++ 'F' :: ('e' :: 'm' :: 'a' :: 'l' :: 'e' :: '\n' :: rest)
      from rfl,
    dropWhile_append_stop isSepSp [':', ' '] 'F' _ (by decide) (by decide)]
  rw [show takeCaseless "m".data
      ('F' :: 'e' :: 'm' :: 'a' :: 'l' :: 'e' :: '\n' :: rest) = none from
    takeCaseless_fail 'm' []
      'F' ('e' :: 'm' :: 'a' :: 'l' :: 'e' :: '\n' :: rest) (by decide)]
  dsimp only
  rw [show ('F' :: ('e' :: 'm' :: 'a' :: 'l' :: 'e' :: '\n' :: rest)) =
    ['F'] ++ ('e' :: 'm' :: 'a' :: 'l' :: 'e' :: '\n' :: rest) from rfl,
    takeCaseless_append "f".data ['F']
      ('e' :: 'm' :: 'a' :: 'l' :: 'e' :: '\n' :: rest) (by decide)]

lemma matchGender_at_unknown (rest : Str) :
    matchGender ("Gender: ".data ++ ("Unknown".data ++ '\n' :: rest)) =
      some ['U'] := by
  unfold matchGender
  rw [show ("Gender: ".data ++ ("Unknown".data ++ '\n' :: rest)) =
    "Gender".data ++ (':' :: ' ' ::
      ('U' :: 'n' :: 'k' :: 'n' :: 'o' :: 'w' :: 'n' :: '\n' :: rest))
      from rfl,
    takeCaseless_append "gender".data "Gender".data
      (':' :: ' ' :: ('U' :: 'n' :: 'k' :: 'n' :: 'o' :: 'w' :: 'n' ::
        '\n' :: rest)) (by decide)]
  dsimp only
  rw [show (':' :: ' ' ::
      ('U' :: 'n' :: 'k' :: 'n' :: 'o' :: 'w' :: 'n' :: '\n' :: rest)) =
    [':', ' '] ++ 'U' :: ('n' :: 'k' :: 'n' :: 'o' :: 'w' :: 'n' :: '\n' ::
      rest) from rfl,
    dropWhile_append_stop isSepSp [':', ' '] 'U' _ (by decide) (by decide)]
  rw [show takeCaseless "m".data
      ('U' :: 'n' :: 'k' :: 'n' :: 'o' :: 'w' :: 'n' :: '\n' :: rest) =
      none from
    takeCaseless_fail 'm' []
      'U' ('n' :: 'k' :: 'n' :: 'o' :: 'w' :: 'n' :: '\n' :: rest)
      (by decide)]
  dsimp only
  rw [show takeCaseless "f".data
      ('U' :: 'n' :: 'k' :: 'n' :: 'o' :: 'w' :: 'n' :: '\n' :: rest) =
      none from
    takeCaseless_fail 'f' []
      'U' ('n' :: 'k' :: 'n' :: 'o' :: 'w' :: 'n' :: '\n' :: rest)
      (by decide)]
  dsimp only
  rw [show takeCaseless "male".data
      ('U' :: 'n' :: 'k' :: 'n' :: 'o' :: 'w' :: 'n' :: '\n' :: rest) =
      none from
    takeCaseless_fail 'm' "ale".data
      'U' ('n' :: 'k' :: 'n' :: 'o' :: 'w' :: 'n' :: '\n' :: rest)
      (by decide)]
  dsimp only
  rw [show takeCaseless "female".data
      ('U' :: 'n' :: 'k' :: 'n' :: 'o' :: 'w' :: 'n' :: '\n' :: rest) =
      none from
    takeCaseless_fail 'f' "emale".data
      'U' ('n' :: 'k' :: 'n' :: 'o' :: 'w' :: 'n' :: '\n' :: rest)
      (by decide)]
  dsimp only
  rw [show ('U' :: ('n' :: 'k' :: 'n' :: 'o' :: 'w' :: 'n' :: '\n' ::
      rest)) =
    ['U'] ++ ('n' :: 'k' :: 'n' :: 'o' :: 'w' :: 'n' :: '\n' :: rest)
      from rfl,
    takeCaseless_append "u".data ['U']
      ('n' :: 'k' :: 'n' :: 'o' :: 'w' :: 'n' :: '\n' :: rest)
      (by decide)]

/-! #### Parsing and validating the assembled message -/

lemma pyStripWs_eq_self_of_ends (u : Str)
    (hhead : ∀ c t, u = c :: t → isPySpace c = false)
    (hlast : ∀ d, u.getLast? = some d → isPySpace d = false) :
    pyStripWs u = u := by
  unfold pyStripWs
  have h1 : u.dropWhile isPySpace = u := by
    cases hu : u with
    | nil => rfl
    | cons c t =>
      rw [List.dropWhile_cons, hhead c t hu]
      rfl
  rw [h1]
  have h2 : u.reverse.dropWhile isPySpace = u.reverse := by
    cases hrev : u.reverse with
    | nil => rfl
    | cons d w =>
      have hd : u.getLast? = some d := by
        rw [← List.head?_reverse, hrev]
        rfl
      rw [List.dropWhile_cons, hlast d hd]
      rfl
  rw [h2, List.reverse_reverse]

lemma pyhl7ParseSegment_MSH (enc r : Str) (henc : ∀ c ∈ enc, c ≠ '|') :
    pyhl7ParseSegment ('M' :: 'S' :: 'H' :: '|' :: (enc ++ '|' :: r)) =
      ["MSH".data, ['|'], enc] ++ splitOnChar '|' r := by
  have hall : ∀ a ∈ enc, (fun x => decide (x ≠ '|')) a = true :=
    fun a ha => decide_eq_true (henc a ha)
  have hc : (fun x => decide (x ≠ '|')) '|' = false := by decide
  unfold pyhl7ParseSegment
  split
  · rename_i sep0 rest heq
    simp only [List.cons.injEq, true_and] at heq
    obtain ⟨h4, h5⟩ := heq
    subst h4
    subst h5
    dsimp only
    rw [dropWhile_append_stop _ enc '|' r hall hc]
    dsimp only
    rw [takeWhile_append_stop _ enc '|' r hall hc]
  · rename_i hno
    exact absurd rfl (hno '|' (enc ++ '|' :: r))

lemma pyhl7ParseSegment_other (c : Char) (t : Str) (h : c ≠ 'M') :
    pyhl7ParseSegment (c :: t) = splitOnChar '|' (c :: t) := by
  unfold pyhl7ParseSegment
  split
  · rename_i heq
    rw [List.cons.injEq] at heq
    exact absurd heq.1 h
  · rfl

lemma segMissingPairs_none (seg : List Str)
    (h : lookupCritical (seg.headD []) = none) : segMissingPairs seg = [] := by
  unfold segMissingPairs
  rw [h]

lemma filterMap_missing_nil (seg : List Str) (idxs : List Nat)
    (hall : ∀ i ∈ idxs, fieldMissingAt seg i = false) :
    idxs.filterMap (fun i => if fieldMissingAt seg i then
      some (seg.headD [], i) else none) = [] := by
  induction idxs with
  | nil => rfl
  | cons i is ih =>
    rw [List.filterMap_cons, hall i (List.mem_cons_self i is)]
    rw [if_neg (by simp)]
    exact ih (fun j hj => hall j (List.mem_cons_of_mem i hj))

lemma segMissingPairs_eq_nil (seg : List Str) (idxs : List Nat)
    (h : lookupCritical (seg.headD []) = some idxs)
    (hall : ∀ i ∈ idxs, fieldMissingAt seg i = false) :
    segMissingPairs seg = [] := by
  unfold segMissingPairs
  rw [h]
  exact filterMap_missing_nil seg idxs hall

lemma validateSegments_passed (segs : List (List Str))
    (h : missingPairs segs = []) :
    validateSegments segs = ⟨true, [], "Validation passed".data⟩ := by
  unfold validateSegments
  rw [h]
  rfl

lemma fieldMissingAt_of_get (seg : List Str) (i : Nat) (f : Str)
    (hget : seg.get? i = some f) (hne : f ≠ [])
    (hws : ∀ c ∈ f, isPySpace c = false) :
    fieldMissingAt seg i = false := by
  unfold fieldMissingAt
  rw [hget]
  exact pyStripWs_isEmpty_false f hne hws

lemma evnSeg_ok (piece now : Str) :
    segMissingPairs
      (pyhl7ParseSegment (("EVN|".data ++ piece) ++ '|' :: now)) = [] := by
  rw [show (("EVN|".data ++ piece) ++ '|' :: now) =
    'E' :: ('V' :: 'N' :: '|' :: (piece ++ '|' :: now)) from rfl,
    pyhl7ParseSegment_other 'E' _ (by decide)]
  refine segMissingPairs_none _ ?_
  rw [show ('E' :: ('V' :: 'N' :: '|' :: (piece ++ '|' :: now))) =
    "EVN".data ++ '|' :: (piece ++ '|' :: now) from rfl,
    splitOnChar_append '|' "EVN".data _ (by decide)]
  rfl

lemma zpiSeg_ok (uuid : Str) :
    segMissingPairs (pyhl7ParseSegment ("ZPI|".data ++ uuid)) = [] := by
  rw [show ("ZPI|".data ++ uuid) = 'Z' :: ('P' :: 'I' :: '|' :: uuid)
    from rfl,
    pyhl7ParseSegment_other 'Z' _ (by decide)]
  refine segMissingPairs_none _ ?_
  rw [show ('Z' :: ('P' :: 'I' :: '|' :: uuid)) =
    "ZPI".data ++ '|' :: uuid from rfl,
    splitOnChar_append '|' "ZPI".data _ (by decide)]
  rfl

lemma pv1Seg_ok (cls : Str) :
    segMissingPairs (pyhl7ParseSegment ("PV1|1|".data ++ cls)) = [] := by
  rw [show ("PV1|1|".data ++ cls) =
    'P' :: ('V' :: '1' :: '|' :: ("1".data ++ '|' :: cls)) from rfl,
    pyhl7ParseSegment_other 'P' _ (by decide)]
  refine segMissingPairs_none _ ?_
  rw [show ('P' :: ('V' :: '1' :: '|' :: ("1".data ++ '|' :: cls))) =
    "PV1".data ++ '|' :: ("1".data ++ '|' :: cls) from rfl,
    splitOnChar_append '|' "PV1".data _ (by decide)]
  rfl

lemma mshSeg_ok (now msh9 ctrlid : Str)
    (hnow : ∀ c ∈ now, isDigitC c = true)
    (h9ne : msh9 ≠ []) (h9safe : ∀ c ∈ msh9, safeFieldChar c)
    (hctrl : ∀ c ∈ ctrlid, isIdChar c = true) :
    segMissingPairs (pyhl7ParseSegment (joinWithChar '|'
      ["MSH".data, "^~\\&".data, "SMART_APP".data, "SMART_FAC".data,
       "REC_APP".data, "REC_FAC".data, now, [], msh9, ctrlid,
       "P".data, "2.5".data])) = [] := by
  rw [show (joinWithChar '|'
      ["MSH".data, "^~\\&".data, "SMART_APP".data, "SMART_FAC".data,
       "REC_APP".data, "REC_FAC".data, now, [], msh9, ctrlid,
       "P".data, "2.5".data]) =
    'M' :: 'S' :: 'H' :: '|' :: ("^~\\&".data ++ '|' :: joinWithChar '|'
      ["SMART_APP".data, "SMART_FAC".data, "REC_APP".data, "REC_FAC".data,
       now, [], msh9, ctrlid, "P".data, "2.5".data]) from rfl,
    pyhl7ParseSegment_MSH "^~\\&".data _ (by decide)]
  have hJ3 : splitOnChar '|' (joinWithChar '|'
      ["SMART_APP".data, "SMART_FAC".data, "REC_APP".data, "REC_FAC".data,
       now, [], msh9, ctrlid, "P".data, "2.5".data]) =
      ["SMART_APP".data, "SMART_FAC".data, "REC_APP".data, "REC_FAC".data,
       now, [], msh9, ctrlid, "P".data, "2.5".data] := by
    refine split_join '|' _ (by simp) ?_
    intro l hl
    simp only [List.mem_cons, List.not_mem_nil, or_false] at hl
    rcases hl with rfl | rfl | rfl | rfl | rfl | rfl | rfl | rfl | rfl | rfl
    · decide
    · decide
    · decide
    · decide
    · exact notMem_of_all hnow (by decide)
    · exact List.not_mem_nil _
    · intro hm
      exact (h9safe _ hm).1 rfl
    · exact notMem_of_all hctrl (by decide)
    · decide
    · decide
  rw [hJ3]
  refine segMissingPairs_eq_nil _ [9] rfl ?_
  intro i hi
  rcases List.mem_cons.mp hi with rfl | h0
  · refine fieldMissingAt_of_get _ 9 msh9 rfl h9ne ?_
    intro c hc
    exact (h9safe c hc).2.2.2
  · cases h0

lemma pidSeg_ok (pid3 pid5 pid7 pid8 pid11 : Str)
    (h3 : pid3 ≠ []) (h3c : ∀ c ∈ pid3, safeFieldChar c)
    (h5 : pid5 ≠ []) (h5c : ∀ c ∈ pid5, safeFieldChar c)
    (h7 : pid7 ≠ []) (h7c : ∀ c ∈ pid7, safeFieldChar c)
    (h8 : pid8 ≠ []) (h8c : ∀ c ∈ pid8, safeFieldChar c) :
    segMissingPairs (pyhl7ParseSegment (joinWithChar '|'
      ["PID".data, "1".data, [], pid3, [], pid5, [], pid7, pid8, [], [],
       pid11])) = [] := by
  rw [show (joinWithChar '|'
      ["PID".data, "1".data, [], pid3, [], pid5, [], pid7, pid8, [], [],
       pid11]) =
    'P' :: ('I' :: 'D' :: '|' :: ("1".data ++ '|' :: joinWithChar '|'
      [[], pid3, [], pid5, [], pid7, pid8, [], [], pid11])) from rfl,
    pyhl7ParseSegment_other 'P' _ (by decide)]
  rw [show ('P' :: ('I' :: 'D' :: '|' :: ("1".data ++ '|' :: joinWithChar
      '|' [[], pid3, [], pid5, [], pid7, pid8, [], [], pid11]))) =
    joinWithChar '|'
      (["PID".data, "1".data, [], pid3, [], pid5, [], pid7, pid8, [], []]
        ++ [pid11]) from rfl,
    split_join_front '|'
      ["PID".data, "1".data, [], pid3, [], pid5, [], pid7, pid8, [], []]
      pid11 ?_]
  · refine segMissingPairs_eq_nil _ [3, 5, 7, 8] rfl ?_
    intro i hi
    simp only [List.mem_cons, List.not_mem_nil, or_false] at hi
    rcases hi with rfl | rfl | rfl | rfl
    · exact fieldMissingAt_of_get _ 3 pid3 rfl h3
        (fun c hc => (h3c c hc).2.2.2)
    · exact fieldMissingAt_of_get _ 5 pid5 rfl h5
        (fun c hc => (h5c c hc).2.2.2)
    · exact fieldMissingAt_of_get _ 7 pid7 rfl h7
        (fun c hc => (h7c c hc).2.2.2)
    · exact fieldMissingAt_of_get _ 8 pid8 rfl h8
        (fun c hc => (h8c c hc).2.2.2)
  · intro l hl
    simp only [List.mem_cons, List.not_mem_nil, or_false] at hl
    rcases hl with rfl | rfl | rfl | rfl | rfl | rfl | rfl | rfl | rfl |
      rfl | rfl
    · decide
    · decide
    · exact List.not_mem_nil _
    · intro hm
      exact (h3c _ hm).1 rfl
    · exact List.not_mem_nil _
    · intro hm
      exact (h5c _ hm).1 rfl
    · exact List.not_mem_nil _
    · intro hm
      exact (h7c _ hm).1 rfl
    · intro hm
      exact (h8c _ hm).1 rfl
    · exact List.not_mem_nil _
    · exact List.not_mem_nil _

lemma getLast?_append_right (a b : Str) (h : b ≠ []) :
    (a ++ b).getLast? = b.getLast? := by
  rw [← List.head?_reverse, ← List.head?_reverse, List.reverse_append]
  rcases hb : b.reverse with _ | ⟨y, ys⟩
  · exact absurd (by simpa using hb) h
  · rfl

lemma getLast?_join_cons (sep : Char) (x : Str) (rest : List Str)
    (h : rest ≠ []) (hj : joinWithChar sep rest ≠ []) :
    (joinWithChar sep (x :: rest)).getLast? =
      (joinWithChar sep rest).getLast? := by
  rw [joinWithChar_cons sep x rest h,
    getLast?_append_right x _ (by simp)]
  exact getLast?_append_right [sep] _ hj

lemma validate_api_of_lines (l1 l2 l3 l4 l5 : Str)
    (hnl : ∀ l ∈ [l1, l2, l3, l4, l5], '\n' ∉ l)
    (hcr : ∀ l ∈ [l1, l2, l3, l4, l5], '\x0d' ∉ l)
    (c0 : Char) (hh : l1.head? = some c0) (hc0 : isPySpace c0 = false)
    (d0 : Char) (hl : l5.getLast? = some d0) (hd0 : isPySpace d0 = false)
    (l5ne : l5 ≠ [])
    (hsegs : ∀ l ∈ [l1, l2, l3, l4, l5],
      segMissingPairs (pyhl7ParseSegment l) = []) :
    validate_required_fields_api pyhl7Parse
      (joinWithChar '\n' [l1, l2, l3, l4, l5]) =
      ⟨true, [], "Validation passed".data⟩ := by
  have hrepl := replaceNlCr_join [l1, l2, l3, l4, l5] hnl
  have hjhead : (joinWithChar '\x0d' [l1, l2, l3, l4, l5]).head? =
      some c0 := by
    rw [joinWithChar_cons _ _ _ (by simp)]
    cases hl1 : l1 with
    | nil => rw [hl1] at hh; cases hh
    | cons a b =>
      rw [hl1] at hh
      rw [List.head?_cons] at hh
      rw [List.cons_append, List.head?_cons]
      exact hh
  have hstrip : pyStripWs (joinWithChar '\x0d' [l1, l2, l3, l4, l5]) =
      joinWithChar '\x0d' [l1, l2, l3, l4, l5] := by
    refine pyStripWs_eq_self_of_ends _ ?_ ?_
    · intro c t hct
      have hj := hjhead
      rw [hct, List.head?_cons] at hj
      cases Option.some.inj hj
      exact hc0
    · intro d hd
      have j2 : joinWithChar '\x0d' [l2, l3, l4, l5] ≠ [] := by
        rw [joinWithChar_cons _ _ _ (by simp)]
        simp
      have j3 : joinWithChar '\x0d' [l3, l4, l5] ≠ [] := by
        rw [joinWithChar_cons _ _ _ (by simp)]
        simp
      have j4 : joinWithChar '\x0d' [l4, l5] ≠ [] := by
        rw [joinWithChar_cons _ _ _ (by simp)]
        simp
      have j5 : joinWithChar '\x0d' [l5] ≠ [] := by
        show l5 ≠ []
        exact l5ne
      have hj : (joinWithChar '\x0d' [l1, l2, l3, l4, l5]).getLast? =
          some d0 := by
        rw [getLast?_join_cons '\x0d' l1 [l2, l3, l4, l5] (by simp) j2,
          getLast?_join_cons '\x0d' l2 [l3, l4, l5] (by simp) j3,
          getLast?_join_cons '\x0d' l3 [l4, l5] (by simp) j4,
          getLast?_join_cons '\x0d' l4 [l5] (by simp) j5]
        show l5.getLast? = some d0
        exact hl
      rw [hd] at hj
      cases Option.some.inj hj
      exact hd0
  have hsplit5 : splitOnChar '\x0d'
      (joinWithChar '\x0d' [l1, l2, l3, l4, l5]) =
      [l1, l2, l3, l4, l5] :=
    split_join '\x0d' _ (by simp) hcr
  have hje : (joinWithChar '\x0d' [l1, l2, l3, l4, l5]).isEmpty = false := by
    rw [joinWithChar_cons _ _ _ (by simp)]
    cases hl1 : l1 with
    | nil => rw [hl1] at hh; cases hh
    | cons a b => rfl
  have hparse : pyhl7Parse (joinWithChar '\x0d' [l1, l2, l3, l4, l5]) =
      .ok ([l1, l2, l3, l4, l5].map pyhl7ParseSegment) := by
    unfold pyhl7Parse
    dsimp only
    rw [hstrip, hje]
    rw [if_neg (by simp)]
    rw [hsplit5]
  unfold validate_required_fields_api
  rw [hrepl, hparse]
  dsimp only
  refine validateSegments_passed _ ?_
  unfold missingPairs
  simp only [List.map_cons, List.map_nil, List.flatMap_cons,
    List.flatMap_nil, hsegs l1 (by simp), hsegs l2 (by simp),
    hsegs l3 (by simp), hsegs l4 (by simp), hsegs l5 (by simp),
    List.append_nil]

lemma assembled_valid
    (now ctrlid trigger pid3 pid5 pid7 pid8 pid11 uuid : Str) (c0 : Char)
    (hT : trigger ≠ []) (hTc : ∀ c ∈ trigger, trigNorm c)
    (hnow : ∀ c ∈ now, isDigitC c = true)
    (hctrl : ∀ c ∈ ctrlid, isIdChar c = true)
    (h3 : pid3 ≠ []) (h3c : ∀ c ∈ pid3, safeFieldChar c)
    (h5 : pid5 ≠ []) (h5c : ∀ c ∈ pid5, safeFieldChar c)
    (h7 : pid7 ≠ []) (h7c : ∀ c ∈ pid7, safeFieldChar c)
    (h8 : pid8 ≠ []) (h8c : ∀ c ∈ pid8, safeFieldChar c)
    (h11n : '\n' ∉ pid11) (h11r : '\x0d' ∉ pid11)
    (huuid : ∀ c ∈ uuid, isIdChar c = true)
    (hc0a : isAlphaC c0 = true) :
    validate_required_fields_api pyhl7Parse
      (add_zpi_segment_with_uuid
        (joinWithChar '\n'
          [joinWithChar '|' ["MSH".data, "^~\\&".data, "SMART_APP".data,
             "SMART_FAC".data, "REC_APP".data, "REC_FAC".data, now, [],
             trigger.map (fun c => if c = '-' then '^' else c), ctrlid,
             "P".data, "2.5".data],
           ("EVN|".data ++ (splitOnChar '-' trigger).getLastD []) ++
             '|' :: now,
           joinWithChar '|' ["PID".data, "1".data, [], pid3, [], pid5, [],
             pid7, pid8, [], [], pid11],
           "PV1|1|".data ++ [c0]]) uuid) =
      ⟨true, [], "Validation passed".data⟩ := by
  have hm9safe : ∀ c ∈ trigger.map (fun c => if c = '-' then '^' else c),
      safeFieldChar c := by
    intro c hc
    rcases List.mem_map.mp hc with ⟨a, ha, rfl⟩
    exact safe_caret_of_trigNorm a (hTc a ha)
  have hm9ne : trigger.map (fun c => if c = '-' then '^' else c) ≠ [] :=
    fun h => hT (List.map_eq_nil_iff.mp h)
  have hevnp : ∀ c ∈ (splitOnChar '-' trigger).getLastD [],
      safeFieldChar c := by
    intro c hc
    have hmem := getLastD_mem (splitOnChar '-' trigger) []
      (splitOnChar_ne_nil '-' trigger)
    exact safe_of_trigNorm c
      (hTc c (splitOnChar_chars '-' trigger _ hmem c hc))
  have hc0safe : safeFieldChar c0 := safe_of_alphaC c0 hc0a
  have hmsh_mem : ∀ x : Char, x ≠ '|' → isDigitC x = false →
      isIdChar x = false →
      x ∉ "MSH".data → x ∉ "^~\\&".data → x ∉ "SMART_APP".data →
      x ∉ "SMART_FAC".data → x ∉ "REC_APP".data → x ∉ "REC_FAC".data →
      x ∉ "P".data → x ∉ "2.5".data →
      (∀ c ∈ trigger.map (fun c => if c = '-' then '^' else c), c ≠ x) →
      x ∉ joinWithChar '|' ["MSH".data, "^~\\&".data, "SMART_APP".data,
        "SMART_FAC".data, "REC_APP".data, "REC_FAC".data, now, [],
        trigger.map (fun c => if c = '-' then '^' else c), ctrlid,
        "P".data, "2.5".data] := by
    intro x hx hxd hxid hL1 hL2 hL3 hL4 hL5 hL6 hL7 hL8 h9x
    refine not_mem_join '|' x _ hx ?_
    intro l hl
    simp only [List.mem_cons, List.not_mem_nil, or_false] at hl
    rcases hl with rfl | rfl | rfl | rfl | rfl | rfl | rfl | rfl | rfl |
      rfl | rfl | rfl
    · exact hL1
    · exact hL2
    · exact hL3
    · exact hL4
    · exact hL5
    · exact hL6
    · exact notMem_of_all hnow hxd
    · exact List.not_mem_nil _
    · intro hm
      exact h9x x hm rfl
    · exact notMem_of_all hctrl hxid
    · exact hL7
    · exact hL8
  have hmsh_n : '\n' ∉ joinWithChar '|' ["MSH".data, "^~\\&".data,
      "SMART_APP".data, "SMART_FAC".data, "REC_APP".data, "REC_FAC".data,
      now, [], trigger.map (fun c => if c = '-' then '^' else c), ctrlid,
      "P".data, "2.5".data] := by
    refine hmsh_mem '\n' (by decide) (by decide) (by decide) (by decide)
      (by decide) (by decide) (by decide) (by decide) (by decide)
      (by decide) (by decide) ?_
    intro c hc
    exact (hm9safe c hc).2.2.1
  have hmsh_r : '\x0d' ∉ joinWithChar '|' ["MSH".data, "^~\\&".data,
      "SMART_APP".data, "SMART_FAC".data, "REC_APP".data, "REC_FAC".data,
      now, [], trigger.map (fun c => if c = '-' then '^' else c), ctrlid,
      "P".data, "2.5".data] := by
    refine hmsh_mem '\x0d' (by decide) (by decide) (by decide) (by decide)
      (by decide) (by decide) (by decide) (by decide) (by decide)
      (by decide) (by decide) ?_
    intro c hc
    exact (hm9safe c hc).2.1
  have hevn_n : '\n' ∉ ("EVN|".data ++
      (splitOnChar '-' trigger).getLastD []) ++ '|' :: now := by
    refine not_mem_append_ch (not_mem_append_ch (by decide) ?_)
      (not_mem_cons_ch (by decide) ?_)
    · intro hm
      exact (hevnp _ hm).2.2.1 rfl
    · exact notMem_of_all hnow (by decide)
  have hevn_r : '\x0d' ∉ ("EVN|".data ++
      (splitOnChar '-' trigger).getLastD []) ++ '|' :: now := by
    refine not_mem_append_ch (not_mem_append_ch (by decide) ?_)
      (not_mem_cons_ch (by decide) ?_)
    · intro hm
      exact (hevnp _ hm).2.1 rfl
    · exact notMem_of_all hnow (by decide)
  have hpid_mem : ∀ x : Char, x ≠ '|' →
      x ∉ "PID".data → x ∉ "1".data → x ∉ pid11 →
      (∀ c ∈ pid3, c ≠ x) → (∀ c ∈ pid5, c ≠ x) → (∀ c ∈ pid7, c ≠ x) →
      (∀ c ∈ pid8, c ≠ x) →
      x ∉ joinWithChar '|' ["PID".data, "1".data, [], pid3, [], pid5, [],
        pid7, pid8, [], [], pid11] := by
    intro x hx hL1 hL2 h11 hp3 hp5 hp7 hp8
    refine not_mem_join '|' x _ hx ?_
    intro l hl
    simp only [List.mem_cons, List.not_mem_nil, or_false] at hl
    rcases hl with rfl | rfl | rfl | rfl | rfl | rfl | rfl | rfl | rfl |
      rfl | rfl | rfl
    · exact hL1
    · exact hL2
    · exact List.not_mem_nil _
    · intro hm
      exact hp3 x hm rfl
    · exact List.not_mem_nil _
    · intro hm
      exact hp5 x hm rfl
    · exact List.not_mem_nil _
    · intro hm
      exact hp7 x hm rfl
    · intro hm
      exact hp8 x hm rfl
    · exact List.not_mem_nil _
    · exact List.not_mem_nil _
    · exact h11
  have hpid_n : '\n' ∉ joinWithChar '|' ["PID".data, "1".data, [], pid3,
      [], pid5, [], pid7, pid8, [], [], pid11] := by
    refine hpid_mem '\n' (by decide) (by decide) (by decide) h11n
      ?_ ?_ ?_ ?_ <;>
      exact fun c hc =>
        (by
          first
          | exact (h3c c hc).2.2.1
          | exact (h5c c hc).2.2.1
          | exact (h7c c hc).2.2.1
          | exact (h8c c hc).2.2.1)
  have hpid_r : '\x0d' ∉ joinWithChar '|' ["PID".data, "1".data, [], pid3,
      [], pid5, [], pid7, pid8, [], [], pid11] := by
    refine hpid_mem '\x0d' (by decide) (by decide) (by decide) h11r
      ?_ ?_ ?_ ?_ <;>
      exact fun c hc =>
        (by
          first
          | exact (h3c c hc).2.1
          | exact (h5c c hc).2.1
          | exact (h7c c hc).2.1
          | exact (h8c c hc).2.1)
  have hzpi_n : '\n' ∉ zpiLine uuid :=
    not_mem_append_ch (by decide) (notMem_of_all huuid (by decide))
  have hzpi_r : '\x0d' ∉ zpiLine uuid :=
    not_mem_append_ch (by decide) (notMem_of_all huuid (by decide))
  have hpv1_n : '\n' ∉ "PV1|1|".data ++ [c0] := by
    refine not_mem_append_ch (by decide) ?_
    intro hm
    rcases List.mem_cons.mp hm with heq | h0
    · exact hc0safe.2.2.1 heq.symm
    · cases h0
  have hpv1_r : '\x0d' ∉ "PV1|1|".data ++ [c0] := by
    refine not_mem_append_ch (by decide) ?_
    intro hm
    rcases List.mem_cons.mp hm with heq | h0
    · exact hc0safe.2.1 heq.symm
    · cases h0
  have hsplit4 : splitOnChar '\n' (joinWithChar '\n'
      [joinWithChar '|' ["MSH".data, "^~\\&".data, "SMART_APP".data,
         "SMART_FAC".data, "REC_APP".data, "REC_FAC".data, now, [],
         trigger.map (fun c => if c = '-' then '^' else c), ctrlid,
         "P".data, "2.5".data],
       ("EVN|".data ++ (splitOnChar '-' trigger).getLastD []) ++
         '|' :: now,
       joinWithChar '|' ["PID".data, "1".data, [], pid3, [], pid5, [],
         pid7, pid8, [], [], pid11],
       "PV1|1|".data ++ [c0]]) =
      [joinWithChar '|' ["MSH".data, "^~\\&".data, "SMART_APP".data,
         "SMART_FAC".data, "REC_APP".data, "REC_FAC".data, now, [],
         trigger.map (fun c => if c = '-' then '^' else c), ctrlid,
         "P".data, "2.5".data],
       ("EVN|".data ++ (splitOnChar '-' trigger).getLastD []) ++
         '|' :: now,
       joinWithChar '|' ["PID".data, "1".data, [], pid3, [], pid5, [],
         pid7, pid8, [], [], pid11],
       "PV1|1|".data ++ [c0]] := by
    refine split_join '\n' _ (by simp) ?_
    intro l hl
    simp only [List.mem_cons, List.not_mem_nil, or_false] at hl
    rcases hl with rfl | rfl | rfl | rfl
    · exact hmsh_n
    · exact hevn_n
    · exact hpid_n
    · exact hpv1_n
  have hpre1 : pidMarker.isPrefixOf (joinWithChar '|' ["MSH".data,
      "^~\\&".data, "SMART_APP".data, "SMART_FAC".data, "REC_APP".data,
      "REC_FAC".data, now, [],
      trigger.map (fun c => if c = '-' then '^' else c), ctrlid,
      "P".data, "2.5".data]) = false := rfl
  have hpre2 : pidMarker.isPrefixOf (("EVN|".data ++
      (splitOnChar '-' trigger).getLastD []) ++ '|' :: now) = false := rfl
  have hpre3 : pidMarker.isPrefixOf (joinWithChar '|' ["PID".data,
      "1".data, [], pid3, [], pid5, [], pid7, pid8, [], [], pid11]) =
      true := rfl
  have hpre4 : pidMarker.isPrefixOf ("PV1|1|".data ++ [c0]) = false := rfl
  have hzpiIns : zpiInsertLines uuid
      [joinWithChar '|' ["MSH".data, "^~\\&".data, "SMART_APP".data,
         "SMART_FAC".data, "REC_APP".data, "REC_FAC".data, now, [],
         trigger.map (fun c => if c = '-' then '^' else c), ctrlid,
         "P".data, "2.5".data],
       ("EVN|".data ++ (splitOnChar '-' trigger).getLastD []) ++
         '|' :: now,
       joinWithChar '|' ["PID".data, "1".data, [], pid3, [], pid5, [],
         pid7, pid8, [], [], pid11],
       "PV1|1|".data ++ [c0]] =
      [joinWithChar '|' ["MSH".data, "^~\\&".data, "SMART_APP".data,
         "SMART_FAC".data, "REC_APP".data, "REC_FAC".data, now, [],
         trigger.map (fun c => if c = '-' then '^' else c), ctrlid,
         "P".data, "2.5".data],
       ("EVN|".data ++ (splitOnChar '-' trigger).getLastD []) ++
         '|' :: now,
       joinWithChar '|' ["PID".data, "1".data, [], pid3, [], pid5, [],
         pid7, pid8, [], [], pid11],
       zpiLine uuid,
       "PV1|1|".data ++ [c0]] := by
    simp only [zpiInsertLines, hpre1, hpre2, hpre3, hpre4,
      Bool.false_eq_true, if_false, if_true]
  unfold add_zpi_segment_with_uuid
  rw [hsplit4, hzpiIns]
  refine validate_api_of_lines _ _ _ _ _ ?_ ?_ 'M' rfl (by decide) c0 ?_
    (pySpace_false_of_alphaC c0 hc0a) (by simp) ?_
  · intro l hl
    simp only [List.mem_cons, List.not_mem_nil, or_false] at hl
    rcases hl with rfl | rfl | rfl | rfl | rfl
    · exact hmsh_n
    · exact hevn_n
    · exact hpid_n
    · exact hzpi_n
    · exact hpv1_n
  · intro l hl
    simp only [List.mem_cons, List.not_mem_nil, or_false] at hl
    rcases hl with rfl | rfl | rfl | rfl | rfl
    · exact hmsh_r
    · exact hevn_r
    · exact hpid_r
    · exact hzpi_r
    · exact hpv1_r
  · rw [getLast?_append_right "PV1|1|".data [c0] (by simp)]
    rfl
  · intro l hl
    simp only [List.mem_cons, List.not_mem_nil, or_false] at hl
    rcases hl with rfl | rfl | rfl | rfl | rfl
    · exact mshSeg_ok now _ ctrlid hnow hm9ne hm9safe hctrl
    · exact evnSeg_ok _ now
    · exact pidSeg_ok pid3 pid5 pid7 pid8 pid11 h3 h3c h5 h5c h7 h7c h8 h8c
    · exact zpiSeg_ok uuid
    · exact pv1Seg_ok [c0]

lemma fallbackAssemble_valid
    (now ctrlid trigger pid3 pid5 pid7 pid8 pid11 uuid : Str)
    (hT : trigger ≠ []) (hTc : ∀ c ∈ trigger, trigNorm c)
    (hnow : ∀ c ∈ now, isDigitC c = true)
    (hctrl : ∀ c ∈ ctrlid, isIdChar c = true)
    (h3 : pid3 ≠ []) (h3c : ∀ c ∈ pid3, safeFieldChar c)
    (h5 : pid5 ≠ []) (h5c : ∀ c ∈ pid5, safeFieldChar c)
    (h7 : pid7 ≠ []) (h7c : ∀ c ∈ pid7, safeFieldChar c)
    (h8 : pid8 ≠ []) (h8c : ∀ c ∈ pid8, safeFieldChar c)
    (h11n : '\n' ∉ pid11) (h11r : '\x0d' ∉ pid11)
    (huuid : ∀ c ∈ uuid, isIdChar c = true) :
    validate_required_fields_api pyhl7Parse
      (add_zpi_segment_with_uuid
        (fallbackAssemble now ctrlid trigger pid3 pid5 pid7 pid8 pid11)
        uuid) = ⟨true, [], "Validation passed".data⟩ := by
  obtain ⟨c0, hc0eq, hc0a⟩ : ∃ c0 : Char,
      (if pyContains "A01".data trigger || pyContains "A02".data trigger ||
          pyContains "A03".data trigger then "I".data else "O".data) =
        [c0] ∧ isAlphaC c0 = true := by
    by_cases h : (pyContains "A01".data trigger ||
        pyContains "A02".data trigger ||
        pyContains "A03".data trigger) = true
    · exact ⟨'I', by rw [if_pos h], by decide⟩
    · exact ⟨'O', by rw [if_neg h], by decide⟩
  unfold fallbackAssemble
  dsimp only
  rw [hc0eq]
  exact assembled_valid now ctrlid trigger pid3 pid5 pid7 pid8 pid11 uuid
    c0 hT hTc hnow hctrl h3 h3c h5 h5c h7 h7c h8 h8c h11n h11r huuid hc0a

lemma suffix_cons_of (c : Char) {s t : Str} (h : s <:+ t) : s <:+ c :: t :=
  h.trans (List.suffix_cons c t)

lemma suffix_append_of (x : Str) {s t : Str} (h : s <:+ t) :
    s <:+ x ++ t :=
  h.trans (List.suffix_append x t)

lemma suffix_append_right {s t : Str} (h : s <:+ t) (r : Str) :
    s ++ r <:+ t ++ r := by
  obtain ⟨a, ha⟩ := h
  exact ⟨a, by rw [← List.append_assoc, ha]⟩

instance (c : Char) : Decidable (safeFieldChar c) := by
  unfold safeFieldChar
  infer_instance

instance (c : Char) : Decidable (trigNorm c) := by
  unfold trigNorm
  infer_instance

lemma fallback_output_valid (now ctrlid P uuid : Str)
    (hnow : ∀ c ∈ now, isDigitC c = true)
    (hctrl : ∀ c ∈ ctrlid, isIdChar c = true)
    (huuid : ∀ c ∈ uuid, isIdChar c = true)
    (hPnoCR : '\x0d' ∉ P)
    (hg3 : ∃ g, reSearch matchPatientId P = some g)
    (hg5 : ∃ g, reSearch matchName P = some g)
    (hg7 : ∃ g, reSearch (matchDob "date of birth".data) P = some g)
    (hg8 : ∃ g, reSearch matchGender P = some g) :
    validate_required_fields_api pyhl7Parse
      (add_zpi_segment_with_uuid (fallback_hl7_generator now ctrlid P)
        uuid) =
      ⟨true, [], "Validation passed".data⟩ := by
  obtain ⟨g3, h3s⟩ := hg3
  obtain ⟨g5, h5s⟩ := hg5
  obtain ⟨g7, h7s⟩ := hg7
  obtain ⟨g8, h8s⟩ := hg8
  have hg3shape : g3 ≠ [] ∧ ∀ c ∈ g3, isIdChar c = true := by
    obtain ⟨s', hsf, hm⟩ := reSearch_spec matchPatientId P g3 h3s
    exact matchPatientId_out s' g3 hm
  have hg5shape : (g5.1 ≠ [] ∧ ∀ c ∈ g5.1, isNameChar c = true) ∧
      (g5.2 ≠ [] ∧ ∀ c ∈ g5.2, isNameChar c = true) := by
    obtain ⟨s', hsf, hm⟩ := reSearch_spec matchName P g5 h5s
    exact matchName_out s' g5.1 g5.2 hm
  have hg7shape : (∃ c ∈ g7, isDigitC c = true) ∧
      ∀ c ∈ g7, isDigitC c = true ∨ c = '-' ∨ c = '/' := by
    obtain ⟨s', hsf, hm⟩ := reSearch_spec (matchDob "date of birth".data)
      P g7 h7s
    exact matchDob_out "date of birth".data s' g7 hm
  have h3ws : ∀ c ∈ g3, isPySpace c = false :=
    fun c hc => (safe_of_idChar c (hg3shape.2 c hc)).2.2.2
  have h3eq : pyStripWs g3 = g3 := pyStripWs_eq_self_of_all g3 h3ws
  have h3ne : pyStripWs g3 ≠ [] := by
    rw [h3eq]
    exact hg3shape.1
  have h3safe : ∀ c ∈ pyStripWs g3, safeFieldChar c := by
    rw [h3eq]
    exact fun c hc => safe_of_idChar c (hg3shape.2 c hc)
  have h5ne : g5.1 ++ '^' :: g5.2 ≠ [] := by simp
  have h5safe : ∀ c ∈ g5.1 ++ '^' :: g5.2, safeFieldChar c := by
    intro c hc
    rcases List.mem_append.mp hc with h | h
    · exact safe_of_nameChar c (hg5shape.1.2 c h)
    · rcases List.mem_cons.mp h with rfl | h2
      · exact ⟨by decide, by decide, by decide, by decide⟩
      · exact safe_of_nameChar c (hg5shape.2.2 c h2)
  obtain ⟨⟨cD, hcD, hcDdig⟩, hall7⟩ := hg7shape
  have hpredD : (!(cD = '-' || cD = '/')) = true := by
    simp [digit_ne_dash cD hcDdig, digit_ne_slash cD hcDdig]
  have h7ne : g7.filter (fun c => !(c = '-' || c = '/')) ≠ [] :=
    List.ne_nil_of_mem (List.mem_filter.mpr ⟨hcD, hpredD⟩)
  have h7safe : ∀ c ∈ g7.filter (fun c => !(c = '-' || c = '/')),
      safeFieldChar c := by
    intro c hc
    obtain ⟨hcmem, hcpred⟩ := List.mem_filter.mp hc
    rcases hall7 c hcmem with hd | h | h
    · exact safe_of_digitC c hd
    · rw [h] at hcpred
      exact absurd hcpred (by decide)
    · rw [h] at hcpred
      exact absurd hcpred (by decide)
  obtain ⟨v8, h8eq, h8ne, h8safe⟩ : ∃ v,
      (if "M".data.isPrefixOf (pyUpper g8) then "M".data
       else if "F".data.isPrefixOf (pyUpper g8) then "F".data
       else "U".data) = v ∧ v ≠ [] ∧ ∀ c ∈ v, safeFieldChar c := by
    by_cases hM : "M".data.isPrefixOf (pyUpper g8) = true
    · exact ⟨"M".data, by rw [if_pos hM], by decide, by decide⟩
    · by_cases hF : "F".data.isPrefixOf (pyUpper g8) = true
      · exact ⟨"F".data, by rw [if_neg hM, if_pos hF], by decide,
          by decide⟩
      · exact ⟨"U".data, by rw [if_neg hM, if_neg hF], by decide,
          by decide⟩
  rcases hsT : reSearch matchTrigger P with _ | gT <;>
  rcases hs11 : reSearch matchAddress P with _ | g11
  · unfold fallback_hl7_generator
    rw [hsT, h3s, h5s, h7s, h8s, hs11]
    dsimp only
    rw [h8eq]
    exact fallbackAssemble_valid now ctrlid "ADT-A01".data _ _ _ _ []
      uuid (by decide) (by decide) hnow hctrl h3ne h3safe h5ne h5safe
      h7ne h7safe h8ne h8safe (List.not_mem_nil _) (List.not_mem_nil _)
      huuid
  · have h11out : '\n' ∉ g11 ∧ ∀ c ∈ g11, c ∈ P := by
      obtain ⟨s', hsf, hm⟩ := reSearch_spec matchAddress P g11 hs11
      obtain ⟨hn, hin⟩ := matchAddress_out s' g11 hm
      refine ⟨hn, fun c hc => ?_⟩
      obtain ⟨a, ha⟩ := hsf
      rw [← ha]
      exact List.mem_append_right a (hin c hc)
    unfold fallback_hl7_generator
    rw [hsT, h3s, h5s, h7s, h8s, hs11]
    dsimp only
    rw [h8eq]
    exact fallbackAssemble_valid now ctrlid "ADT-A01".data _ _ _ _
      (pyStripWs g11) uuid (by decide) (by decide) hnow hctrl h3ne h3safe
      h5ne h5safe h7ne h7safe h8ne h8safe
      (fun hm => h11out.1 (mem_of_mem_pyStripWs hm))
      (fun hm => hPnoCR (h11out.2 _ (mem_of_mem_pyStripWs hm)))
      huuid
  · have hTout : gT ≠ [] ∧ ∀ c ∈ gT, trigChar c := by
      obtain ⟨s', hsf, hm⟩ := reSearch_spec matchTrigger P gT hsT
      exact matchTrigger_out s' gT hm
    have hTne : pyUpper (gT.map fun c => if c = ' ' then '-' else c) ≠
        [] := by
      intro h
      exact hTout.1 (List.map_eq_nil_iff.mp (List.map_eq_nil_iff.mp h))
    have hTc : ∀ c ∈ pyUpper (gT.map fun c => if c = ' ' then '-' else c),
        trigNorm c := by
      intro c hc
      rcases List.mem_map.mp hc with ⟨a, ha, rfl⟩
      rcases List.mem_map.mp ha with ⟨b, hb, rfl⟩
      exact trigMap_char b (hTout.2 b hb)
    unfold fallback_hl7_generator
    rw [hsT, h3s, h5s, h7s, h8s, hs11]
    dsimp only
    rw [h8eq]
    exact fallbackAssemble_valid now ctrlid _ _ _ _ _ [] uuid hTne hTc
      hnow hctrl h3ne h3safe h5ne h5safe h7ne h7safe h8ne h8safe
      (List.not_mem_nil _) (List.not_mem_nil _) huuid
  · have hTout : gT ≠ [] ∧ ∀ c ∈ gT, trigChar c := by
      obtain ⟨s', hsf, hm⟩ := reSearch_spec matchTrigger P gT hsT
      exact matchTrigger_out s' gT hm
    have hTne : pyUpper (gT.map fun c => if c = ' ' then '-' else c) ≠
        [] := by
      intro h
      exact hTout.1 (List.map_eq_nil_iff.mp (List.map_eq_nil_iff.mp h))
    have hTc : ∀ c ∈ pyUpper (gT.map fun c => if c = ' ' then '-' else c),
        trigNorm c := by
      intro c hc
      rcases List.mem_map.mp hc with ⟨a, ha, rfl⟩
      rcases List.mem_map.mp ha with ⟨b, hb, rfl⟩
      exact trigMap_char b (hTout.2 b hb)
    have h11out : '\n' ∉ g11 ∧ ∀ c ∈ g11, c ∈ P := by
      obtain ⟨s', hsf, hm⟩ := reSearch_spec matchAddress P g11 hs11
      obtain ⟨hn, hin⟩ := matchAddress_out s' g11 hm
      refine ⟨hn, fun c hc => ?_⟩
      obtain ⟨a, ha⟩ := hsf
      rw [← ha]
      exact List.mem_append_right a (hin c hc)
    unfold fallback_hl7_generator
    rw [hsT, h3s, h5s, h7s, h8s, hs11]
    dsimp only
    rw [h8eq]
    exact fallbackAssemble_valid now ctrlid _ _ _ _ _ (pyStripWs g11)
      uuid hTne hTc hnow hctrl h3ne h3safe h5ne h5safe h7ne h7safe h8ne
      h8safe (fun hm => h11out.1 (mem_of_mem_pyStripWs hm))
      (fun hm => hPnoCR (h11out.2 _ (mem_of_mem_pyStripWs hm)))
      huuid

/-- C6 (corrected): for a patient record whose required fields are present
and well-formed -- alphabetic first and last names, a non-empty
letters/digits/hyphen/underscore mrn, a date of birth of shape
YYYY-MM-DD (digits with hyphens), and gender one of the NORMALIZED values
Male, Female, Unknown (the value Other, although produced by the
normalizer, is NOT matched by the fallback generator's gender regex and
yields a message with PID-8 empty, see the counterexample) -- building the
HL7 message through the local deterministic generator path
(command -> prompt -> fallback_hl7_generator -> add_zpi_segment_with_uuid)
and then running validate_required_fields_api on the result yields
is_valid = true with no missing fields. -/
theorem C6_local_generator_validates
    (te mrn uuid ln fn gender addr city st zipc ph em : Str)
    (y1 y2 y3 y4 m1 m2 d1 d2 : Char)
    (now ctrlid current_time : Str)
    (hln : ln ≠ []) (hlnc : ∀ c ∈ ln, isAlphaC c = true)
    (hfn : fn ≠ []) (hfnc : ∀ c ∈ fn, isAlphaC c = true)
    (hmrn : mrn ≠ []) (hmrnc : ∀ c ∈ mrn, isIdChar c = true)
    (hdob : ∀ c ∈ [y1, y2, y3, y4, m1, m2, d1, d2], isDigitC c = true)
    (hgen : gender = "Male".data ∨ gender = "Female".data ∨
      gender = "Unknown".data)
    (hte : '\x0d' ∉ te) (haddr : '\x0d' ∉ addr) (hcity : '\x0d' ∉ city)
    (hstc : '\x0d' ∉ st) (hzipc : '\x0d' ∉ zipc) (hphc : '\x0d' ∉ ph)
    (hemc : '\x0d' ∉ em)
    (huuid : ∀ c ∈ uuid, isIdChar c = true)
    (hnow : ∀ c ∈ now, isDigitC c = true)
    (hctrl : ∀ c ∈ ctrlid, isIdChar c = true)
    (hcur : ∀ c ∈ current_time, isDigitC c = true) :
    localGeneratorPipeline te mrn uuid ln fn
      [y1, y2, y3, y4, '-', m1, m2, '-', d1, d2] gender addr city st zipc
      ph em now ctrlid current_time =
      ⟨true, [], "Validation passed".data⟩ := by
  have hdobcr : '\x0d' ∉ [y1, y2, y3, y4, '-', m1, m2, '-', d1, d2] := by
    intro hm
    simp only [List.mem_cons, List.not_mem_nil, or_false] at hm
    rcases hm with h | h | h | h | h | h | h | h | h | h
    · have := hdob y1 (by simp); rw [← h] at this
      exact absurd this (by decide)
    · have := hdob y2 (by simp); rw [← h] at this
      exact absurd this (by decide)
    · have := hdob y3 (by simp); rw [← h] at this
      exact absurd this (by decide)
    · have := hdob y4 (by simp); rw [← h] at this
      exact absurd this (by decide)
    · exact absurd h (by decide)
    · have := hdob m1 (by simp); rw [← h] at this
      exact absurd this (by decide)
    · have := hdob m2 (by simp); rw [← h] at this
      exact absurd this (by decide)
    · exact absurd h (by decide)
    · have := hdob d1 (by simp); rw [← h] at this
      exact absurd this (by decide)
    · have := hdob d2 (by simp); rw [← h] at this
      exact absurd this (by decide)
  have hgencr : '\x0d' ∉ gender := by
    rcases hgen with rfl | rfl | rfl <;> decide
  have hcr_cmd : '\x0d' ∉ buildPatientCommand te mrn uuid ln fn
      [y1, y2, y3, y4, '-', m1, m2, '-', d1, d2] gender addr city st zipc
      ph em := by
    unfold buildPatientCommand
    refine not_mem_cons_ch (by decide) ?_
    refine not_mem_append_ch (by decide) ?_
    refine not_mem_append_ch hte ?_
    refine not_mem_cons_ch (by decide) ?_
    refine not_mem_append_ch (by decide) ?_
    refine not_mem_append_ch (notMem_of_all hmrnc (by decide)) ?_
    refine not_mem_cons_ch (by decide) ?_
    refine not_mem_append_ch (by decide) ?_
    refine not_mem_append_ch (notMem_of_all huuid (by decide)) ?_
    refine not_mem_cons_ch (by decide) ?_
    refine not_mem_append_ch (by decide) ?_
    refine not_mem_append_ch (notMem_of_all hlnc (by decide)) ?_
    refine not_mem_cons_ch (by decide) ?_
    refine not_mem_append_ch (notMem_of_all hfnc (by decide)) ?_
    refine not_mem_cons_ch (by decide) ?_
    refine not_mem_append_ch (by decide) ?_
    refine not_mem_append_ch hdobcr ?_
    refine not_mem_cons_ch (by decide) ?_
    refine not_mem_append_ch (by decide) ?_
    refine not_mem_append_ch hgencr ?_
    refine not_mem_cons_ch (by decide) ?_
    refine not_mem_append_ch (by decide) ?_
    refine not_mem_append_ch haddr ?_
    refine not_mem_cons_ch (by decide) ?_
    refine not_mem_append_ch (by decide) ?_
    refine not_mem_append_ch hcity ?_
    refine not_mem_cons_ch (by decide) ?_
    refine not_mem_append_ch (by decide) ?_
    refine not_mem_append_ch hstc ?_
    refine not_mem_cons_ch (by decide) ?_
    refine not_mem_append_ch (by decide) ?_
    refine not_mem_append_ch hzipc ?_
    refine not_mem_cons_ch (by decide) ?_
    refine not_mem_append_ch (by decide) ?_
    refine not_mem_append_ch hphc ?_
    refine not_mem_cons_ch (by decide) ?_
    refine not_mem_append_ch (by decide) ?_
    refine not_mem_append_ch hemc ?_
    refine not_mem_cons_ch (by decide) ?_
    refine not_mem_append_ch (by decide) ?_
    refine not_mem_append_ch hte ?_
    refine not_mem_append_ch (by decide) ?_
    refine not_mem_append_ch (notMem_of_all hfnc (by decide)) ?_
    refine not_mem_cons_ch (by decide) ?_
    refine not_mem_append_ch (notMem_of_all hlnc (by decide)) ?_
    refine not_mem_append_ch (by decide) ?_
    refine not_mem_append_ch (notMem_of_all hmrnc (by decide)) ?_
    refine not_mem_append_ch (by decide) ?_
    refine not_mem_append_ch (notMem_of_all huuid (by decide)) ?_
    refine not_mem_append_ch (by decide) ?_
    refine not_mem_append_ch hdobcr ?_
    refine not_mem_append_ch (by decide) ?_
    refine not_mem_append_ch hgencr ?_
    decide
  have hPnoCR : '\x0d' ∉ buildPrompt current_time
      (buildPatientCommand te mrn uuid ln fn
        [y1, y2, y3, y4, '-', m1, m2, '-', d1, d2] gender addr city st
        zipc ph em) := by
    unfold buildPrompt
    refine not_mem_append_ch (by decide) ?_
    refine not_mem_append_ch hcr_cmd ?_
    refine not_mem_append_ch (by decide) ?_
    refine not_mem_cons_ch (by decide) ?_
    refine not_mem_cons_ch (by decide) ?_
    refine not_mem_cons_ch (by decide) ?_
    refine not_mem_append_ch (by decide) ?_
    refine not_mem_cons_ch (by decide) ?_
    refine not_mem_cons_ch (by decide) ?_
    refine not_mem_cons_ch (by decide) ?_
    refine not_mem_cons_ch (by decide) ?_
    refine not_mem_cons_ch (by decide) ?_
    refine not_mem_append_ch (by decide) ?_
    refine not_mem_cons_ch (by decide) ?_
    refine not_mem_append_ch (notMem_of_all hcur (by decide)) ?_
    refine not_mem_cons_ch (by decide) ?_
    decide
  have hex3 : ∃ g, reSearch matchPatientId
      (buildPrompt current_time
        (buildPatientCommand te mrn uuid ln fn
          [y1, y2, y3, y4, '-', m1, m2, '-', d1, d2] gender addr city st
          zipc ph em)) = some g := by
    obtain ⟨tl, htl⟩ : ∃ tl, buildPatientCommand te mrn uuid ln fn
        [y1, y2, y3, y4, '-', m1, m2, '-', d1, d2] gender addr city st
        zipc ph em =
        '\n' :: ("Trigger Event: ".data ++ (te ++
          '\n' :: ("Patient ID: ".data ++ (mrn ++ '\n' :: tl)))) :=
      ⟨_, rfl⟩
    obtain ⟨prt, hprt⟩ : ∃ prt, buildPrompt current_time
        (buildPatientCommand te mrn uuid ln fn
          [y1, y2, y3, y4, '-', m1, m2, '-', d1, d2] gender addr city st
          zipc ph em) =
        "You are an HL7 v2.x message generator. Generate a valid HL7 message based on the following command:\n\n".data ++
          (buildPatientCommand te mrn uuid ln fn
            [y1, y2, y3, y4, '-', m1, m2, '-', d1, d2] gender addr city
            st zipc ph em ++ prt) := ⟨_, rfl⟩
    refine reSearch_isSome_of_suffix matchPatientId _
      ("Patient ID: ".data ++ (mrn ++ '\n' :: (tl ++ prt))) mrn ?_
      (matchPatientId_at mrn (tl ++ prt) hmrn hmrnc)
    rw [hprt, htl]
    have heq : ("Patient ID: ".data ++ (mrn ++ '\n' :: tl)) ++ prt =
        "Patient ID: ".data ++ (mrn ++ '\n' :: (tl ++ prt)) := by
      simp [List.append_assoc]
    rw [← heq]
    refine suffix_append_of _ (suffix_append_right ?_ prt)
    exact suffix_cons_of '\n' (suffix_append_of _ (suffix_append_of te
      (suffix_cons_of '\n' List.suffix_rfl)))
  have hex5 : ∃ g, reSearch matchName
      (buildPrompt current_time
        (buildPatientCommand te mrn uuid ln fn
          [y1, y2, y3, y4, '-', m1, m2, '-', d1, d2] gender addr city st
          zipc ph em)) = some g := by
    obtain ⟨tl, htl⟩ : ∃ tl, buildPatientCommand te mrn uuid ln fn
        [y1, y2, y3, y4, '-', m1, m2, '-', d1, d2] gender addr city st
        zipc ph em =
        '\n' :: ("Trigger Event: ".data ++ (te ++
        '\n' :: ("Patient ID: ".data ++ (mrn ++
        '\n' :: ("Patient UUID: ".data ++ (uuid ++
        '\n' :: ("Patient Name: ".data ++
          (ln ++ ' ' :: (fn ++ '\n' :: tl))))))))) := ⟨_, rfl⟩
    obtain ⟨prt, hprt⟩ : ∃ prt, buildPrompt current_time
        (buildPatientCommand te mrn uuid ln fn
          [y1, y2, y3, y4, '-', m1, m2, '-', d1, d2] gender addr city st
          zipc ph em) =
        "You are an HL7 v2.x message generator. Generate a valid HL7 message based on the following command:\n\n".data ++
          (buildPatientCommand te mrn uuid ln fn
            [y1, y2, y3, y4, '-', m1, m2, '-', d1, d2] gender addr city
            st zipc ph em ++ prt) := ⟨_, rfl⟩
    refine reSearch_isSome_of_suffix matchName _
      ("Patient Name: ".data ++ (ln ++ ' ' :: (fn ++ '\n' :: (tl ++
        prt)))) (ln, fn) ?_
      (matchName_at ln fn (tl ++ prt) hln hfn
        (fun c hc => nameChar_of_alphaC c (hlnc c hc))
        (fun c hc => nameChar_of_alphaC c (hfnc c hc)))
    rw [hprt, htl]
    have heq : ("Patient Name: ".data ++
        (ln ++ ' ' :: (fn ++ '\n' :: tl))) ++ prt =
        "Patient Name: ".data ++
          (ln ++ ' ' :: (fn ++ '\n' :: (tl ++ prt))) := by
      simp [List.append_assoc]
    rw [← heq]
    refine suffix_append_of _ (suffix_append_right ?_ prt)
    exact suffix_cons_of '\n' (suffix_append_of _ (suffix_append_of te
      (suffix_cons_of '\n' (suffix_append_of _ (suffix_append_of mrn
      (suffix_cons_of '\n' (suffix_append_of _ (suffix_append_of uuid
      (suffix_cons_of '\n' List.suffix_rfl)))))))))
  have hex7 : ∃ g, reSearch (matchDob "date of birth".data)
      (buildPrompt current_time
        (buildPatientCommand te mrn uuid ln fn
          [y1, y2, y3, y4, '-', m1, m2, '-', d1, d2] gender addr city st
          zipc ph em)) = some g := by
    obtain ⟨tl, htl⟩ : ∃ tl, buildPatientCommand te mrn uuid ln fn
        [y1, y2, y3, y4, '-', m1, m2, '-', d1, d2] gender addr city st
        zipc ph em =
        '\n' :: ("Trigger Event: ".data ++ (te ++
        '\n' :: ("Patient ID: ".data ++ (mrn ++
        '\n' :: ("Patient UUID: ".data ++ (uuid ++
        '\n' :: ("Patient Name: ".data ++ (ln ++ ' ' :: (fn ++
        '\n' :: ("Date of Birth: ".data ++
          ([y1, y2, y3, y4, '-', m1, m2, '-', d1, d2] ++
            '\n' :: tl))))))))))) := ⟨_, rfl⟩
    obtain ⟨prt, hprt⟩ : ∃ prt, buildPrompt current_time
        (buildPatientCommand te mrn uuid ln fn
          [y1, y2, y3, y4, '-', m1, m2, '-', d1, d2] gender addr city st
          zipc ph em) =
        "You are an HL7 v2.x message generator. Generate a valid HL7 message based on the following command:\n\n".data ++
          (buildPatientCommand te mrn uuid ln fn
            [y1, y2, y3, y4, '-', m1, m2, '-', d1, d2] gender addr city
            st zipc ph em ++ prt) := ⟨_, rfl⟩
    refine reSearch_isSome_of_suffix (matchDob "date of birth".data) _
      ("Date of Birth: ".data ++
        ([y1, y2, y3, y4, '-', m1, m2, '-', d1, d2] ++
          '\n' :: (tl ++ prt)))
      [y1, y2, y3, y4, '-', m1, m2, '-', d1, d2] ?_
      (matchDob_at y1 y2 y3 y4 m1 m2 d1 d2 (tl ++ prt) hdob)
    rw [hprt, htl]
    have heq : ("Date of Birth: ".data ++
        ([y1, y2, y3, y4, '-', m1, m2, '-', d1, d2] ++ '\n' :: tl)) ++
        prt =
        "Date of Birth: ".data ++
          ([y1, y2, y3, y4, '-', m1, m2, '-', d1, d2] ++
            '\n' :: (tl ++ prt)) := by
      simp [List.append_assoc]
    rw [← heq]
    refine suffix_append_of _ (suffix_append_right ?_ prt)
    exact suffix_cons_of '\n' (suffix_append_of _ (suffix_append_of te
      (suffix_cons_of '\n' (suffix_append_of _ (suffix_append_of mrn
      (suffix_cons_of '\n' (suffix_append_of _ (suffix_append_of uuid
      (suffix_cons_of '\n' (suffix_append_of _ (suffix_append_of ln
      (suffix_cons_of ' ' (suffix_append_of fn
      (suffix_cons_of '\n' List.suffix_rfl))))))))))))))
  have hex8 : ∃ g, reSearch matchGender
      (buildPrompt current_time
        (buildPatientCommand te mrn uuid ln fn
          [y1, y2, y3, y4, '-', m1, m2, '-', d1, d2] gender addr city st
          zipc ph em)) = some g := by
    obtain ⟨tl, htl⟩ : ∃ tl, buildPatientCommand te mrn uuid ln fn
        [y1, y2, y3, y4, '-', m1, m2, '-', d1, d2] gender addr city st
        zipc ph em =
        '\n' :: ("Trigger Event: ".data ++ (te ++
        '\n' :: ("Patient ID: ".data ++ (mrn ++
        '\n' :: ("Patient UUID: ".data ++ (uuid ++
        '\n' :: ("Patient Name: ".data ++ (ln ++ ' ' :: (fn ++
        '\n' :: ("Date of Birth: ".data ++
          ([y1, y2, y3, y4, '-', m1, m2, '-', d1, d2] ++
        '\n' :: ("Gender: ".data ++
          (gender ++ '\n' :: tl))))))))))))) := ⟨_, rfl⟩
    obtain ⟨prt, hprt⟩ : ∃ prt, buildPrompt current_time
        (buildPatientCommand te mrn uuid ln fn
          [y1, y2, y3, y4, '-', m1, m2, '-', d1, d2] gender addr city st
          zipc ph em) =
        "You are an HL7 v2.x message generator. Generate a valid HL7 message based on the following command:\n\n".data ++
          (buildPatientCommand te mrn uuid ln fn
            [y1, y2, y3, y4, '-', m1, m2, '-', d1, d2] gender addr city
            st zipc ph em ++ prt) := ⟨_, rfl⟩
    have hsuffix : ("Gender: ".data ++ (gender ++ '\n' :: (tl ++ prt)))
        <:+ buildPrompt current_time
          (buildPatientCommand te mrn uuid ln fn
            [y1, y2, y3, y4, '-', m1, m2, '-', d1, d2] gender addr city
            st zipc ph em) := by
      rw [hprt, htl]
      have heq : ("Gender: ".data ++ (gender ++ '\n' :: tl)) ++ prt =
          "Gender: ".data ++ (gender ++ '\n' :: (tl ++ prt)) := by
        simp [List.append_assoc]
      rw [← heq]
      refine suffix_append_of _ (suffix_append_right ?_ prt)
      exact suffix_cons_of '\n' (suffix_append_of _ (suffix_append_of te
        (suffix_cons_of '\n' (suffix_append_of _ (suffix_append_of mrn
        (suffix_cons_of '\n' (suffix_append_of _ (suffix_append_of uuid
        (suffix_cons_of '\n' (suffix_append_of _ (suffix_append_of ln
        (suffix_cons_of ' ' (suffix_append_of fn
        (suffix_cons_of '\n' (suffix_append_of _ (suffix_append_of
          [y1, y2, y3, y4, '-', m1, m2, '-', d1, d2]
        (suffix_cons_of '\n' List.suffix_rfl)))))))))))))))))
    rcases hgen with hg | hg | hg
    · rw [hg] at hsuffix ⊢
      exact reSearch_isSome_of_suffix matchGender _ _ ['M'] hsuffix
        (matchGender_at_male (tl ++ prt))
    · rw [hg] at hsuffix ⊢
      exact reSearch_isSome_of_suffix matchGender _ _ ['F'] hsuffix
        (matchGender_at_female (tl ++ prt))
    · rw [hg] at hsuffix ⊢
      exact reSearch_isSome_of_suffix matchGender _ _ ['U'] hsuffix
        (matchGender_at_unknown (tl ++ prt))
  unfold localGeneratorPipeline
  exact fallback_output_valid now ctrlid _ uuid hnow hctrl huuid hPnoCR
    hex3 hex5 hex7 hex8

/-- C6 counterexample: a fully well-formed record whose gender is the
normalized value "Other" (which validate_patient_record accepts) flows
through the local generator into a message whose PID-8 is empty: the
fallback regex `(M|F|Male|Female|U|Unknown)` does not match "Other", so
the field-tier validator rejects the message with PID-8 missing. -/
theorem C6_counterexample :
    (localGeneratorPipeline "ADT-A01".data "MRN000001".data "u1".data
      "Doe".data "John".data "1990-01-01".data "Other".data
      "1 Main St".data "Springfield".data "IL".data "62704".data
      "5551234567".data "jdoe@example.com".data "20250101120000".data
      "abc123".data "20250101120000".data).is_valid = false ∧
    (localGeneratorPipeline "ADT-A01".data "MRN000001".data "u1".data
      "Doe".data "John".data "1990-01-01".data "Other".data
      "1 Main St".data "Springfield".data "IL".data "62704".data
      "5551234567".data "jdoe@example.com".data "20250101120000".data
      "abc123".data "20250101120000".data).missing_fields =
      ["PID-8".data] := by
  constructor
  · rfl
  · rfl

/-- Witness: the amended C6 theorem applied at a concrete well-formed
record (gender Male), with every hypothesis discharged by computation. -/
theorem C6_local_generator_validates_witness :
    localGeneratorPipeline "ADT-A01".data "MRN000001".data "u1".data
      "Doe".data "John".data "1990-01-01".data "Male".data
      "1 Main St".data "Springfield".data "IL".data "62704".data
      "5551234567".data "jdoe@example.com".data "20250101120000".data
      "abc123".data "20250101120000".data =
      ⟨true, [], "Validation passed".data⟩ :=
  C6_local_generator_validates "ADT-A01".data "MRN000001".data "u1".data
    "Doe".data "John".data "Male".data "1 Main St".data
    "Springfield".data "IL".data "62704".data "5551234567".data
    "jdoe@example.com".data '1' '9' '9' '0' '0' '1' '0' '1'
    "20250101120000".data "abc123".data "20250101120000".data
    (by decide) (by decide) (by decide) (by decide) (by decide)
    (by decide) (by decide) (by decide) (by decide) (by decide)
    (by decide) (by decide) (by decide) (by decide) (by decide)
    (by decide) (by decide) (by decide) (by decide)
